import Mathlib

/-!
# a2a-protocol: the task lifecycle engine

A shallow embedding of the server side of `viant/a2a-protocol`:

* `schema/events.go`, `schema/history.go`, `schema/card_capabilities.go`
* `server/tasks.go` (the in-memory task store)
* `server/ops_impl.go` (the default `Operations` implementation)
* `server/jsonrpc.go` (the plain JSON-RPC handlers of `Server`)
* `server/sse_stream.go` (event emission)

## Modelling conventions

* **Time.** `time.Time` is a natural number of ticks; the zero `time.Time` is `0`. Every
  call of `time.Now()` in the source is an explicit argument of the embedded function,
  named after the place where the source reads the clock.
* **Pointers.** The store holds `*schema.Task`. A task obtained from `taskStore.get` or
  `taskStore.newTask` *is* the stored object, so an assignment through it changes the
  stored record at once, before any `put`. The embedding keeps the local value of the
  pointee and mirrors each assignment through the pointer into the store with
  `taskStore.sync`. Records are filed under their own `ID` (both `newTask` and `put` file
  a task under `task.ID`, and no code assigns `ID` after construction), so `items` is a
  list of records looked up by `ID`.
* **Maps.** Go maps are association lists with insert-or-replace; lookups return the
  first match.
* **JSON input.** `json.Unmarshal` of the request parameters is not re-implemented: a
  handler receives `RawParams`, which says whether the parameters were absent, failed to
  decode, or decoded to a value of the handler's parameter struct.
* **Goroutines.** `go f(...)` is recorded in the handler's outcome as the work that was
  started (`Spawned`); `opsImpl.runSpawned` runs it to its end.
* **Integers.** `int64` is `Int` with `wrap64` at every arithmetic step that can overflow.
-/

set_option autoImplicit false

namespace A2A

/-! ## schema: states, tasks, artifacts -/

/-- Instants (`time.Time`); `0` is the zero time. -/
abbrev Time := Nat

/-- Mirror of `time.Time.IsZero`. -/
def Time.IsZero (t : Time) : Bool := t == 0

/-- Mirror of `schema.TaskState`, a string type with five named constants; `other` is any
further value of the underlying type. -/
inductive TaskState where
  | TaskRunning
  | TaskAuthRequired
  | TaskCompleted
  | TaskFailed
  | TaskCanceled
  | other (raw : String)
  deriving DecidableEq

open TaskState

/-- A decoded JSON value, also used for the dynamic values of a `map[string]interface{}`.
Numbers are never inspected by the engine and are kept as their literal. -/
inductive JSON where
  | null
  | bool (b : Bool)
  | num (lit : String)
  | str (s : String)
  | arr (xs : List JSON)
  | obj (kvs : List (String × JSON))

/-- Mirror of `schema.DataPart`: `{Type, Data}` with `Data` a `map[string]interface{}`
(`Typ` is the Go field `Type`). -/
structure DataPart where
  Typ : String
  Data : List (String × JSON)

/-- Mirror of `schema.TextPart` (`Typ` is the Go field `Type`). -/
structure TextPart where
  Typ : String
  Text : String
  deriving DecidableEq

/-- Mirror of `schema.TaskStatus`: state, timestamp, optional message. -/
structure TaskStatus where
  State : TaskState
  UpdatedAt : Time
  Message : Option DataPart := none

/-- Mirror of `schema.Artifact`. `PartsRaw`, the wire form that `schema.MarshalParts`
computes from `Parts`, is a function of `Parts` and is not carried. -/
structure Artifact where
  ID : String
  CreatedAt : Time
  Parts : List TextPart
  deriving DecidableEq

/-- Mirror of `schema.Task`. -/
structure Task where
  ID : String
  ContextID : Option String
  Status : TaskStatus
  Artifacts : List Artifact := []

/-- Mirror of `schema.TaskStateTransition` (`schema/history.go`). -/
structure TaskStateTransition where
  State : TaskState
  At : Time
  deriving DecidableEq

/-- Mirror of `(*Task).Touch` (`schema/events.go`): set the state and stamp the time. -/
def Task.Touch (t : Task) (state : TaskState) (now : Time) : Task :=
  { t with Status := { t.Status with State := state, UpdatedAt := now } }

/-- Mirror of `schema.PushNotificationConfig`: id, delivery URL, further fields. -/
structure PushNotificationConfig where
  ID : String
  URL : String
  Fields : List (String × String) := []
  deriving DecidableEq

/-- Mirror of `schema.Message`, reduced to what the engine inspects: the raw parts, each a
syntactically valid JSON value. -/
structure Message where
  PartsRaw : List JSON

/-! ## schema: streaming events (`schema/events.go`) -/

/-- Mirror of `schema.TaskStatusUpdateEvent` (`Metadata` is never set). -/
structure TaskStatusUpdateEvent where
  TaskID : String
  ContextID : String
  Kind : String
  Status : TaskStatus
  Final : Bool

/-- Mirror of `schema.TaskArtifactUpdateEvent` (`Metadata` is never set). -/
structure TaskArtifactUpdateEvent where
  TaskID : String
  ContextID : String
  Kind : String
  Artifact : Artifact
  Append : Bool
  LastChunk : Bool
  deriving DecidableEq

/-- An event handed to the emitter. -/
inductive Event where
  | status (e : TaskStatusUpdateEvent)
  | artifact (e : TaskArtifactUpdateEvent)

/-- Mirror of `schema.NewStatusEvent`. -/
def NewStatusEvent (task : Task) (final : Bool) : TaskStatusUpdateEvent :=
  let ctx := match task.ContextID with
    | some c => c
    | none => ""
  { TaskID := task.ID, ContextID := ctx, Kind := "status-update",
    Status := task.Status, Final := final }

/-- Mirror of `schema.NewArtifactEvent`. -/
def NewArtifactEvent (task : Task) (art : Artifact) (append last : Bool) :
    TaskArtifactUpdateEvent :=
  let ctx := match task.ContextID with
    | some c => c
    | none => ""
  { TaskID := task.ID, ContextID := ctx, Kind := "artifact-update",
    Artifact := art, Append := append, LastChunk := last }

/-! ## schema: the agent card and its capabilities (`schema/card_capabilities.go`) -/

/-- Mirror of `schema.AgentCapabilities` (the `Extensions` list is not read by the
accessors). -/
structure AgentCapabilities where
  Streaming : Option Bool := none
  PushNotifications : Option Bool := none
  StateTransitionHistory : Option Bool := none
  deriving DecidableEq

/-- Mirror of `schema.AgentCard`, reduced to its name, the legacy capability list and the
structured capability object. -/
structure AgentCard where
  Name : String := ""
  Capabilities : List String := []
  capObj : Option AgentCapabilities := none
  deriving DecidableEq

/-- Mirror of `contains`. -/
def contains : List String → String → Bool
  | [], _ => false
  | e :: rest, v => if e == v then true else contains rest v

/-- Mirror of `(*AgentCard).StreamingSupported`; `none` is the nil receiver. -/
def AgentCard.StreamingSupported : Option AgentCard → Bool
  | none => false
  | some a =>
    match a.capObj with
    | some c =>
      match c.Streaming with
      | some b => b
      | none => contains a.Capabilities "streaming"
    | none => contains a.Capabilities "streaming"

/-- Mirror of `(*AgentCard).PushNotificationsSupported`; `none` is the nil receiver. -/
def AgentCard.PushNotificationsSupported : Option AgentCard → Bool
  | none => false
  | some a =>
    match a.capObj with
    | some c =>
      match c.PushNotifications with
      | some b => b
      | none => contains a.Capabilities "pushNotifications"
    | none => contains a.Capabilities "pushNotifications"

/-- Mirror of `(*AgentCard).StateTransitionHistorySupported`; `none` is the nil
receiver. -/
def AgentCard.StateTransitionHistorySupported : Option AgentCard → Bool
  | none => false
  | some a =>
    match a.capObj with
    | some c =>
      match c.StateTransitionHistory with
      | some b => b
      | none => contains a.Capabilities "stateTransitionHistory"
    | none => contains a.Capabilities "stateTransitionHistory"

/-- Mirror of `(*AgentCard).SetCapabilities`: store the object and derive the legacy
list. -/
def AgentCard.SetCapabilities (a : AgentCard) (c : AgentCapabilities) : AgentCard :=
  let list : List String := []
  let list := if c.Streaming = some true then list ++ ["streaming"] else list
  let list := if c.PushNotifications = some true then list ++ ["pushNotifications"] else list
  let list := if c.StateTransitionHistory = some true then
    list ++ ["stateTransitionHistory"] else list
  { a with capObj := some c, Capabilities := list }

/-! ## server/tasks.go: identifiers -/

/-- Two's-complement wrap of an integer into the `int64` range. -/
def wrap64 (v : Int) : Int := (v + 2 ^ 63) % 2 ^ 64 - 2 ^ 63

/-- The decimal digit character of `d % 10`: `byte('0' + d)`. -/
def digitChar (d : Nat) : Char :=
  match d % 10 with
  | 0 => '0' | 1 => '1' | 2 => '2' | 3 => '3' | 4 => '4'
  | 5 => '5' | 6 => '6' | 7 => '7' | 8 => '8' | _ => '9'

/-- The digit loop of `itoa`: `for v > 0 { i--; buf[i] = '0' + v%10; v /= 10 }`.
The state is the index `i` into the 20-byte buffer and the bytes written so far
(`buf[i:]`); `none` is an index below zero. `fuel` bounds the iterations. -/
def itoaLoop : Nat → Int → Nat → List Char → Option (Nat × List Char)
  | 0, v, i, out => if v > 0 then none else some (i, out)
  | fuel + 1, v, i, out =>
    if v > 0 then
      match i with
      | 0 => none
      | j + 1 => itoaLoop fuel (v / 10) j (digitChar (v % 10).toNat :: out)
    else some (i, out)

/-- Mirror of `itoa` with the buffer index made explicit: `none` when an index would
leave the 20-byte buffer. -/
def itoaBuf (v : Int) : Option String :=
  if v == 0 then some "0"
  else
    let neg := decide (v < 0)
    let v := if neg then wrap64 (-v) else v
    match itoaLoop 21 v 20 [] with
    | none => none
    | some (i, out) =>
      if neg then
        match i with
        | 0 => none
        | _ + 1 => some (String.mk ('-' :: out))
      else some (String.mk out)

/-- Mirror of `itoa`: the string built in the buffer (the empty string stands for an
index out of range, which `int64` arguments never reach). -/
def itoa (v : Int) : String := (itoaBuf v).getD ""

/-- Mirror of `formatID`. -/
def formatID (seq : Int) : String := "t-" ++ itoa seq

/-- Mirror of `isTerminal`. -/
def isTerminal : TaskState → Bool
  | TaskCompleted => true
  | TaskFailed => true
  | TaskCanceled => true
  | _ => false

/-! ## server/tasks.go: the task store -/

/-- Index into a Go map kept as an association list: `v, ok := m[k]`. -/
def mapGet {β : Type} : List (String × β) → String → Option β
  | [], _ => none
  | (k', v) :: rest, k => if k' == k then some v else mapGet rest k

/-- Assignment into a Go map kept as an association list: `m[k] = v`. -/
def mapSet {β : Type} : List (String × β) → String → β → List (String × β)
  | [], k, v => [(k, v)]
  | (k', v') :: rest, k, v => if k' == k then (k, v) :: rest else (k', v') :: mapSet rest k v

/-- Lookup `items[id]` in the task map (records are filed under their own `ID`). -/
def itemsGet : List Task → String → Option Task
  | [], _ => none
  | x :: rest, id => if x.ID == id then some x else itemsGet rest id

/-- Assignment `items[task.ID] = task`. -/
def itemsSet : List Task → Task → List Task
  | [], task => [task]
  | x :: rest, task => if x.ID == task.ID then task :: rest else x :: itemsSet rest task

/-- The effect on the task map of an assignment made through a `*schema.Task`: when the
object is the one filed under its `ID`, the stored record changes with it; an object that
is not stored leaves the map alone. -/
def itemsSync : List Task → Task → List Task
  | [], _ => []
  | x :: rest, task => if x.ID == task.ID then task :: rest else x :: itemsSync rest task

/-- Lookup `m[cfgID]` in one task's subscription map. -/
def cfgGet : List PushNotificationConfig → String → Option PushNotificationConfig
  | [], _ => none
  | c :: rest, id => if c.ID == id then some c else cfgGet rest id

/-- Assignment `m[cfg.ID] = cfg` in one task's subscription map. -/
def cfgSet : List PushNotificationConfig → PushNotificationConfig →
    List PushNotificationConfig
  | [], cfg => [cfg]
  | c :: rest, cfg => if c.ID == cfg.ID then cfg :: rest else c :: cfgSet rest cfg

/-- Removal `delete(m, cfgID)` from one task's subscription map. -/
def cfgDelete : List PushNotificationConfig → String → List PushNotificationConfig
  | [], _ => []
  | c :: rest, id => if c.ID == id then rest else c :: cfgDelete rest id

/-- Mirror of `taskStore` (the lock is not modelled: calls are atomic). -/
structure taskStore where
  seq : Int := 0
  items : List Task := []
  push : List (String × List PushNotificationConfig) := []
  pseq : Int := 0
  hist : List (String × List TaskStateTransition) := []

/-- Mirror of `newTaskStore`. -/
def newTaskStore : taskStore := {}

/-- History append `hist[id] = append(hist[id], tr)`. -/
def histAppend (hist : List (String × List TaskStateTransition)) (id : String)
    (tr : TaskStateTransition) : List (String × List TaskStateTransition) :=
  mapSet hist id ((mapGet hist id).getD [] ++ [tr])

/-- Mirror of `(*taskStore).newTask`; `now` is its `time.Now()`. Returns the store and
the new task. -/
def taskStore.newTask (t : taskStore) (contextID : Option String) (now : Time) :
    taskStore × Task :=
  let seq := wrap64 (t.seq + 1)
  let id := formatID seq
  let task : Task :=
    { ID := id, ContextID := contextID,
      Status := { State := TaskRunning, UpdatedAt := now } }
  ({ t with
      seq := seq
      items := itemsSet t.items task
      hist := histAppend t.hist id
        { State := task.Status.State, At := task.Status.UpdatedAt } },
   task)

/-- Mirror of `(*taskStore).get`. -/
def taskStore.get (t : taskStore) (id : String) : Option Task := itemsGet t.items id

/-- An assignment through a task pointer, seen from the store (see `itemsSync`). -/
def taskStore.sync (t : taskStore) (task : Task) : taskStore :=
  { t with items := itemsSync t.items task }

/-- The current value of the object a task pointer refers to: the stored record when the
object is stored, the value itself otherwise. -/
def taskStore.deref (t : taskStore) (task : Task) : Task :=
  (t.get task.ID).getD task

/-- Mirror of `(*taskStore).put`; `now` is the `time.Now()` read when the task's
timestamp is zero. -/
def taskStore.put (t : taskStore) (task : Task) (now : Time) : taskStore :=
  let hist :=
    match itemsGet t.items task.ID with
    | some prev =>
      if prev.Status.State != task.Status.State then
        let at0 := task.Status.UpdatedAt
        let at1 := if at0.IsZero then now else at0
        histAppend t.hist task.ID { State := task.Status.State, At := at1 }
      else t.hist
    | none =>
      histAppend t.hist task.ID
        { State := task.Status.State, At := task.Status.UpdatedAt }
  { t with hist := hist, items := itemsSet t.items task }

/-- Mirror of `(*taskStore).addPush`: `none` is the nil result. -/
def taskStore.addPush (t : taskStore) (taskID : String) (cfg : PushNotificationConfig) :
    taskStore × Option PushNotificationConfig :=
  match itemsGet t.items taskID with
  | none => (t, none)
  | some _ =>
    let pseq := wrap64 (t.pseq + 1)
    let cfg := if cfg.ID == "" then { cfg with ID := "pc-" ++ itoa pseq } else cfg
    let m := (mapGet t.push taskID).getD []
    ({ t with pseq := pseq, push := mapSet t.push taskID (cfgSet m cfg) }, some cfg)

/-- Mirror of `(*taskStore).getPush`. -/
def taskStore.getPush (t : taskStore) (taskID cfgID : String) :
    Option PushNotificationConfig :=
  match mapGet t.push taskID with
  | none => none
  | some m => cfgGet m cfgID

/-- Mirror of `(*taskStore).listPush`: `none` is `(nil, false)`. -/
def taskStore.listPush (t : taskStore) (taskID : String) :
    Option (List PushNotificationConfig) :=
  match itemsGet t.items taskID with
  | none => none
  | some _ =>
    match mapGet t.push taskID with
    | none => some []
    | some m => some m

/-- Mirror of `(*taskStore).deletePush`. -/
def taskStore.deletePush (t : taskStore) (taskID cfgID : String) : taskStore × Bool :=
  match mapGet t.push taskID with
  | none => (t, false)
  | some m =>
    match cfgGet m cfgID with
    | none => (t, false)
    | some _ => ({ t with push := mapSet t.push taskID (cfgDelete m cfgID) }, true)

/-- Mirror of `(*taskStore).listTasks`. -/
def taskStore.listTasks (t : taskStore) : List Task := t.items

/-- Mirror of `(*taskStore).getHistory`. -/
def taskStore.getHistory (t : taskStore) (taskID : String) :
    Option (List TaskStateTransition) :=
  mapGet t.hist taskID

/-! ## server/ops_impl.go: the secondary-authorization detector -/

/-- Mirror of `secAuth`. -/
structure secAuth where
  Require : Bool := false
  Resource : String := ""
  Scopes : List String := []
  AuthorizationURI : String := ""
  Token : String := ""
  deriving DecidableEq

/-- Index `m[k]` into a `map[string]interface{}` decoded from a JSON object given by its
members in document order: a repeated key keeps its last value. -/
def JSON.member (kvs : List (String × JSON)) (k : String) : Option JSON :=
  mapGet kvs.reverse k

/-- Lower-casing of one character, as far as `strings.ToLower` matters here: the letters
`A`-`Z`. No other character lower-cases to `d`, `a` or `t`, so comparing the result with
`"data"` agrees with the source. -/
def lowerChar (c : Char) : Char :=
  if 'A' ≤ c ∧ c ≤ 'Z' then Char.ofNat (c.toNat + 32) else c

/-- Mirror of `strings.ToLower` (see `lowerChar`). -/
def ToLower (s : String) : String := String.mk (s.data.map lowerChar)

/-- Mirror of `unicode.IsSpace`. -/
def IsSpace (c : Char) : Bool :=
  let n := c.toNat
  (9 ≤ n && n ≤ 13) || n == 32 || n == 0x85 || n == 0xA0 || n == 0x1680 ||
  (0x2000 ≤ n && n ≤ 0x200A) || n == 0x2028 || n == 0x2029 || n == 0x202F ||
  n == 0x205F || n == 0x3000

/-- Mirror of `strings.TrimSpace`: drop leading and trailing white space. -/
def TrimSpace (s : String) : String :=
  String.mk ((s.data.dropWhile IsSpace).reverse.dropWhile IsSpace).reverse

/-- The strings of a decoded `[]interface{}`, in order: the inner loop over `scopes`. -/
def stringsOf : List JSON → List String
  | [] => []
  | JSON.str sv :: rest => sv :: stringsOf rest
  | _ :: rest => stringsOf rest

/-- The body of the inner loop of `detectSecondaryAuth` for one raw part. -/
def detectPart (out : secAuth) (raw : JSON) : secAuth :=
  match raw with
  | JSON.obj probe =>
    let t := match JSON.member probe "type" with
      | some (JSON.str s) => s
      | _ => ""
    if ToLower t != "data" then out
    else
      match JSON.member probe "data" with
      | some (JSON.obj data) =>
        let out := match JSON.member data "requireSecondaryAuth" with
          | some (JSON.bool true) => { out with Require := true }
          | _ => out
        let out := match JSON.member data "resource" with
          | some (JSON.str v) => { out with Resource := v }
          | _ => out
        let out := match JSON.member data "authorization_uri" with
          | some (JSON.str v) => { out with AuthorizationURI := v }
          | _ => out
        let out := match JSON.member data "secondaryAuthToken" with
          | some (JSON.str v) => { out with Token := v }
          | _ => out
        let out := match JSON.member data "scopes" with
          | some (JSON.arr v) => { out with Scopes := out.Scopes ++ stringsOf v }
          | _ => out
        out
      | _ => out
  | _ => out

/-- Mirror of `detectSecondaryAuth`: every raw part of every message, in order. -/
def detectSecondaryAuth (messages : List Message) : secAuth :=
  messages.foldl (fun out m => m.PartsRaw.foldl detectPart out) {}

/-- The JSON value `encoding/json` writes for a `[]string`: `null` for the nil slice, an
array of strings otherwise. The scope slice of the detector is nil exactly when it is
empty: it starts nil and is written only by `append` of one string. -/
def marshalStrings (xs : List String) : JSON :=
  match xs with
  | [] => JSON.null
  | _ :: _ => JSON.arr (xs.map JSON.str)

/-- Mirror of `buildAuthMessage`. The payload map is written in the order resource,
scopes, authorization_uri; the scope slice is rendered as `encoding/json` writes it
(`null` when no scope was detected, see `marshalStrings`). -/
def buildAuthMessage (a : secAuth) : DataPart :=
  let auth : List (String × JSON) :=
    [("resource", JSON.str a.Resource), ("scopes", marshalStrings a.Scopes)]
  let auth := if a.AuthorizationURI != "" then
    auth ++ [("authorization_uri", JSON.str a.AuthorizationURI)] else auth
  { Typ := "data", Data := [("auth", JSON.obj auth)] }

/-! ## server/sse_stream.go: event emission -/

/-- What a handler reads from its `context.Context`: the SSE session bound under
`jsonrpc.SessionKey`, if any. A session is the list of results pushed over it so far. -/
structure Context where
  session : Option (List Event)

/-- Mirror of `context.Background()`: no value is bound, so no session. -/
def Context.Background : Context := { session := none }

/-- Mirror of `sendSSEResponse`: with no session in the context it returns an error and
sends nothing; otherwise the result is pushed over the session (marshalling an event
does not fail). The second component is `err == nil`. -/
def sendSSEResponse (ctx : Context) (result : Event) : Context × Bool :=
  match ctx.session with
  | none => (ctx, false)
  | some sent => ({ session := some (sent ++ [result]) }, true)

/-! ## server: requests, responses, the server -/

/-- The request parameters as a handler sees them: absent (`nil`), not decodable into
the handler's parameter struct, or decoded. -/
inductive RawParams (α : Type) where
  | absent
  | malformed
  | decoded (p : α)

/-- The parameter struct of `message/send` and `message/stream`. -/
structure MessageParams where
  ContextID : Option String := none
  TaskID : Option String := none
  Messages : List Message := []

/-- The parameter struct `{id}` of the task operations. -/
structure IDParams where
  ID : String

/-- The parameter struct of `tasks/pushNotificationConfig/set`. -/
structure PushSetParams where
  TaskID : String
  Config : PushNotificationConfig

/-- The parameter struct of `tasks/pushNotificationConfig/get` and `delete`. -/
structure PushRefParams where
  TaskID : String
  ConfigID : String

/-- The parameter struct of `tasks/pushNotificationConfig/list`. -/
structure PushListParams where
  TaskID : String

/-- A JSON-RPC error object. -/
structure RpcError where
  Code : Int
  Message : String
  deriving DecidableEq

/-- Modelled from the spec: the code carried by `jsonrpc.NewInvalidParamsError` of the
`viant/jsonrpc` library, whose source is not part of this repository; the spec fixes
invalid-params as -32602. -/
def InvalidParams : Int := -32602

/-- Mirror of `jsonrpc.NewInvalidParamsError` (see `InvalidParams`). -/
def NewInvalidParamsError (message : String) : RpcError :=
  { Code := InvalidParams, Message := message }

/-- The value marshalled into a response's result. -/
inductive ResultValue where
  | task (t : Task)
  | resubscribed
  | card (c : AgentCard)
  | config (c : PushNotificationConfig)
  | configs (cs : List PushNotificationConfig)
  | deleted

/-- Mirror of `jsonrpc.Response` and of `rpcResponse`: the result written, or the error. -/
structure Response where
  Result : Option ResultValue := none
  Error : Option RpcError := none

/-- Mirror of `Server`: the task store and the agent card. -/
structure Server where
  tasks : taskStore := {}
  card : AgentCard := {}

/-- Mirror of `New` (without options). -/
def New (card : AgentCard) : Server := { tasks := newTaskStore, card := card }

/-- Work started with `go` by a handler. The task is the pointer handed to the
goroutine. -/
inductive Spawned where
  | nothing
  | sendStatus (ctx : Context) (task : Task) (final : Bool)
  | streamDemo (ctx : Context) (task : Task)

/-! ## server/ops_impl.go: the default operations -/

/-- Mirror of `(*opsImpl).sendStatus`. -/
def opsImpl.sendStatus (ctx : Context) (task : Task) (final : Bool) : Context × Bool :=
  let evt := NewStatusEvent task final
  sendSSEResponse ctx (Event.status evt)

/-- Mirror of `(*opsImpl).sendArtifact`. -/
def opsImpl.sendArtifact (ctx : Context) (task : Task) (artifact : Artifact)
    (append last : Bool) : Context × Bool :=
  let evt := NewArtifactEvent task artifact append last
  sendSSEResponse ctx (Event.artifact evt)

/-- Mirror of `(*opsImpl).MessageSend`. Clock readings: `tNew` in `newTask`, `tTouch` in
`Touch`, `tArt` for the artifact, `tDone` for the completed status, `tPut` in `put`. -/
def opsImpl.MessageSend (srv : Server) (params : RawParams MessageParams)
    (tNew tTouch tArt tDone tPut : Time) : Server × Response :=
  match params with
  | RawParams.decoded p =>
    if p.Messages.length == 0 then
      (srv, { Error := some (NewInvalidParamsError "messages required") })
    else
      let existing : Option Task :=
        match p.TaskID with
        | some id => if id != "" then srv.tasks.get id else none
        | none => none
      let terminal : Bool :=
        match existing with
        | some e => isTerminal e.Status.State
        | none => false
      if terminal then
        (srv, { Error := some { Code := -32006, Message := "task is in terminal state" } })
      else
        let (tasks, task) :=
          match existing with
          | some e => (srv.tasks, e)
          | none => srv.tasks.newTask p.ContextID tNew
        let authReq := detectSecondaryAuth p.Messages
        if authReq.Require && TrimSpace authReq.Token == "" then
          let task := task.Touch TaskAuthRequired tTouch
          let tasks := tasks.sync task
          let task :=
            { task with Status := { task.Status with Message := some (buildAuthMessage authReq) } }
          let tasks := tasks.sync task
          let tasks := tasks.put task tPut
          ({ srv with tasks := tasks }, { Result := some (ResultValue.task task) })
        else
          let artifact : Artifact :=
            { ID := "a-" ++ task.ID, CreatedAt := tArt,
              Parts := [{ Typ := "text", Text := "ok" }] }
          let task := { task with Status := { State := TaskCompleted, UpdatedAt := tDone } }
          let tasks := tasks.sync task
          let task := { task with Artifacts := [artifact] }
          let tasks := tasks.sync task
          let tasks := tasks.put task tPut
          ({ srv with tasks := tasks }, { Result := some (ResultValue.task task) })
  | _ => (srv, { Error := some (NewInvalidParamsError "messages required") })

/-- Mirror of `(*opsImpl).MessageStream`. It returns the server, the response and the
goroutine it started. `ctx` is the request context. -/
def opsImpl.MessageStream (srv : Server) (ctx : Context) (params : RawParams MessageParams)
    (tNew tTouch tPut : Time) : Server × Response × Spawned :=
  if !AgentCard.StreamingSupported (some srv.card) then
    (srv, { Error := some { Code := -32002, Message := "Streaming is not supported" } },
      Spawned.nothing)
  else
    match params with
    | RawParams.decoded p =>
      if p.Messages.length == 0 then
        (srv, { Error := some (NewInvalidParamsError "messages required") }, Spawned.nothing)
      else
        let existing : Option Task :=
          match p.TaskID with
          | some id => if id != "" then srv.tasks.get id else none
          | none => none
        let terminal : Bool :=
          match existing with
          | some e => isTerminal e.Status.State
          | none => false
        if terminal then
          (srv, { Error := some { Code := -32006, Message := "task is in terminal state" } },
            Spawned.nothing)
        else
          let (tasks, task) :=
            match existing with
            | some e => (srv.tasks, e)
            | none => srv.tasks.newTask p.ContextID tNew
          let authReq := detectSecondaryAuth p.Messages
          if authReq.Require && TrimSpace authReq.Token == "" then
            let task := task.Touch TaskAuthRequired tTouch
            let tasks := tasks.sync task
            let task :=
              { task with
                Status := { task.Status with Message := some (buildAuthMessage authReq) } }
            let tasks := tasks.sync task
            let tasks := tasks.put task tPut
            ({ srv with tasks := tasks }, { Result := some (ResultValue.task task) },
              Spawned.sendStatus Context.Background task false)
          else
            ({ srv with tasks := tasks }, { Result := some (ResultValue.task task) },
              Spawned.streamDemo ctx task)
    | _ => (srv, { Error := some (NewInvalidParamsError "messages required") }, Spawned.nothing)

/-- Mirror of `(*opsImpl).streamDemo`, run on the object `task` points to. It returns the
server and the context with its session after the three emissions. Clock readings:
`tRun` and `tDone` in the two `Touch` calls, `tArt` for the artifact, `tPut` in `put`. -/
def opsImpl.streamDemo (srv : Server) (ctx : Context) (task : Task)
    (tRun tArt tDone tPut : Time) : Server × Context :=
  let task := task.Touch TaskRunning tRun
  let tasks := srv.tasks.sync task
  let (ctx, _) := opsImpl.sendStatus ctx task false
  let art : Artifact :=
    { ID := "a-" ++ task.ID, CreatedAt := tArt,
      Parts := [{ Typ := "text", Text := "processing..." }] }
  let (ctx, _) := opsImpl.sendArtifact ctx task art true false
  let task := task.Touch TaskCompleted tDone
  let tasks := tasks.sync task
  let task := { task with Artifacts := task.Artifacts ++ [art] }
  let tasks := tasks.sync task
  let tasks := tasks.put task tPut
  let (ctx, _) := opsImpl.sendStatus ctx task true
  ({ srv with tasks := tasks }, ctx)

/-- Run the goroutine a handler started, to its end, on the current value of the object
its task pointer refers to. It returns the server and the goroutine's context. -/
def opsImpl.runSpawned (srv : Server) (work : Spawned) (tRun tArt tDone tPut : Time) :
    Server × Context :=
  match work with
  | Spawned.nothing => (srv, Context.Background)
  | Spawned.sendStatus ctx task final =>
    (srv, (opsImpl.sendStatus ctx (srv.tasks.deref task) final).1)
  | Spawned.streamDemo ctx task =>
    opsImpl.streamDemo srv ctx (srv.tasks.deref task) tRun tArt tDone tPut

/-- Mirror of `(*opsImpl).TasksGet`. -/
def opsImpl.TasksGet (srv : Server) (params : RawParams IDParams) : Server × Response :=
  match params with
  | RawParams.decoded p =>
    if p.ID == "" then (srv, { Error := some (NewInvalidParamsError "id required") })
    else
      match srv.tasks.get p.ID with
      | some task => (srv, { Result := some (ResultValue.task task) })
      | none => (srv, { Error := some { Code := -32004, Message := "not found" } })
  | _ => (srv, { Error := some (NewInvalidParamsError "id required") })

/-- Mirror of `(*opsImpl).TasksCancel`; `tNow` is its `time.Now()`, `tPut` the one in
`put`. -/
def opsImpl.TasksCancel (srv : Server) (params : RawParams IDParams) (tNow tPut : Time) :
    Server × Response :=
  match params with
  | RawParams.decoded p =>
    if p.ID == "" then (srv, { Error := some (NewInvalidParamsError "id required") })
    else
      match srv.tasks.get p.ID with
      | some task =>
        let task := { task with Status := { task.Status with State := TaskCanceled } }
        let tasks := srv.tasks.sync task
        let task := { task with Status := { task.Status with UpdatedAt := tNow } }
        let tasks := tasks.sync task
        let tasks := tasks.put task tPut
        ({ srv with tasks := tasks }, { Result := some (ResultValue.task task) })
      | none => (srv, { Error := some { Code := -32004, Message := "not found" } })
  | _ => (srv, { Error := some (NewInvalidParamsError "id required") })

/-- Mirror of `(*opsImpl).TasksResubscribe`. -/
def opsImpl.TasksResubscribe (srv : Server) (params : RawParams IDParams) :
    Server × Response :=
  if !AgentCard.StreamingSupported (some srv.card) then
    (srv, { Error := some { Code := -32002, Message := "Streaming is not supported" } })
  else
    let out : ResultValue := ResultValue.resubscribed
    let out :=
      match params with
      | RawParams.decoded p =>
        if p.ID != "" then
          match srv.tasks.get p.ID with
          | some t => ResultValue.task t
          | none => out
        else out
      | _ => out
    (srv, { Result := some out })

/-- Mirror of `(*opsImpl).pushSupported`. -/
def opsImpl.pushSupported (srv : Server) : Bool :=
  AgentCard.PushNotificationsSupported (some srv.card)

/-- Mirror of `(*opsImpl).TasksPushNotificationConfigSet`. -/
def opsImpl.TasksPushNotificationConfigSet (srv : Server) (params : RawParams PushSetParams) :
    Server × Response :=
  if !opsImpl.pushSupported srv then
    (srv, { Error := some { Code := -32003, Message := "Push Notification is not supported" } })
  else
    match params with
    | RawParams.decoded p =>
      if p.TaskID == "" then
        (srv, { Error := some (NewInvalidParamsError "taskId and config required") })
      else
        match srv.tasks.addPush p.TaskID p.Config with
        | (tasks, some cfg) =>
          ({ srv with tasks := tasks }, { Result := some (ResultValue.config cfg) })
        | (tasks, none) =>
          ({ srv with tasks := tasks },
            { Error := some { Code := -32004, Message := "not found" } })
    | _ => (srv, { Error := some (NewInvalidParamsError "taskId and config required") })

/-- Mirror of `(*opsImpl).TasksPushNotificationConfigGet`. -/
def opsImpl.TasksPushNotificationConfigGet (srv : Server) (params : RawParams PushRefParams) :
    Server × Response :=
  if !opsImpl.pushSupported srv then
    (srv, { Error := some { Code := -32003, Message := "Push Notification is not supported" } })
  else
    match params with
    | RawParams.decoded p =>
      if p.TaskID == "" || p.ConfigID == "" then
        (srv, { Error := some (NewInvalidParamsError "taskId and configId required") })
      else
        match srv.tasks.getPush p.TaskID p.ConfigID with
        | some cfg => (srv, { Result := some (ResultValue.config cfg) })
        | none => (srv, { Error := some { Code := -32004, Message := "not found" } })
    | _ => (srv, { Error := some (NewInvalidParamsError "taskId and configId required") })

/-- Mirror of `(*opsImpl).TasksPushNotificationConfigList`. -/
def opsImpl.TasksPushNotificationConfigList (srv : Server)
    (params : RawParams PushListParams) : Server × Response :=
  if !opsImpl.pushSupported srv then
    (srv, { Error := some { Code := -32003, Message := "Push Notification is not supported" } })
  else
    match params with
    | RawParams.decoded p =>
      if p.TaskID == "" then
        (srv, { Error := some (NewInvalidParamsError "taskId required") })
      else
        match srv.tasks.listPush p.TaskID with
        | some cfgs => (srv, { Result := some (ResultValue.configs cfgs) })
        | none => (srv, { Error := some { Code := -32004, Message := "not found" } })
    | _ => (srv, { Error := some (NewInvalidParamsError "taskId required") })

/-- Mirror of `(*opsImpl).TasksPushNotificationConfigDelete`. -/
def opsImpl.TasksPushNotificationConfigDelete (srv : Server)
    (params : RawParams PushRefParams) : Server × Response :=
  if !opsImpl.pushSupported srv then
    (srv, { Error := some { Code := -32003, Message := "Push Notification is not supported" } })
  else
    match params with
    | RawParams.decoded p =>
      if p.TaskID == "" || p.ConfigID == "" then
        (srv, { Error := some (NewInvalidParamsError "taskId and configId required") })
      else
        match srv.tasks.deletePush p.TaskID p.ConfigID with
        | (tasks, true) => ({ srv with tasks := tasks }, { Result := some ResultValue.deleted })
        | (tasks, false) =>
          ({ srv with tasks := tasks },
            { Error := some { Code := -32004, Message := "not found" } })
    | _ => (srv, { Error := some (NewInvalidParamsError "taskId and configId required") })

/-! ## server/jsonrpc.go: the plain JSON-RPC handlers of `Server` -/

/-- Mirror of `(*Server).rpcCancelTask`; `tNow` is its `time.Now()`, `tPut` the one in
`put`. -/
def Server.rpcCancelTask (s : Server) (params : RawParams IDParams) (tNow tPut : Time) :
    Server × Response :=
  match params with
  | RawParams.decoded p =>
    if p.ID == "" then (s, { Error := some { Code := -32602, Message := "invalid params" } })
    else
      match s.tasks.get p.ID with
      | some task =>
        let task := { task with Status := { task.Status with State := TaskCanceled } }
        let tasks := s.tasks.sync task
        let task := { task with Status := { task.Status with UpdatedAt := tNow } }
        let tasks := tasks.sync task
        let tasks := tasks.put task tPut
        ({ s with tasks := tasks }, { Result := some (ResultValue.task task) })
      | none => (s, { Error := some { Code := -32004, Message := "not found" } })
  | _ => (s, { Error := some { Code := -32602, Message := "invalid params" } })

/-- Mirror of `(*Server).rpcResubscribe`. -/
def Server.rpcResubscribe (s : Server) (params : RawParams IDParams) : Server × Response :=
  if !AgentCard.StreamingSupported (some s.card) then
    (s, { Error := some { Code := -32002, Message := "Streaming is not supported" } })
  else
    match params with
    | RawParams.decoded p =>
      if p.ID == "" then (s, { Error := some { Code := -32602, Message := "invalid params" } })
      else
        match s.tasks.get p.ID with
        | some task => (s, { Result := some (ResultValue.task task) })
        | none => (s, { Error := some { Code := -32004, Message := "not found" } })
    | _ => (s, { Error := some { Code := -32602, Message := "invalid params" } })

/-- Mirror of `(*Server).pushSupported`. -/
def Server.pushSupported (s : Server) : Bool :=
  AgentCard.PushNotificationsSupported (some s.card)

/-- Mirror of `(*Server).rpcPushConfigSet`. -/
def Server.rpcPushConfigSet (s : Server) (params : RawParams PushSetParams) :
    Server × Response :=
  if !s.pushSupported then
    (s, { Error := some { Code := -32003, Message := "Push Notification is not supported" } })
  else
    match params with
    | RawParams.decoded p =>
      if p.TaskID == "" then
        (s, { Error := some { Code := -32602, Message := "invalid params" } })
      else
        match s.tasks.addPush p.TaskID p.Config with
        | (tasks, some cfg) =>
          ({ s with tasks := tasks }, { Result := some (ResultValue.config cfg) })
        | (tasks, none) =>
          ({ s with tasks := tasks }, { Error := some { Code := -32004, Message := "not found" } })
    | _ => (s, { Error := some { Code := -32602, Message := "invalid params" } })

/-- Mirror of `(*Server).rpcPushConfigGet`. -/
def Server.rpcPushConfigGet (s : Server) (params : RawParams PushRefParams) :
    Server × Response :=
  if !s.pushSupported then
    (s, { Error := some { Code := -32003, Message := "Push Notification is not supported" } })
  else
    match params with
    | RawParams.decoded p =>
      if p.TaskID == "" || p.ConfigID == "" then
        (s, { Error := some { Code := -32602, Message := "invalid params" } })
      else
        match s.tasks.getPush p.TaskID p.ConfigID with
        | some cfg => (s, { Result := some (ResultValue.config cfg) })
        | none => (s, { Error := some { Code := -32004, Message := "not found" } })
    | _ => (s, { Error := some { Code := -32602, Message := "invalid params" } })

/-- Mirror of `(*Server).rpcPushConfigList`. -/
def Server.rpcPushConfigList (s : Server) (params : RawParams PushListParams) :
    Server × Response :=
  if !s.pushSupported then
    (s, { Error := some { Code := -32003, Message := "Push Notification is not supported" } })
  else
    match params with
    | RawParams.decoded p =>
      if p.TaskID == "" then
        (s, { Error := some { Code := -32602, Message := "invalid params" } })
      else
        match s.tasks.listPush p.TaskID with
        | some cfgs => (s, { Result := some (ResultValue.configs cfgs) })
        | none => (s, { Error := some { Code := -32004, Message := "not found" } })
    | _ => (s, { Error := some { Code := -32602, Message := "invalid params" } })

/-- Mirror of `(*Server).rpcPushConfigDelete`. -/
def Server.rpcPushConfigDelete (s : Server) (params : RawParams PushRefParams) :
    Server × Response :=
  if !s.pushSupported then
    (s, { Error := some { Code := -32003, Message := "Push Notification is not supported" } })
  else
    match params with
    | RawParams.decoded p =>
      if p.TaskID == "" || p.ConfigID == "" then
        (s, { Error := some { Code := -32602, Message := "invalid params" } })
      else
        match s.tasks.deletePush p.TaskID p.ConfigID with
        | (tasks, true) => ({ s with tasks := tasks }, { Result := some ResultValue.deleted })
        | (tasks, false) =>
          ({ s with tasks := tasks }, { Error := some { Code := -32004, Message := "not found" } })
    | _ => (s, { Error := some { Code := -32602, Message := "invalid params" } })

/-- The parameter struct of `(*Server).rpcSendMessage`: context ID and messages. It has
no `taskId` field, so a `taskId` member of the request is dropped when decoding. -/
structure rpcSendParams where
  ContextID : Option String := none
  Messages : List Message := []

/-- Mirror of `(*Server).rpcSendMessage`. Clock readings: `tNew` in `newTask`, `tArt` for
the artifact, `tDone` for the completed status, `tPut` in `put`. -/
def Server.rpcSendMessage (s : Server) (params : RawParams rpcSendParams)
    (tNew tArt tDone tPut : Time) : Server × Response :=
  match params with
  | RawParams.decoded p =>
    if p.Messages.length == 0 then
      (s, { Error := some { Code := -32602, Message := "invalid params" } })
    else
      let (tasks, task) := s.tasks.newTask p.ContextID tNew
      let artifact : Artifact :=
        { ID := "a-" ++ task.ID, CreatedAt := tArt,
          Parts := [{ Typ := "text", Text := "ok" }] }
      let task := { task with Status := { State := TaskCompleted, UpdatedAt := tDone } }
      let tasks := tasks.sync task
      let task := { task with Artifacts := [artifact] }
      let tasks := tasks.sync task
      let tasks := tasks.put task tPut
      ({ s with tasks := tasks }, { Result := some (ResultValue.task task) })
  | _ => (s, { Error := some { Code := -32602, Message := "invalid params" } })

/-- Mirror of `(*Server).rpcGetTask`. -/
def Server.rpcGetTask (s : Server) (params : RawParams IDParams) : Server × Response :=
  match params with
  | RawParams.decoded p =>
    if p.ID == "" then (s, { Error := some { Code := -32602, Message := "invalid params" } })
    else
      match s.tasks.get p.ID with
      | none => (s, { Error := some { Code := -32004, Message := "not found" } })
      | some task => (s, { Result := some (ResultValue.task task) })
  | _ => (s, { Error := some { Code := -32602, Message := "invalid params" } })

/-- Mirror of `rpcRequest` as the handlers see it: the method name, and the `params`
member as each handler's parameter struct decodes it (one raw value, five decodings). -/
structure rpcRequest where
  Method : String
  sendParams : RawParams rpcSendParams := RawParams.absent
  idParams : RawParams IDParams := RawParams.absent
  pushSetParams : RawParams PushSetParams := RawParams.absent
  pushRefParams : RawParams PushRefParams := RawParams.absent
  pushListParams : RawParams PushListParams := RawParams.absent

/-- Mirror of `(*Server).handleJSONRPC`. `httpMethod` is the HTTP method, `body` the
decoded request (`none` when the body does not decode). The response is `none` when the
handler answers with HTTP 405 instead of a JSON-RPC response. -/
def Server.handleJSONRPC (s : Server) (httpMethod : String) (body : Option rpcRequest)
    (tNew tArt tDone tNow tPut : Time) : Server × Option Response :=
  if httpMethod != "POST" then (s, none)
  else
    match body with
    | none => (s, some { Error := some { Code := -32700, Message := "parse error" } })
    | some req =>
      if req.Method == "message/send" then
        let r := s.rpcSendMessage req.sendParams tNew tArt tDone tPut
        (r.1, some r.2)
      else if req.Method == "tasks/get" then
        let r := s.rpcGetTask req.idParams
        (r.1, some r.2)
      else if req.Method == "tasks/cancel" then
        let r := s.rpcCancelTask req.idParams tNow tPut
        (r.1, some r.2)
      else if req.Method == "tasks/pushNotificationConfig/set" then
        let r := s.rpcPushConfigSet req.pushSetParams
        (r.1, some r.2)
      else if req.Method == "tasks/pushNotificationConfig/get" then
        let r := s.rpcPushConfigGet req.pushRefParams
        (r.1, some r.2)
      else if req.Method == "tasks/pushNotificationConfig/list" then
        let r := s.rpcPushConfigList req.pushListParams
        (r.1, some r.2)
      else if req.Method == "tasks/pushNotificationConfig/delete" then
        let r := s.rpcPushConfigDelete req.pushRefParams
        (r.1, some r.2)
      else if req.Method == "agent/getAuthenticatedExtendedCard" then
        (s, some { Result := some (ResultValue.card s.card) })
      else (s, some { Error := some { Code := -32601, Message := "method not found" } })

/-! ## server/default_ops.go: `DefaultOperations` -/

/-- Mirror of `(*DefaultOperations).TasksResubscribe`. -/
def DefaultOperations.TasksResubscribe (srv : Server) (params : RawParams IDParams) :
    Server × Response :=
  if !AgentCard.StreamingSupported (some srv.card) then
    (srv, { Error := some { Code := -32002, Message := "Streaming is not supported" } })
  else
    let out : ResultValue := ResultValue.resubscribed
    let out :=
      match params with
      | RawParams.decoded p =>
        if p.ID != "" then
          match srv.tasks.get p.ID with
          | some t => ResultValue.task t
          | none => out
        else out
      | _ => out
    (srv, { Result := some out })

/-- Mirror of `(*DefaultOperations).MessageSend` with no `OnMessageSend` callback
registered (the default demo behaviour). Clock readings: `tNew` in `newTask`, `tArt` for
the artifact, `tDone` for the completed status, `tPut` in `put`. -/
def DefaultOperations.MessageSend (srv : Server) (params : RawParams MessageParams)
    (tNew tArt tDone tPut : Time) : Server × Response :=
  match params with
  | RawParams.decoded p =>
    if p.Messages.length == 0 then
      (srv, { Error := some (NewInvalidParamsError "messages required") })
    else
      let terminal : Bool :=
        match p.TaskID with
        | some id =>
          if id != "" then
            match srv.tasks.get id with
            | some existing => isTerminal existing.Status.State
            | none => false
          else false
        | none => false
      if terminal then
        (srv, { Error := some { Code := -32006, Message := "task is in terminal state" } })
      else
        let (tasks, task) := srv.tasks.newTask p.ContextID tNew
        let artifact : Artifact :=
          { ID := "a-" ++ task.ID, CreatedAt := tArt,
            Parts := [{ Typ := "text", Text := "ok" }] }
        let task := { task with Status := { State := TaskCompleted, UpdatedAt := tDone } }
        let tasks := tasks.sync task
        let task := { task with Artifacts := [artifact] }
        let tasks := tasks.sync task
        let tasks := tasks.put task tPut
        ({ srv with tasks := tasks }, { Result := some (ResultValue.task task) })
  | _ => (srv, { Error := some (NewInvalidParamsError "messages required") })

/-- Mirror of `(*DefaultOperations).Implements`. -/
def DefaultOperations.Implements (_method : String) : Bool := true

/-! ## server/default.go: the helpers of `DefaultHandler` -/

/-- Mirror of `(*DefaultHandler).CompleteText`, run on the object `task` points to. Clock
readings: `tArt` for the artifact, `tDone` for the completed status, `tPut` in `put`. -/
def DefaultHandler.CompleteText (srv : Server) (task : Task) (text : String)
    (tArt tDone tPut : Time) : Server :=
  let art : Artifact :=
    { ID := "a-" ++ task.ID, CreatedAt := tArt, Parts := [{ Typ := "text", Text := text }] }
  let task := { task with Status := { State := TaskCompleted, UpdatedAt := tDone } }
  let tasks := srv.tasks.sync task
  let task := { task with Artifacts := [art] }
  let tasks := tasks.sync task
  let tasks := tasks.put task tPut
  { srv with tasks := tasks }

/-- Mirror of `(*DefaultHandler).StreamDemo`, run on the object `task` points to: the
progression of `streamDemo` with every emission made on `context.Background()`. -/
def DefaultHandler.StreamDemo (srv : Server) (task : Task)
    (tRun tArt tDone tPut : Time) : Server × Context :=
  let task := task.Touch TaskRunning tRun
  let tasks := srv.tasks.sync task
  let (ctx, _) := opsImpl.sendStatus Context.Background task false
  let art : Artifact :=
    { ID := "a-" ++ task.ID, CreatedAt := tArt,
      Parts := [{ Typ := "text", Text := "processing..." }] }
  let (ctx, _) := opsImpl.sendArtifact ctx task art true false
  let task := task.Touch TaskCompleted tDone
  let tasks := tasks.sync task
  let task := { task with Artifacts := task.Artifacts ++ [art] }
  let tasks := tasks.sync task
  let tasks := tasks.put task tPut
  let (ctx, _) := opsImpl.sendStatus ctx task true
  ({ srv with tasks := tasks }, ctx)

/-! ## server/ops_impl.go and server/rpc_handler.go: dispatch -/

/-- Mirror of `(*opsImpl).Implements`. -/
def opsImpl.Implements (method : String) : Bool :=
  if method == "message/send" || method == "message/stream" ||
      method == "tasks/get" || method == "tasks/cancel" || method == "tasks/resubscribe" ||
      method == "agent/getAuthenticatedExtendedCard" then true
  else false

/-- Mirror of `(*opsImpl).AgentGetCard`. -/
def opsImpl.AgentGetCard (srv : Server) : Server × Response :=
  (srv, { Result := some (ResultValue.card srv.card) })

/-- Modelled from the spec: the code carried by `jsonrpc.NewMethodNotFound` of the
`viant/jsonrpc` library, whose source is not part of this repository; the spec fixes
method-not-found as -32601. -/
def MethodNotFound : Int := -32601

/-- Mirror of `jsonrpc.NewMethodNotFound` (see `MethodNotFound`). -/
def NewMethodNotFound (message : String) : RpcError :=
  { Code := MethodNotFound, Message := message }

/-- Mirror of `jsonrpc.Request` as the operations see it: the method name, and the
`params` member as each operation's parameter struct decodes it. -/
structure Request where
  Method : String
  messageParams : RawParams MessageParams := RawParams.absent
  idParams : RawParams IDParams := RawParams.absent
  pushSetParams : RawParams PushSetParams := RawParams.absent
  pushRefParams : RawParams PushRefParams := RawParams.absent
  pushListParams : RawParams PushListParams := RawParams.absent

/-- The case labels of the switch in `(*a2aHandler).Serve`: the methods it hands to an
operation. -/
def a2aHandler.routed (method : String) : Bool :=
  method == "message/send" || method == "message/stream" ||
  method == "tasks/get" || method == "tasks/cancel" || method == "tasks/resubscribe" ||
  method == "tasks/pushNotificationConfig/set" ||
  method == "tasks/pushNotificationConfig/get" ||
  method == "tasks/pushNotificationConfig/list" ||
  method == "tasks/pushNotificationConfig/delete" ||
  method == "agent/getAuthenticatedExtendedCard"

/-- Mirror of `(*a2aHandler).Serve` with the operations of `opsImpl` (what `NewOperations`
builds). It returns the server, the response and the goroutine started. -/
def a2aHandler.Serve (srv : Server) (ctx : Context) (request : Request)
    (tNew tTouch tArt tDone tNow tPut : Time) : Server × Response × Spawned :=
  if request.Method == "message/send" then
    let r := opsImpl.MessageSend srv request.messageParams tNew tTouch tArt tDone tPut
    (r.1, r.2, Spawned.nothing)
  else if request.Method == "message/stream" then
    opsImpl.MessageStream srv ctx request.messageParams tNew tTouch tPut
  else if request.Method == "tasks/get" then
    let r := opsImpl.TasksGet srv request.idParams
    (r.1, r.2, Spawned.nothing)
  else if request.Method == "tasks/cancel" then
    let r := opsImpl.TasksCancel srv request.idParams tNow tPut
    (r.1, r.2, Spawned.nothing)
  else if request.Method == "tasks/resubscribe" then
    let r := opsImpl.TasksResubscribe srv request.idParams
    (r.1, r.2, Spawned.nothing)
  else if request.Method == "tasks/pushNotificationConfig/set" then
    let r := opsImpl.TasksPushNotificationConfigSet srv request.pushSetParams
    (r.1, r.2, Spawned.nothing)
  else if request.Method == "tasks/pushNotificationConfig/get" then
    let r := opsImpl.TasksPushNotificationConfigGet srv request.pushRefParams
    (r.1, r.2, Spawned.nothing)
  else if request.Method == "tasks/pushNotificationConfig/list" then
    let r := opsImpl.TasksPushNotificationConfigList srv request.pushListParams
    (r.1, r.2, Spawned.nothing)
  else if request.Method == "tasks/pushNotificationConfig/delete" then
    let r := opsImpl.TasksPushNotificationConfigDelete srv request.pushRefParams
    (r.1, r.2, Spawned.nothing)
  else if request.Method == "agent/getAuthenticatedExtendedCard" then
    let r := opsImpl.AgentGetCard srv
    (r.1, r.2, Spawned.nothing)
  else
    (srv, { Error := some (NewMethodNotFound "method not found") }, Spawned.nothing)

/-! ## Notions used in the statements -/

/-- The three terminal states, as a proposition. -/
def Terminal (s : TaskState) : Prop :=
  s = TaskCompleted ∨ s = TaskFailed ∨ s = TaskCanceled

/-- The stored task a send or stream request continues: the resolution step shared by
`MessageSend` and `MessageStream` (`p.TaskID != nil && *p.TaskID != ""`, then `get`). -/
def continued (srv : Server) (p : MessageParams) : Option Task :=
  match p.TaskID with
  | some id => if id != "" then srv.tasks.get id else none
  | none => none

/-- The decision of the auth detector that suspends a task: the directive asserts
required and the detected token is empty after trimming white space. -/
def Suspends (messages : List Message) : Prop :=
  (detectSecondaryAuth messages).Require = true ∧
    TrimSpace (detectSecondaryAuth messages).Token = ""

instance (messages : List Message) : Decidable (Suspends messages) := by
  unfold Suspends; infer_instance

/-- The artifact `MessageSend` attaches to the task `id`, created at `tArt`. -/
def okArtifact (id : String) (tArt : Time) : Artifact :=
  { ID := "a-" ++ id, CreatedAt := tArt, Parts := [{ Typ := "text", Text := "ok" }] }

/-- The artifact `streamDemo` produces for the task `id`, created at `tArt`. -/
def progressArtifact (id : String) (tArt : Time) : Artifact :=
  { ID := "a-" ++ id, CreatedAt := tArt, Parts := [{ Typ := "text", Text := "processing..." }] }

/-- The task as `MessageSend` and `MessageStream` leave it on suspension. -/
def suspendedTask (task : Task) (messages : List Message) (tTouch : Time) : Task :=
  { task with
    Status := { State := TaskAuthRequired, UpdatedAt := tTouch,
                Message := some (buildAuthMessage (detectSecondaryAuth messages)) } }

/-- The task as `MessageSend` leaves it on completion. -/
def completedTask (task : Task) (tArt tDone : Time) : Task :=
  { task with
    Status := { State := TaskCompleted, UpdatedAt := tDone },
    Artifacts := [okArtifact task.ID tArt] }

/-- The task as `streamDemo` leaves it: completed at `tDone`, the status message kept,
the progress artifact appended. -/
def streamedTask (task : Task) (tArt tDone : Time) : Task :=
  { task with
    Status := { State := TaskCompleted, UpdatedAt := tDone, Message := task.Status.Message },
    Artifacts := task.Artifacts ++ [progressArtifact task.ID tArt] }

/-- The context ID an event carries: the task's, or the empty string when it has none. -/
def eventContextID (task : Task) : String := task.ContextID.getD ""

/-- The first event of the progression: status running, not final. -/
def runningEvent (task : Task) (tRun : Time) : Event :=
  Event.status
    { TaskID := task.ID, ContextID := eventContextID task, Kind := "status-update",
      Status := { State := TaskRunning, UpdatedAt := tRun, Message := task.Status.Message },
      Final := false }

/-- The second event of the progression: the new artifact, append, not last chunk. -/
def artifactEvent (task : Task) (tArt : Time) : Event :=
  Event.artifact
    { TaskID := task.ID, ContextID := eventContextID task, Kind := "artifact-update",
      Artifact := progressArtifact task.ID tArt, Append := true, LastChunk := false }

/-- The third event of the progression: status completed, final. -/
def completedEvent (task : Task) (tDone : Time) : Event :=
  Event.status
    { TaskID := task.ID, ContextID := eventContextID task, Kind := "status-update",
      Status := { State := TaskCompleted, UpdatedAt := tDone, Message := task.Status.Message },
      Final := true }

/-- The decimal numeral of a natural number: its base-10 digits, most significant first,
without leading zeros, and "0" for zero. -/
def decimal (n : Nat) : String :=
  if n = 0 then "0" else String.mk ((Nat.digits 10 n).reverse.map digitChar)

/-- The value of a decimal digit character. -/
def digitVal (c : Char) : Nat := c.toNat - 48

/-- Histories belong to stored tasks: an ID that is not stored has no history. The store
writes `hist[id]` only together with `items[id]` and deletes neither. -/
def taskStore.HistoryOfStored (s : taskStore) : Prop :=
  ∀ id : String, s.get id = none → s.getHistory id = none

/-- The bookkeeping of a store in which at most `n` tasks were created and every stored
record was filed by `newTask` (later writes going through the stored pointer): the
counter lies between 0 and `n`, every stored ID is `formatID k` for a counter value `k`
already issued, histories belong to stored tasks, and the history of a stored task is
its creation entry. -/
def taskStore.Issued (s : taskStore) (n : Nat) : Prop :=
  0 ≤ s.seq ∧ s.seq ≤ (n : Int) ∧
  (∀ id : String, s.get id ≠ none →
    ∃ k : Nat, 1 ≤ k ∧ (k : Int) ≤ s.seq ∧ id = formatID (k : Int)) ∧
  s.HistoryOfStored ∧
  (∀ id : String, s.get id ≠ none →
    ∃ t0 : Time, s.getHistory id = some [{ State := TaskRunning, At := t0 }])

/-- Stores reached from the empty store by `n` registry operations in which `put` is
applied only to a task previously returned by `newTask` or `get`: such a task is the
stored object, so whatever the caller assigned to its fields reached the store through
the pointer (`sync`) before the `put`. Reads do not change the store and are left out. -/
inductive RegistryReached : Nat → taskStore → Prop where
  | empty : RegistryReached 0 newTaskStore
  | newTask {n : Nat} {s : taskStore} (contextID : Option String) (now : Time) :
      RegistryReached n s → RegistryReached (n + 1) (s.newTask contextID now).1
  | put {n : Nat} {s : taskStore} (task prev : Task) (now : Time) :
      RegistryReached n s → s.get task.ID = some prev →
      RegistryReached (n + 1) ((s.sync task).put task now)
  | addPush {n : Nat} {s : taskStore} (taskID : String) (cfg : PushNotificationConfig) :
      RegistryReached n s → RegistryReached (n + 1) (s.addPush taskID cfg).1
  | deletePush {n : Nat} {s : taskStore} (taskID cfgID : String) :
      RegistryReached n s → RegistryReached (n + 1) (s.deletePush taskID cfgID).1

/-- One operation of the engine on the server: a send, a stream call, the streaming
progression (the goroutine a stream call starts, run on the stored task it points to,
at whatever later moment), or a cancel, each with its request and clock readings. -/
inductive EngineCall where
  | send (params : RawParams MessageParams) (tNew tTouch tArt tDone tPut : Time)
  | stream (ctx : Context) (params : RawParams MessageParams) (tNew tTouch tPut : Time)
  | progress (ctx : Context) (id : String) (tRun tArt tDone tPut : Time)
  | cancel (params : RawParams IDParams) (tNow tPut : Time)

/-- The server after one engine operation. -/
def EngineCall.apply (srv : Server) : EngineCall → Server
  | EngineCall.send params tNew tTouch tArt tDone tPut =>
    (opsImpl.MessageSend srv params tNew tTouch tArt tDone tPut).1
  | EngineCall.stream ctx params tNew tTouch tPut =>
    (opsImpl.MessageStream srv ctx params tNew tTouch tPut).1
  | EngineCall.progress ctx id tRun tArt tDone tPut =>
    match srv.tasks.get id with
    | some task => (opsImpl.streamDemo srv ctx task tRun tArt tDone tPut).1
    | none => srv
  | EngineCall.cancel params tNow tPut =>
    (opsImpl.TasksCancel srv params tNow tPut).1

/-- The server reached from the empty store by a sequence of engine operations. -/
def runEngine (card : AgentCard) (calls : List EngineCall) : Server :=
  calls.foldl EngineCall.apply (New card)

/-- The edges of the lifecycle state graph. -/
def LifecycleEdge (a b : TaskState) : Prop :=
  (a = TaskRunning ∧ b = TaskCompleted) ∨
  (a = TaskRunning ∧ b = TaskAuthRequired) ∨
  (a = TaskAuthRequired ∧ b = TaskCompleted) ∨
  (a = TaskRunning ∧ b = TaskCanceled) ∨
  (a = TaskAuthRequired ∧ b = TaskCanceled) ∨
  (¬ Terminal a ∧ b = TaskFailed)

/-- A valid path in the lifecycle state graph: it starts at running, each consecutive
pair is an edge, and no entry follows a terminal state. -/
def ValidPath (l : List TaskState) : Prop :=
  l.head? = some TaskRunning ∧ List.Chain' LifecycleEdge l ∧
    List.Chain' (fun a _ => ¬ Terminal a) l

/-- What one engine operation does to the store: nothing, an assignment through the
pointer of a stored task, or `newTask` followed by such an assignment. -/
def EngineStep (s s' : taskStore) : Prop :=
  s' = s ∨ (∃ x : Task, s' = s.sync x) ∨
    (∃ (cid : Option String) (now : Time) (x : Task), s' = (s.newTask cid now).1.sync x)

/-- Record the state with which an ID is first stored: a later store of the same ID
leaves the record alone. -/
def recordFirst (first : String → Option TaskState) (id : String) (st : TaskState) :
    String → Option TaskState :=
  fun i => if i = id then (match first i with
    | some x => some x
    | none => some st) else first i

/-- The clock reading a `put` call carries: the timestamp of its task, or, when that is
unset, the time `put` reads itself. -/
def putStamp (task : Task) (now : Time) : Time :=
  if task.Status.UpdatedAt = 0 then now else task.Status.UpdatedAt

/-- Stores reached from the empty store by a sequence of `newTask` and `put` calls (on
arbitrary task values) made under a non-decreasing clock: each call carries the clock
reading of its moment (`now` for `newTask`, `putStamp` for `put`), and the readings do
not decrease along the sequence. The first index is the latest reading, the second maps
each ID to the state it had when it was first stored. -/
inductive ClockedRun : Time → (String → Option TaskState) → taskStore → Prop where
  | empty : ClockedRun 0 (fun _ => none) newTaskStore
  | newTask {c : Time} {first : String → Option TaskState} {s : taskStore}
      (contextID : Option String) (now : Time) :
      ClockedRun c first s → c ≤ now →
      ClockedRun now (recordFirst first (formatID (wrap64 (s.seq + 1))) TaskRunning)
        (s.newTask contextID now).1
  | put {c : Time} {first : String → Option TaskState} {s : taskStore}
      (task : Task) (now : Time) :
      ClockedRun c first s → c ≤ putStamp task now →
      ClockedRun (putStamp task now) (recordFirst first task.ID task.Status.State)
        (s.put task now)

/-- The history invariant of a store at clock reading `c`, with `first` the states at
first storage: an ID that is not stored has neither history nor record; a stored ID has
a non-empty history, sorted by timestamp, bounded by `c`, whose first entry carries the
recorded state. -/
def HistoryInv (c : Time) (first : String → Option TaskState) (s : taskStore) : Prop :=
  (∀ id : String, s.get id = none → s.getHistory id = none ∧ first id = none) ∧
  (∀ (id : String) (t : Task), s.get id = some t →
    ∃ (e : TaskStateTransition) (rest : List TaskStateTransition),
      s.getHistory id = some (e :: rest) ∧
      List.Pairwise (fun a b : Time => a ≤ b) ((e :: rest).map (fun tr => tr.At)) ∧
      (∀ x ∈ e :: rest, x.At ≤ c) ∧
      first id = some e.State)

/-- Nothing is deleted between two stores: every task ID stored in the first is stored in
the second, and the task id counter has not decreased. -/
def Keeps (s s' : taskStore) : Prop :=
  (∀ id : String, s.get id ≠ none → s'.get id ≠ none) ∧ s.seq ≤ s'.seq

/-- Subscription maps have one entry per config ID: the IDs filed for a task are
pairwise distinct, as the keys of a Go map are. -/
def taskStore.PushOK (s : taskStore) : Prop :=
  ∀ (taskID : String) (m : List PushNotificationConfig),
    mapGet s.push taskID = some m → (m.map (fun c => c.ID)).Nodup

/-- One store-changing step of the registry: `newTask`, `put` of any task value, an
assignment through a task pointer, `addPush` or `deletePush`. -/
inductive StoreStep : taskStore → taskStore → Prop where
  | newTask (s : taskStore) (contextID : Option String) (now : Time) :
      StoreStep s (s.newTask contextID now).1
  | put (s : taskStore) (task : Task) (now : Time) : StoreStep s (s.put task now)
  | sync (s : taskStore) (task : Task) : StoreStep s (s.sync task)
  | addPush (s : taskStore) (taskID : String) (cfg : PushNotificationConfig) :
      StoreStep s (s.addPush taskID cfg).1
  | deletePush (s : taskStore) (taskID cfgID : String) :
      StoreStep s (s.deletePush taskID cfgID).1

/-- A sequence of `n` store-changing steps from one store to another. -/
inductive StoreSteps : Nat → taskStore → taskStore → Prop where
  | refl (s : taskStore) : StoreSteps 0 s s
  | step {n : Nat} {s s' s'' : taskStore} :
      StoreSteps n s s' → StoreStep s' s'' → StoreSteps (n + 1) s s''

/-- The parameters of a send request as `rpcSendMessage` decodes them: the handler's
struct has no `taskId` field, so that member is dropped. -/
def MessageParams.forRPC (p : MessageParams) : rpcSendParams :=
  { ContextID := p.ContextID, Messages := p.Messages }

/-- The number of capability flags of `c` that are set and true. -/
def trueFlags (c : AgentCapabilities) : Nat :=
  (if c.Streaming = some true then 1 else 0) +
  (if c.PushNotifications = some true then 1 else 0) +
  (if c.StateTransitionHistory = some true then 1 else 0)

/-- A card that holds only the legacy list `["streaming", "pushNotifications"]`. -/
def legacyCard : AgentCard :=
  { Name := "x", Capabilities := ["streaming", "pushNotifications"], capObj := none }

/-- All raw parts of a list of messages, in message order, then part order: the order in
which the two loops of `detectSecondaryAuth` visit them. -/
def partsOf : List Message → List JSON
  | [] => []
  | m :: rest => m.PartsRaw ++ partsOf rest

/-- The directive bag the detector reads from one raw part: the `data` member, when the
part is a JSON object whose `type` member is a string that lower-cases to "data" and whose
`data` member is an object. -/
def dataBag (raw : JSON) : Option (List (String × JSON)) :=
  match raw with
  | JSON.obj probe =>
    match JSON.member probe "type" with
    | some (JSON.str t) =>
      if ToLower t = "data" then
        match JSON.member probe "data" with
        | some (JSON.obj data) => some data
        | _ => none
      else none
    | _ => none
  | _ => none

/-- The string a raw part carries for the field `k` of the directive bag, if any. -/
def stringField (k : String) (raw : JSON) : Option String :=
  match dataBag raw with
  | some data =>
    match JSON.member data k with
    | some (JSON.str v) => some v
    | _ => none
  | none => none

/-- A raw part asserts the directive: its bag has `requireSecondaryAuth` equal to the
boolean true. -/
def assertsRequired (raw : JSON) : Bool :=
  match dataBag raw with
  | some data =>
    match JSON.member data "requireSecondaryAuth" with
    | some (JSON.bool true) => true
    | _ => false
  | none => false

/-- The value the last part carrying the field `k` as a string gives it, or the empty
string when no part carries it. -/
def lastField (k : String) (messages : List Message) : String :=
  (((partsOf messages).filterMap (stringField k)).getLast?).getD ""

/-- The base-10 numeral of an integer: a leading "-" for negative values. -/
def signedDecimal (v : Int) : String :=
  if v < 0 then "-" ++ decimal v.natAbs else decimal v.toNat

/-- The smallest `int64`. -/
def minInt64 : Int := -2 ^ 63

/-- Subscription maps belong to stored tasks. -/
def taskStore.PushOwned (s : taskStore) : Prop :=
  ∀ id : String, mapGet s.push id ≠ none → s.get id ≠ none

/-- Servers reached from a fresh server by engine operations (send, stream, the streaming
progression, cancel) and registry steps (`newTask`, `put`, an assignment through a task
pointer, `addPush`, `deletePush`), in any order. -/
inductive Reached : Server → Prop where
  | init (card : AgentCard) : Reached (New card)
  | engine {srv : Server} (c : EngineCall) : Reached srv → Reached (c.apply srv)
  | registry {srv : Server} {s' : taskStore} :
      Reached srv → StoreStep srv.tasks s' → Reached { srv with tasks := s' }

/-- The config ID `addPush` generates in the store `s`. -/
def taskStore.nextPushID (s : taskStore) : String := "pc-" ++ itoa (wrap64 (s.pseq + 1))

/-- The call created the task `t` under the next server-allocated ID: `t` is filed under
"t-" followed by the next counter value, the record of every other ID is as before, and
in a store whose IDs were all issued by the counter (before it overflows) every task
stored before is unchanged. -/
def CreatedFresh (srv srv1 : Server) (t : Task) : Prop :=
  t.ID = formatID (wrap64 (srv.tasks.seq + 1)) ∧
  srv1.tasks.get t.ID = some t ∧
  (∀ other : String, other ≠ t.ID → srv1.tasks.get other = srv.tasks.get other) ∧
  (∀ n : Nat, srv.tasks.Issued n → n + 1 < 2 ^ 63 →
    ∀ (other : String) (e : Task), srv.tasks.get other = some e →
      srv1.tasks.get other = some e)

/-- Stores reached from the empty store by a sequence of `newTask` and `put` calls (on
arbitrary task values) made under a non-decreasing clock: `now` is the clock reading of
each call, and the readings do not decrease along the sequence. The first index is the
latest reading, the second maps each ID to the state it had when it was first stored. -/
inductive RegistryRun : Time → (String → Option TaskState) → taskStore → Prop where
  | empty : RegistryRun 0 (fun _ => none) newTaskStore
  | newTask {c : Time} {first : String → Option TaskState} {s : taskStore}
      (contextID : Option String) (now : Time) :
      RegistryRun c first s → c ≤ now →
      RegistryRun now (recordFirst first (formatID (wrap64 (s.seq + 1))) TaskRunning)
        (s.newTask contextID now).1
  | put {c : Time} {first : String → Option TaskState} {s : taskStore}
      (task : Task) (now : Time) :
      RegistryRun c first s → c ≤ now →
      RegistryRun now (recordFirst first task.ID task.Status.State) (s.put task now)

/-- The part of the history invariant that does not speak of time, with `first` the
states at first storage: an ID that is not stored has neither history nor record; a
stored ID has a non-empty history whose first entry carries the recorded state. -/
def HistoryFirst (first : String → Option TaskState) (s : taskStore) : Prop :=
  (∀ id : String, s.get id = none → s.getHistory id = none ∧ first id = none) ∧
  (∀ (id : String) (t : Task), s.get id = some t →
    ∃ (e : TaskStateTransition) (rest : List TaskStateTransition),
      s.getHistory id = some (e :: rest) ∧ first id = some e.State)

/-! ### Concrete inputs -/

/-- A card with streaming enabled and push notifications disabled. -/
def streamingCard : AgentCard :=
  AgentCard.SetCapabilities { Name := "test" }
    { Streaming := some true, PushNotifications := some false }

/-- A card with streaming and push notifications disabled (the card of the gating
tests). -/
def gatedCard : AgentCard :=
  AgentCard.SetCapabilities { Name := "test" }
    { Streaming := some false, PushNotifications := some false }

/-- The message `{role:"user", parts:[{type:"text", text:"hi"}]}`. -/
def textMessage : Message :=
  { PartsRaw := [JSON.obj [("type", JSON.str "text"), ("text", JSON.str "hi")]] }

/-- A message with the data part `{requireSecondaryAuth:true, resource:"r1"}` and no
token. -/
def challengeMessage : Message :=
  { PartsRaw := [JSON.obj [("type", JSON.str "data"),
      ("data", JSON.obj [("requireSecondaryAuth", JSON.bool true),
                         ("resource", JSON.str "r1")])]] }

/-- A fresh server after one plain `message/send`: task `t-1` is completed. -/
def srvCompleted (card : AgentCard) : Server :=
  (opsImpl.MessageSend (New card) (RawParams.decoded { Messages := [textMessage] })
    1 2 3 4 5).1

/-- A fresh server after one `message/send` carrying the challenge: task `t-1` is
suspended in auth-required. -/
def srvSuspended (card : AgentCard) : Server :=
  (opsImpl.MessageSend (New card) (RawParams.decoded { Messages := [challengeMessage] })
    1 2 3 4 5).1

/-- A fresh server holding the single running task `t-1`. -/
def srvRunning (card : AgentCard) : Server :=
  { (New card) with tasks := ((New card).tasks.newTask none 1).1 }

/-- The task `t-1` as `newTask` creates it at time 1 on a fresh store. -/
def firstTask : Task :=
  { ID := "t-1", ContextID := none, Status := { State := TaskRunning, UpdatedAt := 1 } }

/-- The store after `newTask` (task `t-1`, time 1) and a `put` of that task, completed
through its pointer. -/
def registryDemo : taskStore :=
  ((newTaskStore.newTask none 1).1.sync (completedTask firstTask 3 4)).put
    (completedTask firstTask 3 4) 5

/-- The store after `newTask` (task `t-1`, time 1) and a `put` of a completed copy of
that task, stamped 4. -/
def clockedDemo : taskStore :=
  (newTaskStore.newTask none 1).1.put (completedTask firstTask 3 4) 5

/-- A message whose data part repeats the directive and supplies a token. -/
def tokenMessage : Message :=
  { PartsRaw := [JSON.obj [("type", JSON.str "data"),
      ("data", JSON.obj [("requireSecondaryAuth", JSON.bool true),
                         ("resource", JSON.str "r1"),
                         ("secondaryAuthToken", JSON.str "tok")])]] }

/-- The task as a cancel leaves it: state canceled, timestamp `tNow`, the rest kept. -/
def canceledTask (task : Task) (tNow : Time) : Task :=
  { task with Status := { task.Status with State := TaskCanceled, UpdatedAt := tNow } }

/-- Two successive cancels of the task `id`, the second at `tNow2`, given by their
outcomes `r1` and `r2`: both succeed with the task canceled and stored; the second
result is the first with only the timestamp replaced; the second call leaves every other
task, the histories, the subscriptions and both counters as the first left them. -/
def CancelTwice (id : String) (tNow2 : Time) (r1 r2 : Server × Response) : Prop :=
  ∃ t1 t2 : Task,
    r1.2 = { Result := some (ResultValue.task t1) } ∧
    t1.Status.State = TaskCanceled ∧ r1.1.tasks.get id = some t1 ∧
    r2.2 = { Result := some (ResultValue.task t2) } ∧
    t2.Status.State = TaskCanceled ∧ r2.1.tasks.get id = some t2 ∧
    t2 = { t1 with Status := { t1.Status with UpdatedAt := tNow2 } } ∧
    (∀ other : String, other ≠ id → r2.1.tasks.get other = r1.1.tasks.get other) ∧
    r2.1.tasks.hist = r1.1.tasks.hist ∧ r2.1.tasks.push = r1.1.tasks.push ∧
    r2.1.tasks.seq = r1.1.tasks.seq ∧ r2.1.tasks.pseq = r1.1.tasks.pseq ∧
    r2.1.card = r1.1.card

/-- A card with streaming and push notifications enabled. -/
def pushCard : AgentCard :=
  AgentCard.SetCapabilities { Name := "test" }
    { Streaming := some true, PushNotifications := some true }

/-- A message whose only part is typed "DATA" and asserts the directive. -/
def upperDataMessage : Message :=
  { PartsRaw := [JSON.obj [("type", JSON.str "DATA"),
      ("data", JSON.obj [("requireSecondaryAuth", JSON.bool true)])]] }

/-- A message with two data parts: the first names resource "r1", authorization URI "u1"
and token "k1", the second "r2", "u2" and "k2". -/
def twoBagsMessage : Message :=
  { PartsRaw := [JSON.obj [("type", JSON.str "data"),
      ("data", JSON.obj [("resource", JSON.str "r1"), ("authorization_uri", JSON.str "u1"),
                         ("secondaryAuthToken", JSON.str "k1")])],
    JSON.obj [("type", JSON.str "data"),
      ("data", JSON.obj [("resource", JSON.str "r2"), ("authorization_uri", JSON.str "u2"),
                         ("secondaryAuthToken", JSON.str "k2")])]] }

/-- The store after `newTask` (task `t-1`) and `addPush` of a config that carries the
caller-chosen ID "pc-2". -/
def collisionDemo : taskStore :=
  ((newTaskStore.newTask none 1).1.addPush "t-1" { ID := "pc-2", URL := "https://a" }).1

/-- The running task `t-1` holding one artifact. -/
def artifactTask : Task :=
  { firstTask with Artifacts := [progressArtifact "t-1" 2] }

/-- A server whose store holds the running task `t-1` with one artifact. -/
def srvArtifact (card : AgentCard) : Server :=
  { (srvRunning card) with tasks := ((srvRunning card).tasks.sync artifactTask) }

/-- A copy of task `t-1` marked completed and stamped with the clock reading 7. -/
def lateCopy : Task :=
  { firstTask with Status := { State := TaskCompleted, UpdatedAt := 7 } }

/-- A copy of task `t-1` marked canceled and stamped with the clock reading 6. -/
def earlyCopy : Task :=
  { firstTask with Status := { State := TaskCanceled, UpdatedAt := 6 } }

/-- The store after `newTask` at clock reading 5 (task `t-1`), a `put` of `lateCopy` at
reading 8 and a `put` of `earlyCopy` at reading 9. -/
def unsortedDemo : taskStore :=
  ((newTaskStore.newTask none 5).1.put lateCopy 8).put earlyCopy 9

/-! ## Lemmas on the task map -/

theorem itemsGet_id {l : List Task} {id : String} {t : Task}
    (h : itemsGet l id = some t) : t.ID = id := by
  induction l with
  | nil => simp [itemsGet] at h
  | cons x rest ih =>
    unfold itemsGet at h
    by_cases hx : x.ID = id
    · simp [hx] at h
      rw [← h]; exact hx
    · simp [hx] at h
      exact ih h

theorem itemsGet_itemsSync (l : List Task) (a : Task) (id : String) :
    itemsGet (itemsSync l a) id =
      if a.ID = id then (itemsGet l id).map (fun _ => a) else itemsGet l id := by
  induction l with
  | nil => simp [itemsGet, itemsSync]
  | cons x rest ih =>
    unfold itemsSync
    by_cases hx : x.ID = a.ID
    · by_cases ha : a.ID = id
      · simp [hx, ha, itemsGet]
      · have hxi : ¬ x.ID = id := fun h => ha (hx ▸ h)
        simp [hx, ha, itemsGet]
    · by_cases ha : a.ID = id
      · have hxi : ¬ x.ID = id := fun h => hx (h.trans ha.symm)
        simp [hx, ha, itemsGet, hxi, ih]
      · by_cases hxi : x.ID = id
        · have hia : ¬ id = a.ID := fun h => ha h.symm
          simp [itemsGet, hxi, ha, hia]
        · simp [hx, ha, itemsGet, hxi, ih]

theorem itemsGet_itemsSet (l : List Task) (a : Task) (id : String) :
    itemsGet (itemsSet l a) id = if a.ID = id then some a else itemsGet l id := by
  induction l with
  | nil => simp [itemsGet, itemsSet]
  | cons x rest ih =>
    unfold itemsSet
    by_cases hx : x.ID = a.ID
    · by_cases ha : a.ID = id
      · simp [hx, ha, itemsGet]
      · have hxi : ¬ x.ID = id := fun h => ha (hx ▸ h)
        simp [hx, ha, itemsGet]
    · by_cases ha : a.ID = id
      · have hxi : ¬ x.ID = id := fun h => hx (h.trans ha.symm)
        simp [hx, ha, itemsGet, hxi, ih]
      · by_cases hxi : x.ID = id
        · have hia : ¬ id = a.ID := fun h => ha h.symm
          simp [itemsGet, hxi, ha, hia]
        · simp [hx, ha, itemsGet, hxi, ih]

theorem itemsSet_eq_itemsSync {l : List Task} {a x : Task}
    (h : itemsGet l a.ID = some x) : itemsSet l a = itemsSync l a := by
  induction l with
  | nil => simp [itemsGet] at h
  | cons y rest ih =>
    unfold itemsGet at h
    unfold itemsSet itemsSync
    by_cases hy : y.ID = a.ID
    · simp [hy]
    · simp [hy] at h
      simp [hy, ih h]

theorem itemsSync_ids (l : List Task) (a : Task) :
    (itemsSync l a).map Task.ID = l.map Task.ID := by
  induction l with
  | nil => simp [itemsSync]
  | cons y rest ih =>
    unfold itemsSync
    by_cases hy : y.ID = a.ID
    · simp [hy]
    · simp [hy, ih]

theorem itemsSync_itemsSync (l : List Task) (a b : Task) (h : a.ID = b.ID) :
    itemsSync (itemsSync l a) b = itemsSync l b := by
  induction l with
  | nil => simp [itemsSync]
  | cons y rest ih =>
    by_cases hy : y.ID = a.ID
    · have hyb : y.ID = b.ID := hy.trans h
      simp [itemsSync, hy, hyb, h]
    · have hyb : ¬ y.ID = b.ID := fun hh => hy (hh.trans h.symm)
      simp [itemsSync, hy, hyb, ih]

theorem itemsSync_self {l : List Task} {a : Task}
    (h : itemsGet l a.ID = some a) : itemsSync l a = l := by
  induction l with
  | nil => simp [itemsSync]
  | cons y rest ih =>
    unfold itemsGet at h
    unfold itemsSync
    by_cases hy : y.ID = a.ID
    · simp [hy] at h
      simp [hy, h]
    · simp [hy] at h
      simp [hy, ih h]

/-- Identifiers issued by `formatID` are never empty. -/
theorem formatID_ne_empty (seq : Int) : formatID seq ≠ "" := by
  intro h
  have h2 := congrArg String.length h
  simp [formatID, String.length_append] at h2
  exact absurd h2.1 (by decide)

/-! ## Lemmas on the store -/

theorem taskStore.get_sync (t : taskStore) (a : Task) (id : String) :
    (t.sync a).get id = if a.ID = id then (t.get id).map (fun _ => a) else t.get id := by
  simp [taskStore.get, taskStore.sync, itemsGet_itemsSync]

theorem taskStore.sync_sync (t : taskStore) (a b : Task) (h : a.ID = b.ID) :
    (t.sync a).sync b = t.sync b := by
  simp [taskStore.sync, itemsSync_itemsSync _ _ _ h]

/-- A `put` of the stored object itself, after its fields were assigned through the
pointer, changes nothing further: the previous record is the same object, so no state
change is seen and no history entry is written. -/
theorem taskStore.put_sync (t : taskStore) (task x : Task) (now : Time)
    (h : t.get task.ID = some x) : (t.sync task).put task now = t.sync task := by
  have hg : itemsGet (itemsSync t.items task) task.ID = some task := by
    have h2 : itemsGet t.items task.ID = some x := h
    simp [itemsGet_itemsSync, h2]
  simp only [taskStore.put, taskStore.sync, hg]
  simp [itemsSet_eq_itemsSync hg, itemsSync_itemsSync]

theorem taskStore.sync_sync_put (t : taskStore) (a b x : Task) (now : Time)
    (h : a.ID = b.ID) (hg : t.get b.ID = some x) :
    ((t.sync a).sync b).put b now = t.sync b := by
  rw [taskStore.sync_sync _ _ _ h]
  exact taskStore.put_sync _ _ _ _ hg

theorem taskStore.sync_sync_sync_put (t : taskStore) (a b c x : Task) (now : Time)
    (hab : a.ID = b.ID) (hbc : b.ID = c.ID) (hg : t.get c.ID = some x) :
    (((t.sync a).sync b).sync c).put c now = t.sync c := by
  rw [taskStore.sync_sync _ _ _ hab]
  exact taskStore.sync_sync_put _ _ _ _ _ hbc hg

theorem taskStore.newTask_get (t : taskStore) (cid : Option String) (now : Time) :
    (t.newTask cid now).1.get (t.newTask cid now).2.ID = some (t.newTask cid now).2 := by
  simp [taskStore.newTask, taskStore.get, itemsGet_itemsSet]

theorem continued_some {srv : Server} {p : MessageParams} {e : Task}
    (h : continued srv p = some e) :
    ∃ id, p.TaskID = some id ∧ id ≠ "" ∧ srv.tasks.get id = some e ∧ e.ID = id := by
  unfold continued at h
  cases hid : p.TaskID with
  | none => simp [hid] at h
  | some id =>
    by_cases hne : id = ""
    · simp [hid, hne] at h
    · simp [hid, hne] at h
      exact ⟨id, rfl, hne, h, itemsGet_id h⟩

theorem isTerminal_iff (s : TaskState) : isTerminal s = true ↔ Terminal s := by
  cases s <;> simp [isTerminal, Terminal]

theorem isTerminal_of_Terminal {s : TaskState} (h : Terminal s) : isTerminal s = true :=
  (isTerminal_iff s).2 h

theorem isTerminal_false {s : TaskState} (h : ¬ Terminal s) : isTerminal s = false := by
  cases hs : isTerminal s
  · rfl
  · exact absurd ((isTerminal_iff s).1 hs) h

/-! ## What an accepted send or stream request does -/

theorem suspends_decide (m : List Message) :
    ((detectSecondaryAuth m).Require && TrimSpace (detectSecondaryAuth m).Token == "") =
      decide (Suspends m) := by
  unfold Suspends
  rw [Bool.eq_iff_iff]
  simp

/-- An accepted `MessageSend` that continues the stored task `e`. -/
theorem MessageSend_continue (srv : Server) (p : MessageParams) (e : Task)
    (tNew tTouch tArt tDone tPut : Time)
    (hmsgs : p.Messages ≠ []) (hc : continued srv p = some e)
    (hnt : ¬ Terminal e.Status.State) :
    opsImpl.MessageSend srv (RawParams.decoded p) tNew tTouch tArt tDone tPut =
      if Suspends p.Messages then
        ({ srv with tasks := srv.tasks.sync (suspendedTask e p.Messages tTouch) },
          { Result := some (ResultValue.task (suspendedTask e p.Messages tTouch)) })
      else
        ({ srv with tasks := srv.tasks.sync (completedTask e tArt tDone) },
          { Result := some (ResultValue.task (completedTask e tArt tDone)) }) := by
  obtain ⟨id, hid, hne, hget, heid⟩ := continued_some hc
  have ht := isTerminal_false hnt
  have hlen : ¬ p.Messages = [] := hmsgs
  have hget2 : srv.tasks.get e.ID = some e := heid ▸ hget
  simp only [opsImpl.MessageSend, hid, suspends_decide]
  by_cases hs : Suspends p.Messages
  · simp [hne, hget, ht, hlen, hs, suspendedTask, Task.Touch]
    exact taskStore.sync_sync_put _ _ _ _ _ rfl hget2
  · simp [hne, hget, ht, hlen, hs, completedTask, okArtifact]
    exact taskStore.sync_sync_put _ _ _ _ _ rfl hget2

/-- An accepted `MessageSend` that continues no stored task: a task is created. -/
theorem MessageSend_create (srv : Server) (p : MessageParams)
    (tNew tTouch tArt tDone tPut : Time)
    (hmsgs : p.Messages ≠ []) (hc : continued srv p = none) :
    opsImpl.MessageSend srv (RawParams.decoded p) tNew tTouch tArt tDone tPut =
      if Suspends p.Messages then
        ({ srv with tasks := ((srv.tasks.newTask p.ContextID tNew).1.sync
              (suspendedTask (srv.tasks.newTask p.ContextID tNew).2 p.Messages tTouch)) },
          { Result := some (ResultValue.task
              (suspendedTask (srv.tasks.newTask p.ContextID tNew).2 p.Messages tTouch)) })
      else
        ({ srv with tasks := ((srv.tasks.newTask p.ContextID tNew).1.sync
              (completedTask (srv.tasks.newTask p.ContextID tNew).2 tArt tDone)) },
          { Result := some (ResultValue.task
              (completedTask (srv.tasks.newTask p.ContextID tNew).2 tArt tDone)) }) := by
  have hlen : ¬ p.Messages = [] := hmsgs
  have hnew := taskStore.newTask_get srv.tasks p.ContextID tNew
  have hex : (match p.TaskID with
      | some id => if (id != "") = true then srv.tasks.get id else none
      | none => none) = none := hc
  simp only [opsImpl.MessageSend, suspends_decide, hex]
  by_cases hs : Suspends p.Messages
  · simp [hlen, hs, suspendedTask, Task.Touch]
    exact taskStore.sync_sync_put _ _ _ _ _ rfl hnew
  · simp [hlen, hs, completedTask, okArtifact]
    exact taskStore.sync_sync_put _ _ _ _ _ rfl hnew

/-- An accepted `MessageStream` that continues the stored task `e`. -/
theorem MessageStream_continue (srv : Server) (ctx : Context) (p : MessageParams) (e : Task)
    (tNew tTouch tPut : Time)
    (hstream : AgentCard.StreamingSupported (some srv.card) = true)
    (hmsgs : p.Messages ≠ []) (hc : continued srv p = some e)
    (hnt : ¬ Terminal e.Status.State) :
    opsImpl.MessageStream srv ctx (RawParams.decoded p) tNew tTouch tPut =
      if Suspends p.Messages then
        ({ srv with tasks := srv.tasks.sync (suspendedTask e p.Messages tTouch) },
          { Result := some (ResultValue.task (suspendedTask e p.Messages tTouch)) },
          Spawned.sendStatus Context.Background (suspendedTask e p.Messages tTouch) false)
      else
        (srv, { Result := some (ResultValue.task e) }, Spawned.streamDemo ctx e) := by
  obtain ⟨id, hid, hne, hget, heid⟩ := continued_some hc
  have ht := isTerminal_false hnt
  have hlen : ¬ p.Messages = [] := hmsgs
  have hget2 : srv.tasks.get e.ID = some e := heid ▸ hget
  simp only [opsImpl.MessageStream, hid, suspends_decide]
  by_cases hs : Suspends p.Messages
  · simp [hstream, hne, hget, ht, hlen, hs, suspendedTask, Task.Touch]
    exact taskStore.sync_sync_put _ _ _ _ _ rfl hget2
  · simp [hstream, hne, hget, ht, hlen, hs]

/-- An accepted `MessageStream` that continues no stored task: a task is created. -/
theorem MessageStream_create (srv : Server) (ctx : Context) (p : MessageParams)
    (tNew tTouch tPut : Time)
    (hstream : AgentCard.StreamingSupported (some srv.card) = true)
    (hmsgs : p.Messages ≠ []) (hc : continued srv p = none) :
    opsImpl.MessageStream srv ctx (RawParams.decoded p) tNew tTouch tPut =
      if Suspends p.Messages then
        ({ srv with tasks := ((srv.tasks.newTask p.ContextID tNew).1.sync
              (suspendedTask (srv.tasks.newTask p.ContextID tNew).2 p.Messages tTouch)) },
          { Result := some (ResultValue.task
              (suspendedTask (srv.tasks.newTask p.ContextID tNew).2 p.Messages tTouch)) },
          Spawned.sendStatus Context.Background
            (suspendedTask (srv.tasks.newTask p.ContextID tNew).2 p.Messages tTouch) false)
      else
        ({ srv with tasks := (srv.tasks.newTask p.ContextID tNew).1 },
          { Result := some (ResultValue.task (srv.tasks.newTask p.ContextID tNew).2) },
          Spawned.streamDemo ctx (srv.tasks.newTask p.ContextID tNew).2) := by
  have hlen : ¬ p.Messages = [] := hmsgs
  have hnew := taskStore.newTask_get srv.tasks p.ContextID tNew
  have hex : (match p.TaskID with
      | some id => if (id != "") = true then srv.tasks.get id else none
      | none => none) = none := hc
  simp only [opsImpl.MessageStream, suspends_decide, hex]
  by_cases hs : Suspends p.Messages
  · simp [hstream, hlen, hs, suspendedTask, Task.Touch]
    exact taskStore.sync_sync_put _ _ _ _ _ rfl hnew
  · simp [hstream, hlen, hs]

/-! ## The terminal guard -/

/-- C1. Terminal guard: a `message/send` or `message/stream` request handled by `opsImpl`
(streaming enabled, non-empty messages) whose `taskId` names a stored task in state
completed, failed or canceled fails with code -32006 and returns the server, hence the
whole store (tasks, histories, subscriptions, both counters), exactly as it was, whatever
the messages contain; the stream call starts no goroutine. -/
theorem C1_terminal_guard (srv : Server) (ctx : Context) (p : MessageParams) (id : String)
    (e : Task) (tNew tTouch tArt tDone tPut : Time)
    (hstream : AgentCard.StreamingSupported (some srv.card) = true)
    (hmsgs : p.Messages ≠ [])
    (hid : p.TaskID = some id) (hne : id ≠ "")
    (hget : srv.tasks.get id = some e) (hterm : Terminal e.Status.State) :
    opsImpl.MessageSend srv (RawParams.decoded p) tNew tTouch tArt tDone tPut =
        (srv, { Error := some { Code := -32006, Message := "task is in terminal state" } }) ∧
    opsImpl.MessageStream srv ctx (RawParams.decoded p) tNew tTouch tPut =
        (srv, { Error := some { Code := -32006, Message := "task is in terminal state" } },
          Spawned.nothing) := by
  have ht := isTerminal_of_Terminal hterm
  have hlen : ¬ p.Messages = [] := hmsgs
  constructor
  · simp [opsImpl.MessageSend, hid, hne, hget, ht, hlen]
  · simp [opsImpl.MessageStream, hstream, hid, hne, hget, ht, hlen]

/-- Witness of C1 on the server whose task `t-1` was completed by a send. -/
theorem C1_terminal_guard_witness :
    (AgentCard.StreamingSupported (some (srvCompleted streamingCard).card) = true ∧
      (srvCompleted streamingCard).tasks.get "t-1" =
        some (completedTask firstTask 3 4)) ∧
    (opsImpl.MessageSend (srvCompleted streamingCard)
        (RawParams.decoded { TaskID := some "t-1", Messages := [challengeMessage] })
        6 7 8 9 10 =
        (srvCompleted streamingCard,
          { Error := some { Code := -32006, Message := "task is in terminal state" } }) ∧
     opsImpl.MessageStream (srvCompleted streamingCard) { session := some [] }
        (RawParams.decoded { TaskID := some "t-1", Messages := [challengeMessage] })
        6 7 8 =
        (srvCompleted streamingCard,
          { Error := some { Code := -32006, Message := "task is in terminal state" } },
          Spawned.nothing)) :=
  ⟨⟨rfl, rfl⟩,
    C1_terminal_guard (srvCompleted streamingCard) { session := some [] }
      { TaskID := some "t-1", Messages := [challengeMessage] } "t-1"
      (completedTask firstTask 3 4)
      6 7 8 9 10 rfl (by simp) rfl (by decide) rfl (Or.inl rfl)⟩

/-! ## Send: the returned state -/

/-- C2. For every `message/send` request accepted by `opsImpl.MessageSend` (non-empty
messages, the continued task, if any, not terminal) the call returns a task whose state is
auth-required exactly when the detected directive asserts required and the detected
token is empty after trimming white space, and completed otherwise; it is never
running. -/
theorem C2_send_state (srv : Server) (p : MessageParams)
    (tNew tTouch tArt tDone tPut : Time)
    (hmsgs : p.Messages ≠ [])
    (hnt : ∀ e, continued srv p = some e → ¬ Terminal e.Status.State) :
    ∃ task : Task,
      (opsImpl.MessageSend srv (RawParams.decoded p) tNew tTouch tArt tDone tPut).2 =
        { Result := some (ResultValue.task task) } ∧
      (task.Status.State = TaskAuthRequired ↔ Suspends p.Messages) ∧
      (task.Status.State = TaskCompleted ↔ ¬ Suspends p.Messages) ∧
      task.Status.State ≠ TaskRunning := by
  cases hc : continued srv p with
  | none =>
    rw [MessageSend_create srv p tNew tTouch tArt tDone tPut hmsgs hc]
    by_cases hs : Suspends p.Messages
    · exact ⟨_, by rw [if_pos hs], by simp [suspendedTask, hs]⟩
    · exact ⟨_, by rw [if_neg hs], by simp [completedTask, hs]⟩
  | some e =>
    rw [MessageSend_continue srv p e tNew tTouch tArt tDone tPut hmsgs hc (hnt e hc)]
    by_cases hs : Suspends p.Messages
    · exact ⟨_, by rw [if_pos hs], by simp [suspendedTask, hs]⟩
    · exact ⟨_, by rw [if_neg hs], by simp [completedTask, hs]⟩

/-- Witness of C2: a plain send to a fresh server; the directive is absent and the
result is completed. -/
theorem C2_send_state_witness :
    ([textMessage] ≠ [] ∧
      ∀ e, continued (New streamingCard) { Messages := [textMessage] } = some e →
        ¬ Terminal e.Status.State) ∧
    ∃ task : Task,
      (opsImpl.MessageSend (New streamingCard)
        (RawParams.decoded { Messages := [textMessage] }) 1 2 3 4 5).2 =
        { Result := some (ResultValue.task task) } ∧
      (task.Status.State = TaskAuthRequired ↔ Suspends [textMessage]) ∧
      (task.Status.State = TaskCompleted ↔ ¬ Suspends [textMessage]) ∧
      task.Status.State ≠ TaskRunning :=
  ⟨⟨by simp, fun e h => by simp [continued] at h⟩,
    C2_send_state (New streamingCard) { Messages := [textMessage] } 1 2 3 4 5 (by simp)
      (fun e h => by simp [continued] at h)⟩

/-! ## Send: continuation -/

theorem continued_of {srv : Server} {p : MessageParams} {id : String} {e : Task}
    (hid : p.TaskID = some id) (hne : id ≠ "") (hget : srv.tasks.get id = some e) :
    continued srv p = some e := by
  simp [continued, hid, hne, hget]

/-- C3. Continuation: when the store holds a task in state auth-required or running and a
`message/send` request supplies its ID and is not suspended by the auth detector, the call
succeeds, the returned (and stored) task has the supplied ID and state completed, and no
task is created: the sequence of stored task IDs and the task id counter are unchanged. -/
theorem C3_continuation (srv : Server) (p : MessageParams) (id : String) (e : Task)
    (tNew tTouch tArt tDone tPut : Time)
    (hmsgs : p.Messages ≠ [])
    (hid : p.TaskID = some id) (hne : id ≠ "") (hget : srv.tasks.get id = some e)
    (hst : e.Status.State = TaskAuthRequired ∨ e.Status.State = TaskRunning)
    (hns : ¬ Suspends p.Messages) :
    ∃ (srv' : Server) (task : Task),
      opsImpl.MessageSend srv (RawParams.decoded p) tNew tTouch tArt tDone tPut =
        (srv', { Result := some (ResultValue.task task) }) ∧
      task.ID = id ∧ task.Status.State = TaskCompleted ∧
      srv'.tasks.get id = some task ∧
      srv'.tasks.items.map Task.ID = srv.tasks.items.map Task.ID ∧
      srv'.tasks.seq = srv.tasks.seq := by
  have hc := continued_of hid hne hget
  have heid : e.ID = id := itemsGet_id hget
  have hnt : ¬ Terminal e.Status.State := by
    rcases hst with h | h <;> simp [Terminal, h]
  rw [MessageSend_continue srv p e tNew tTouch tArt tDone tPut hmsgs hc hnt, if_neg hns]
  refine ⟨_, _, rfl, heid, rfl, ?_, ?_, rfl⟩
  · simp [taskStore.get_sync, completedTask, heid, hget]
  · simp [taskStore.sync, itemsSync_ids]

/-- Witness of C3: the suspended task `t-1` is sent again with a token. -/
theorem C3_continuation_witness :
    ([tokenMessage] ≠ [] ∧
      (srvSuspended streamingCard).tasks.get "t-1" =
        some (suspendedTask firstTask [challengeMessage] 2) ∧
      ¬ Suspends [tokenMessage]) ∧
    ∃ (srv' : Server) (task : Task),
      opsImpl.MessageSend (srvSuspended streamingCard)
          (RawParams.decoded { TaskID := some "t-1", Messages := [tokenMessage] })
          6 7 8 9 10 =
        (srv', { Result := some (ResultValue.task task) }) ∧
      task.ID = "t-1" ∧ task.Status.State = TaskCompleted ∧
      srv'.tasks.get "t-1" = some task ∧
      srv'.tasks.items.map Task.ID = (srvSuspended streamingCard).tasks.items.map Task.ID ∧
      srv'.tasks.seq = (srvSuspended streamingCard).tasks.seq :=
  ⟨⟨by simp, rfl, by decide⟩,
    C3_continuation (srvSuspended streamingCard)
      { TaskID := some "t-1", Messages := [tokenMessage] } "t-1"
      (suspendedTask firstTask [challengeMessage] 2)
      6 7 8 9 10 (by simp) rfl (by decide) rfl (Or.inl rfl) (by decide)⟩

/-! ## Capability gates -/

/-- C4. Streaming gate: when the card's `StreamingSupported()` is false, then for every
request payload (absent, malformed, or decoded with any task ID) `opsImpl.MessageStream`,
`opsImpl.TasksResubscribe` and `Server.rpcResubscribe` answer with error code -32002 and
return the server, hence the store, exactly as it was; the stream call starts no
goroutine. -/
theorem C4_streaming_gate (srv : Server) (ctx : Context)
    (pm : RawParams MessageParams) (pid : RawParams IDParams) (tNew tTouch tPut : Time)
    (hoff : AgentCard.StreamingSupported (some srv.card) = false) :
    opsImpl.MessageStream srv ctx pm tNew tTouch tPut =
      (srv, { Error := some { Code := -32002, Message := "Streaming is not supported" } },
        Spawned.nothing) ∧
    opsImpl.TasksResubscribe srv pid =
      (srv, { Error := some { Code := -32002, Message := "Streaming is not supported" } }) ∧
    Server.rpcResubscribe srv pid =
      (srv, { Error := some { Code := -32002, Message := "Streaming is not supported" } }) := by
  refine ⟨?_, ?_, ?_⟩
  · simp [opsImpl.MessageStream, hoff]
  · simp [opsImpl.TasksResubscribe, hoff]
  · simp [Server.rpcResubscribe, hoff]

/-- Witness of C4: the gating test's card, a well-formed stream request and a
resubscribe on the stored task `t-1`. -/
theorem C4_streaming_gate_witness :
    AgentCard.StreamingSupported (some (srvCompleted gatedCard).card) = false ∧
    (opsImpl.MessageStream (srvCompleted gatedCard) { session := some [] }
        (RawParams.decoded { Messages := [textMessage] }) 6 7 8 =
      (srvCompleted gatedCard,
        { Error := some { Code := -32002, Message := "Streaming is not supported" } },
        Spawned.nothing) ∧
    opsImpl.TasksResubscribe (srvCompleted gatedCard) (RawParams.decoded { ID := "t-1" }) =
      (srvCompleted gatedCard,
        { Error := some { Code := -32002, Message := "Streaming is not supported" } }) ∧
    Server.rpcResubscribe (srvCompleted gatedCard) (RawParams.decoded { ID := "t-1" }) =
      (srvCompleted gatedCard,
        { Error := some { Code := -32002, Message := "Streaming is not supported" } })) :=
  ⟨rfl,
    C4_streaming_gate (srvCompleted gatedCard) { session := some [] }
      (RawParams.decoded { Messages := [textMessage] }) (RawParams.decoded { ID := "t-1" })
      6 7 8 rfl⟩

/-- C5. Push gate: when the card's `PushNotificationsSupported()` is false, then for every
request payload the four push-configuration operations (set, get, list, delete) of
`opsImpl` and of the `Server` JSON-RPC handlers answer with error code -32003 and return
the server, hence the store, exactly as it was, whether or not the request names a stored
task. -/
theorem C5_push_gate (srv : Server) (ps : RawParams PushSetParams)
    (pr : RawParams PushRefParams) (pl : RawParams PushListParams)
    (hoff : AgentCard.PushNotificationsSupported (some srv.card) = false) :
    (opsImpl.TasksPushNotificationConfigSet srv ps =
      (srv, { Error := some { Code := -32003, Message := "Push Notification is not supported" } }) ∧
     opsImpl.TasksPushNotificationConfigGet srv pr =
      (srv, { Error := some { Code := -32003, Message := "Push Notification is not supported" } }) ∧
     opsImpl.TasksPushNotificationConfigList srv pl =
      (srv, { Error := some { Code := -32003, Message := "Push Notification is not supported" } }) ∧
     opsImpl.TasksPushNotificationConfigDelete srv pr =
      (srv, { Error := some { Code := -32003, Message := "Push Notification is not supported" } })) ∧
    (Server.rpcPushConfigSet srv ps =
      (srv, { Error := some { Code := -32003, Message := "Push Notification is not supported" } }) ∧
     Server.rpcPushConfigGet srv pr =
      (srv, { Error := some { Code := -32003, Message := "Push Notification is not supported" } }) ∧
     Server.rpcPushConfigList srv pl =
      (srv, { Error := some { Code := -32003, Message := "Push Notification is not supported" } }) ∧
     Server.rpcPushConfigDelete srv pr =
      (srv, { Error := some { Code := -32003, Message := "Push Notification is not supported" } })) := by
  refine ⟨⟨?_, ?_, ?_, ?_⟩, ⟨?_, ?_, ?_, ?_⟩⟩
  · simp [opsImpl.TasksPushNotificationConfigSet, opsImpl.pushSupported, hoff]
  · simp [opsImpl.TasksPushNotificationConfigGet, opsImpl.pushSupported, hoff]
  · simp [opsImpl.TasksPushNotificationConfigList, opsImpl.pushSupported, hoff]
  · simp [opsImpl.TasksPushNotificationConfigDelete, opsImpl.pushSupported, hoff]
  · simp [Server.rpcPushConfigSet, Server.pushSupported, hoff]
  · simp [Server.rpcPushConfigGet, Server.pushSupported, hoff]
  · simp [Server.rpcPushConfigList, Server.pushSupported, hoff]
  · simp [Server.rpcPushConfigDelete, Server.pushSupported, hoff]

/-- Witness of C5, the scenario of the specification: with streaming enabled and push
disabled a send creates the completed task `t-1`; the push operations on that task ID
then answer -32003. -/
theorem C5_push_gate_witness :
    (AgentCard.PushNotificationsSupported (some (srvCompleted streamingCard).card) = false ∧
      ((srvCompleted streamingCard).tasks.get "t-1").map (fun t => t.Status.State) =
        some TaskCompleted) ∧
    ((opsImpl.TasksPushNotificationConfigSet (srvCompleted streamingCard)
        (RawParams.decoded { TaskID := "t-1", Config := { ID := "", URL := "https://x" } }) =
      (srvCompleted streamingCard,
        { Error := some { Code := -32003, Message := "Push Notification is not supported" } }) ∧
     opsImpl.TasksPushNotificationConfigGet (srvCompleted streamingCard)
        (RawParams.decoded { TaskID := "t-1", ConfigID := "c1" }) =
      (srvCompleted streamingCard,
        { Error := some { Code := -32003, Message := "Push Notification is not supported" } }) ∧
     opsImpl.TasksPushNotificationConfigList (srvCompleted streamingCard)
        (RawParams.decoded { TaskID := "t-1" }) =
      (srvCompleted streamingCard,
        { Error := some { Code := -32003, Message := "Push Notification is not supported" } }) ∧
     opsImpl.TasksPushNotificationConfigDelete (srvCompleted streamingCard)
        (RawParams.decoded { TaskID := "t-1", ConfigID := "c1" }) =
      (srvCompleted streamingCard,
        { Error := some { Code := -32003, Message := "Push Notification is not supported" } })) ∧
    (Server.rpcPushConfigSet (srvCompleted streamingCard)
        (RawParams.decoded { TaskID := "t-1", Config := { ID := "", URL := "https://x" } }) =
      (srvCompleted streamingCard,
        { Error := some { Code := -32003, Message := "Push Notification is not supported" } }) ∧
     Server.rpcPushConfigGet (srvCompleted streamingCard)
        (RawParams.decoded { TaskID := "t-1", ConfigID := "c1" }) =
      (srvCompleted streamingCard,
        { Error := some { Code := -32003, Message := "Push Notification is not supported" } }) ∧
     Server.rpcPushConfigList (srvCompleted streamingCard)
        (RawParams.decoded { TaskID := "t-1" }) =
      (srvCompleted streamingCard,
        { Error := some { Code := -32003, Message := "Push Notification is not supported" } }) ∧
     Server.rpcPushConfigDelete (srvCompleted streamingCard)
        (RawParams.decoded { TaskID := "t-1", ConfigID := "c1" }) =
      (srvCompleted streamingCard,
        { Error := some { Code := -32003, Message := "Push Notification is not supported" } }))) :=
  ⟨⟨rfl, rfl⟩,
    C5_push_gate (srvCompleted streamingCard)
      (RawParams.decoded { TaskID := "t-1", Config := { ID := "", URL := "https://x" } })
      (RawParams.decoded { TaskID := "t-1", ConfigID := "c1" })
      (RawParams.decoded { TaskID := "t-1" }) rfl⟩

/-! ## Cancel -/

/-- A cancel of the stored task `e` by `opsImpl.TasksCancel`. -/
theorem TasksCancel_stored (srv : Server) (id : String) (e : Task) (tNow tPut : Time)
    (hne : id ≠ "") (hget : srv.tasks.get id = some e) :
    opsImpl.TasksCancel srv (RawParams.decoded { ID := id }) tNow tPut =
      ({ srv with tasks := srv.tasks.sync (canceledTask e tNow) },
        { Result := some (ResultValue.task (canceledTask e tNow)) }) := by
  have heid : e.ID = id := itemsGet_id hget
  have hget2 : srv.tasks.get e.ID = some e := heid ▸ hget
  simp [opsImpl.TasksCancel, hne, hget, canceledTask]
  exact taskStore.sync_sync_put _ _ _ _ _ rfl hget2

/-- A cancel of the stored task `e` by `Server.rpcCancelTask`. -/
theorem rpcCancelTask_stored (srv : Server) (id : String) (e : Task) (tNow tPut : Time)
    (hne : id ≠ "") (hget : srv.tasks.get id = some e) :
    Server.rpcCancelTask srv (RawParams.decoded { ID := id }) tNow tPut =
      ({ srv with tasks := srv.tasks.sync (canceledTask e tNow) },
        { Result := some (ResultValue.task (canceledTask e tNow)) }) := by
  have heid : e.ID = id := itemsGet_id hget
  have hget2 : srv.tasks.get e.ID = some e := heid ▸ hget
  simp [Server.rpcCancelTask, hne, hget, canceledTask]
  exact taskStore.sync_sync_put _ _ _ _ _ rfl hget2

/-- Two cancels of one stored task, each described by `canceledTask`. -/
theorem cancelTwice_of (srv : Server) (id : String) (e : Task) (tNow tNow2 : Time)
    (hget : srv.tasks.get id = some e) :
    CancelTwice id tNow2
      ({ srv with tasks := srv.tasks.sync (canceledTask e tNow) },
        { Result := some (ResultValue.task (canceledTask e tNow)) })
      ({ srv with tasks := ((srv.tasks.sync (canceledTask e tNow)).sync
            (canceledTask (canceledTask e tNow) tNow2)) },
        { Result := some (ResultValue.task (canceledTask (canceledTask e tNow) tNow2)) }) := by
  have heid : e.ID = id := itemsGet_id hget
  refine ⟨canceledTask e tNow, canceledTask (canceledTask e tNow) tNow2,
    rfl, rfl, ?_, rfl, rfl, ?_, rfl, ?_, rfl, rfl, rfl, rfl, rfl⟩
  · simp [taskStore.get_sync, canceledTask, heid, hget]
  · simp [taskStore.get_sync, canceledTask, heid, hget]
  · intro other hother
    have h1 : ¬ e.ID = other := fun h => hother (h.symm.trans heid)
    simp [taskStore.get_sync, canceledTask, h1]

/-- C6. Cancel forces the state: for every store and every stored task ID (IDs are
issued by `formatID` and are never empty), whatever the task's prior state, `tasks/cancel`
succeeds and the returned and stored task has state canceled; a second cancel of the same
ID succeeds again with state canceled, and its result is the first result with only the
timestamp replaced, every other part of the store being as the first call left it. This
holds for `opsImpl.TasksCancel` and for `Server.rpcCancelTask`. -/
theorem C6_cancel_idempotent (srv : Server) (id : String) (e : Task)
    (tNow tPut tNow2 tPut2 : Time)
    (hne : id ≠ "") (hget : srv.tasks.get id = some e) :
    CancelTwice id tNow2
      (opsImpl.TasksCancel srv (RawParams.decoded { ID := id }) tNow tPut)
      (opsImpl.TasksCancel
        (opsImpl.TasksCancel srv (RawParams.decoded { ID := id }) tNow tPut).1
        (RawParams.decoded { ID := id }) tNow2 tPut2) ∧
    CancelTwice id tNow2
      (Server.rpcCancelTask srv (RawParams.decoded { ID := id }) tNow tPut)
      (Server.rpcCancelTask
        (Server.rpcCancelTask srv (RawParams.decoded { ID := id }) tNow tPut).1
        (RawParams.decoded { ID := id }) tNow2 tPut2) := by
  have heid : e.ID = id := itemsGet_id hget
  have hget1 : (srv.tasks.sync (canceledTask e tNow)).get id = some (canceledTask e tNow) := by
    simp [taskStore.get_sync, canceledTask, heid, hget]
  constructor
  · rw [TasksCancel_stored srv id e tNow tPut hne hget]
    rw [TasksCancel_stored _ id (canceledTask e tNow) tNow2 tPut2 hne hget1]
    exact cancelTwice_of srv id e tNow tNow2 hget
  · rw [rpcCancelTask_stored srv id e tNow tPut hne hget]
    rw [rpcCancelTask_stored _ id (canceledTask e tNow) tNow2 tPut2 hne hget1]
    exact cancelTwice_of srv id e tNow tNow2 hget

/-- Witness of C6: the completed (already terminal) task `t-1` is canceled twice. -/
theorem C6_cancel_idempotent_witness :
    (("t-1" : String) ≠ "" ∧
      (srvCompleted streamingCard).tasks.get "t-1" = some (completedTask firstTask 3 4)) ∧
    (CancelTwice "t-1" 8
      (opsImpl.TasksCancel (srvCompleted streamingCard) (RawParams.decoded { ID := "t-1" }) 6 7)
      (opsImpl.TasksCancel
        (opsImpl.TasksCancel (srvCompleted streamingCard)
          (RawParams.decoded { ID := "t-1" }) 6 7).1
        (RawParams.decoded { ID := "t-1" }) 8 9) ∧
    CancelTwice "t-1" 8
      (Server.rpcCancelTask (srvCompleted streamingCard) (RawParams.decoded { ID := "t-1" }) 6 7)
      (Server.rpcCancelTask
        (Server.rpcCancelTask (srvCompleted streamingCard)
          (RawParams.decoded { ID := "t-1" }) 6 7).1
        (RawParams.decoded { ID := "t-1" }) 8 9)) :=
  ⟨⟨by decide, rfl⟩,
    C6_cancel_idempotent (srvCompleted streamingCard) "t-1" (completedTask firstTask 3 4)
      6 7 8 9 (by decide) rfl⟩

/-! ## Stream: the snapshot returned to the caller -/

/-- C7, counterexample. The task `t-1` is stored in auth-required; a `message/stream`
request that continues it with a token is accepted (streaming enabled, non-empty
messages, target not terminal) and is not suspended, and the snapshot it returns is in
state auth-required, not running. -/
theorem C7_counterexample :
    AgentCard.StreamingSupported (some (srvSuspended streamingCard).card) = true ∧
    [tokenMessage] ≠ [] ∧
    continued (srvSuspended streamingCard) { TaskID := some "t-1", Messages := [tokenMessage] } =
      some (suspendedTask firstTask [challengeMessage] 2) ∧
    ¬ Terminal (suspendedTask firstTask [challengeMessage] 2).Status.State ∧
    ¬ Suspends [tokenMessage] ∧
    (opsImpl.MessageStream (srvSuspended streamingCard) { session := some [] }
        (RawParams.decoded { TaskID := some "t-1", Messages := [tokenMessage] }) 6 7 8).2.1 =
      { Result := some (ResultValue.task (suspendedTask firstTask [challengeMessage] 2)) } ∧
    (suspendedTask firstTask [challengeMessage] 2).Status.State = TaskAuthRequired ∧
    (suspendedTask firstTask [challengeMessage] 2).Status.State ≠ TaskRunning := by
  refine ⟨rfl, by simp, rfl, ?_, by decide, rfl, rfl, ?_⟩
  · simp [Terminal, suspendedTask]
  · simp [suspendedTask]

/-- C7, amended. For every `message/stream` request accepted by `opsImpl.MessageStream`
(streaming enabled, non-empty messages, target task absent or non-terminal) that the auth
detector does not suspend, the call returns a task snapshot and starts the progression on
that task. For a newly created task the snapshot is in state running. For a continued
task the snapshot is the stored task as it is, so it is in state running exactly when
the stored task is. -/
theorem C7_stream_snapshot (srv : Server) (ctx : Context) (p : MessageParams)
    (tNew tTouch tPut : Time)
    (hstream : AgentCard.StreamingSupported (some srv.card) = true)
    (hmsgs : p.Messages ≠ [])
    (hnt : ∀ e, continued srv p = some e → ¬ Terminal e.Status.State)
    (hns : ¬ Suspends p.Messages) :
    ∃ (srv' : Server) (task : Task),
      opsImpl.MessageStream srv ctx (RawParams.decoded p) tNew tTouch tPut =
        (srv', { Result := some (ResultValue.task task) }, Spawned.streamDemo ctx task) ∧
      (continued srv p = none →
        task.Status.State = TaskRunning ∧ task.ID = formatID (wrap64 (srv.tasks.seq + 1))) ∧
      (∀ e, continued srv p = some e → task = e ∧ srv' = srv) := by
  cases hc : continued srv p with
  | none =>
    rw [MessageStream_create srv ctx p tNew tTouch tPut hstream hmsgs hc, if_neg hns]
    exact ⟨_, _, rfl, fun _ => ⟨rfl, rfl⟩, fun e he => by simp at he⟩
  | some e =>
    rw [MessageStream_continue srv ctx p e tNew tTouch tPut hstream hmsgs hc (hnt e hc),
      if_neg hns]
    exact ⟨_, _, rfl, fun h => by simp at h, fun e' he => by
      simp at he
      exact ⟨he, rfl⟩⟩

/-- Witness of C7 (amended): a stream request without task ID on a fresh server. -/
theorem C7_stream_snapshot_witness :
    (AgentCard.StreamingSupported (some (New streamingCard).card) = true ∧
      [textMessage] ≠ [] ∧
      (∀ e, continued (New streamingCard) { Messages := [textMessage] } = some e →
        ¬ Terminal e.Status.State) ∧
      ¬ Suspends [textMessage]) ∧
    ∃ (srv' : Server) (task : Task),
      opsImpl.MessageStream (New streamingCard) { session := some [] }
          (RawParams.decoded { Messages := [textMessage] }) 1 2 3 =
        (srv', { Result := some (ResultValue.task task) },
          Spawned.streamDemo { session := some [] } task) ∧
      (continued (New streamingCard) { Messages := [textMessage] } = none →
        task.Status.State = TaskRunning ∧
        task.ID = formatID (wrap64 ((New streamingCard).tasks.seq + 1))) ∧
      (∀ e, continued (New streamingCard) { Messages := [textMessage] } = some e →
        task = e ∧ srv' = New streamingCard) :=
  ⟨⟨rfl, by simp, fun e h => by simp [continued] at h, by decide⟩,
    C7_stream_snapshot (New streamingCard) { session := some [] }
      { Messages := [textMessage] } 1 2 3 rfl (by simp)
      (fun e h => by simp [continued] at h) (by decide)⟩

/-! ## The streaming progression -/

theorem taskStore.get_put (t : taskStore) (task : Task) (now : Time) (id : String) :
    (t.put task now).get id = if task.ID = id then some task else t.get id := by
  simp [taskStore.put, taskStore.get, itemsGet_itemsSet]

/-- The store `streamDemo` leaves when run on a stored task. -/
theorem streamDemo_store (srv : Server) (ctx : Context) (task : Task)
    (tRun tArt tDone tPut : Time) (hget : srv.tasks.get task.ID = some task) :
    (opsImpl.streamDemo srv ctx task tRun tArt tDone tPut).1 =
      { srv with tasks := srv.tasks.sync (streamedTask task tArt tDone) } := by
  simp only [opsImpl.streamDemo, Task.Touch, streamedTask, progressArtifact]
  congr 1
  exact taskStore.sync_sync_sync_put _ _ _ _ _ _ rfl rfl hget

/-- The task `streamDemo` leaves stored under the task's ID, stored before or not. -/
theorem streamDemo_get (srv : Server) (ctx : Context) (task : Task)
    (tRun tArt tDone tPut : Time) :
    (opsImpl.streamDemo srv ctx task tRun tArt tDone tPut).1.tasks.get task.ID =
      some (streamedTask task tArt tDone) := by
  simp [opsImpl.streamDemo, Task.Touch, streamedTask, progressArtifact, taskStore.get_put]

/-- The session `streamDemo` leaves when a session is bound to its context. -/
theorem streamDemo_session (srv : Server) (sent : List Event) (task : Task)
    (tRun tArt tDone tPut : Time) :
    (opsImpl.streamDemo srv { session := some sent } task tRun tArt tDone tPut).2 =
      { session := some (sent ++ [runningEvent task tRun, artifactEvent task tArt,
          completedEvent task tDone]) } := by
  cases hctx : task.ContextID <;>
    simp [opsImpl.streamDemo, opsImpl.sendStatus, opsImpl.sendArtifact, sendSSEResponse,
      NewStatusEvent, NewArtifactEvent, Task.Touch, runningEvent, artifactEvent,
      completedEvent, progressArtifact, eventContextID, hctx]

/-- C8. For every accepted `message/stream` request that the detector does not suspend:
the call returns a snapshot `task` and starts the progression on it; once the
progression has run to its end with no other operation in between, `tasks/get` on that
task returns it in state completed with the artifact sequence of the snapshot (the
sequence at stream start) followed by exactly one new artifact, whose ID is "a-" followed
by the task ID and whose parts are the single text part "processing...". -/
theorem C8_stream_settles (srv : Server) (ctx : Context) (p : MessageParams)
    (tNew tTouch tPut tRun tArt tDone tPut2 : Time)
    (hstream : AgentCard.StreamingSupported (some srv.card) = true)
    (hmsgs : p.Messages ≠ [])
    (hnt : ∀ e, continued srv p = some e → ¬ Terminal e.Status.State)
    (hns : ¬ Suspends p.Messages) :
    ∃ (srv1 : Server) (task : Task),
      opsImpl.MessageStream srv ctx (RawParams.decoded p) tNew tTouch tPut =
        (srv1, { Result := some (ResultValue.task task) }, Spawned.streamDemo ctx task) ∧
      srv1.tasks.get task.ID = some task ∧
      (opsImpl.TasksGet
          (opsImpl.runSpawned srv1 (Spawned.streamDemo ctx task) tRun tArt tDone tPut2).1
          (RawParams.decoded { ID := task.ID })).2 =
        { Result := some (ResultValue.task
            { ID := task.ID, ContextID := task.ContextID,
              Status := { State := TaskCompleted, UpdatedAt := tDone,
                          Message := task.Status.Message },
              Artifacts := task.Artifacts ++
                [{ ID := "a-" ++ task.ID, CreatedAt := tArt,
                   Parts := [{ Typ := "text", Text := "processing..." }] }] }) } := by
  have key : ∀ (srv1 : Server) (task : Task), task.ID ≠ "" →
      srv1.tasks.get task.ID = some task →
      (opsImpl.TasksGet
          (opsImpl.runSpawned srv1 (Spawned.streamDemo ctx task) tRun tArt tDone tPut2).1
          (RawParams.decoded { ID := task.ID })).2 =
        { Result := some (ResultValue.task
            { ID := task.ID, ContextID := task.ContextID,
              Status := { State := TaskCompleted, UpdatedAt := tDone,
                          Message := task.Status.Message },
              Artifacts := task.Artifacts ++
                [{ ID := "a-" ++ task.ID, CreatedAt := tArt,
                   Parts := [{ Typ := "text", Text := "processing..." }] }] }) } := by
    intro srv1 task hne hget
    have hd : srv1.tasks.deref task = task := by simp [taskStore.deref, hget]
    have hg := streamDemo_get srv1 ctx task tRun tArt tDone tPut2
    simp only [opsImpl.runSpawned, hd]
    simp [opsImpl.TasksGet, hne, hg, streamedTask, progressArtifact]
  cases hc : continued srv p with
  | none =>
    rw [MessageStream_create srv ctx p tNew tTouch tPut hstream hmsgs hc, if_neg hns]
    have hnew := taskStore.newTask_get srv.tasks p.ContextID tNew
    exact ⟨_, _, rfl, hnew, key _ _ (formatID_ne_empty _) hnew⟩
  | some e =>
    obtain ⟨id, hid, hne, hget, heid⟩ := continued_some hc
    have hget2 : srv.tasks.get e.ID = some e := heid ▸ hget
    rw [MessageStream_continue srv ctx p e tNew tTouch tPut hstream hmsgs hc (hnt e hc),
      if_neg hns]
    exact ⟨_, _, rfl, hget2, key _ _ (heid ▸ hne) hget2⟩

/-- Witness of C8: a stream request continuing the running task `t-1`. -/
theorem C8_stream_settles_witness :
    (AgentCard.StreamingSupported (some (srvRunning streamingCard).card) = true ∧
      [textMessage] ≠ [] ∧
      (∀ e, continued (srvRunning streamingCard)
          { TaskID := some "t-1", Messages := [textMessage] } = some e →
        ¬ Terminal e.Status.State) ∧
      ¬ Suspends [textMessage]) ∧
    ∃ (srv1 : Server) (task : Task),
      opsImpl.MessageStream (srvRunning streamingCard) { session := some [] }
          (RawParams.decoded { TaskID := some "t-1", Messages := [textMessage] }) 6 7 8 =
        (srv1, { Result := some (ResultValue.task task) },
          Spawned.streamDemo { session := some [] } task) ∧
      srv1.tasks.get task.ID = some task ∧
      (opsImpl.TasksGet
          (opsImpl.runSpawned srv1 (Spawned.streamDemo { session := some [] } task)
            9 10 11 12).1
          (RawParams.decoded { ID := task.ID })).2 =
        { Result := some (ResultValue.task
            { ID := task.ID, ContextID := task.ContextID,
              Status := { State := TaskCompleted, UpdatedAt := 11,
                          Message := task.Status.Message },
              Artifacts := task.Artifacts ++
                [{ ID := "a-" ++ task.ID, CreatedAt := 10,
                   Parts := [{ Typ := "text", Text := "processing..." }] }] }) } :=
  ⟨⟨rfl, by simp,
      fun e h => by
        have hc : continued (srvRunning streamingCard)
            { TaskID := some "t-1", Messages := [textMessage] } = some firstTask := rfl
        rw [hc] at h
        cases h
        simp [Terminal, firstTask],
      by decide⟩,
    C8_stream_settles (srvRunning streamingCard) { session := some [] }
      { TaskID := some "t-1", Messages := [textMessage] } 6 7 8 9 10 11 12 rfl (by simp)
      (fun e h => by
        have hc : continued (srvRunning streamingCard)
            { TaskID := some "t-1", Messages := [textMessage] } = some firstTask := rfl
        rw [hc] at h
        cases h
        simp [Terminal, firstTask])
      (by decide)⟩

/-- C9. Run with a session bound to its context, the streaming progression of a task
pushes exactly three events over the session, in this order: a status-update with state
running and final=false; an artifact-update carrying the new artifact with append=true
and lastChunk=false; a status-update with state completed and final=true. Every event
carries the task's ID and its context ID (the empty string when the task has none). The
task stored under that ID at the end is the completed task, and the final event is the
status event built from that stored task after the first two emissions. -/
theorem C9_stream_events (srv : Server) (sent : List Event) (task : Task)
    (tRun tArt tDone tPut : Time) :
    (opsImpl.streamDemo srv { session := some sent } task tRun tArt tDone tPut).2 =
      { session := some (sent ++
          [Event.status
             { TaskID := task.ID, ContextID := task.ContextID.getD "", Kind := "status-update",
               Status := { State := TaskRunning, UpdatedAt := tRun,
                           Message := task.Status.Message },
               Final := false },
           Event.artifact
             { TaskID := task.ID, ContextID := task.ContextID.getD "",
               Kind := "artifact-update",
               Artifact := { ID := "a-" ++ task.ID, CreatedAt := tArt,
                             Parts := [{ Typ := "text", Text := "processing..." }] },
               Append := true, LastChunk := false },
           Event.status
             { TaskID := task.ID, ContextID := task.ContextID.getD "", Kind := "status-update",
               Status := { State := TaskCompleted, UpdatedAt := tDone,
                           Message := task.Status.Message },
               Final := true }]) } ∧
    (∃ stored : Task,
      (opsImpl.streamDemo srv { session := some sent } task tRun tArt tDone tPut).1.tasks.get
          task.ID = some stored ∧
      stored.Status.State = TaskCompleted ∧
      (opsImpl.streamDemo srv { session := some sent } task tRun tArt tDone tPut).2 =
        (opsImpl.sendStatus
          { session := some (sent ++ [runningEvent task tRun, artifactEvent task tArt]) }
          stored true).1) := by
  constructor
  · rw [streamDemo_session]
    rfl
  · refine ⟨streamedTask task tArt tDone, streamDemo_get _ _ _ _ _ _ _, rfl, ?_⟩
    rw [streamDemo_session]
    cases hctx : task.ContextID <;>
      simp [opsImpl.sendStatus, sendSSEResponse, NewStatusEvent, streamedTask,
        completedEvent, eventContextID, hctx]

/-! ## Stream: suspension -/

/-- What an accepted and suspended `MessageStream` does: the task is stored in
auth-required with the challenge message and returned without error, its artifacts are
untouched, and the only work started is one `sendStatus` on `context.Background()`. -/
theorem MessageStream_suspended (srv : Server) (ctx : Context) (p : MessageParams)
    (tNew tTouch tPut : Time)
    (hstream : AgentCard.StreamingSupported (some srv.card) = true)
    (hmsgs : p.Messages ≠ [])
    (hnt : ∀ e, continued srv p = some e → ¬ Terminal e.Status.State)
    (hs : Suspends p.Messages) :
    ∃ (srv' : Server) (task0 : Task),
      opsImpl.MessageStream srv ctx (RawParams.decoded p) tNew tTouch tPut =
        (srv', { Result := some (ResultValue.task (suspendedTask task0 p.Messages tTouch)) },
          Spawned.sendStatus Context.Background (suspendedTask task0 p.Messages tTouch) false) ∧
      srv'.tasks.get task0.ID = some (suspendedTask task0 p.Messages tTouch) ∧
      (∀ e, continued srv p = some e → task0 = e) ∧
      (continued srv p = none → task0 = (srv.tasks.newTask p.ContextID tNew).2) := by
  cases hc : continued srv p with
  | none =>
    rw [MessageStream_create srv ctx p tNew tTouch tPut hstream hmsgs hc, if_pos hs]
    have hnew := taskStore.newTask_get srv.tasks p.ContextID tNew
    refine ⟨_, _, rfl, ?_, fun e he => by simp at he, fun _ => rfl⟩
    simp [taskStore.get_sync, suspendedTask, hnew]
  | some e =>
    obtain ⟨id, hid, hne, hget, heid⟩ := continued_some hc
    have hget2 : srv.tasks.get e.ID = some e := heid ▸ hget
    rw [MessageStream_continue srv ctx p e tNew tTouch tPut hstream hmsgs hc (hnt e hc),
      if_pos hs]
    refine ⟨_, _, rfl, ?_, fun e' he => by simp at he; exact he, fun h => by simp at h⟩
    simp [taskStore.get_sync, suspendedTask, hget2]

/-- The emission started on suspension never reaches a session: `sendStatus` on
`context.Background()` fails and pushes nothing, whatever the task. -/
theorem sendStatus_background (task : Task) (final : Bool) :
    opsImpl.sendStatus Context.Background task final = (Context.Background, false) := by
  simp [opsImpl.sendStatus, sendSSEResponse, Context.Background]

/-- C10, at a concrete request. A `message/stream` request carrying the challenge (required
asserted, no token) arrives on a fresh server with streaming enabled, in a context bound
to a session. The task `t-1` is stored in auth-required with the challenge message and
returned without error, with no artifact, and the progression is not started. The single
status emission is started on `context.Background()`, which carries no session: it fails
and pushes no event, so the number of events emitted for the task is zero, not one. -/
theorem C10_suspended_stream_emits_nothing :
    Suspends [challengeMessage] ∧
    (opsImpl.MessageStream (New streamingCard) { session := some [] }
        (RawParams.decoded { Messages := [challengeMessage] }) 1 2 3).2 =
      ({ Result := some (ResultValue.task (suspendedTask firstTask [challengeMessage] 2)) },
        Spawned.sendStatus Context.Background
          (suspendedTask firstTask [challengeMessage] 2) false) ∧
    (opsImpl.MessageStream (New streamingCard) { session := some [] }
        (RawParams.decoded { Messages := [challengeMessage] }) 1 2 3).1.tasks.get "t-1" =
      some (suspendedTask firstTask [challengeMessage] 2) ∧
    (suspendedTask firstTask [challengeMessage] 2).Status.State = TaskAuthRequired ∧
    (suspendedTask firstTask [challengeMessage] 2).Artifacts = [] ∧
    opsImpl.sendStatus Context.Background
        (suspendedTask firstTask [challengeMessage] 2) false = (Context.Background, false) ∧
    (opsImpl.runSpawned
        (opsImpl.MessageStream (New streamingCard) { session := some [] }
          (RawParams.decoded { Messages := [challengeMessage] }) 1 2 3).1
        (Spawned.sendStatus Context.Background
          (suspendedTask firstTask [challengeMessage] 2) false) 4 5 6 7).2.session = none :=
  ⟨by decide, rfl, rfl, rfl, rfl, rfl, rfl⟩

/-! ## Send: creation and the challenge message -/

/-- C11. For every `message/send` request (non-empty messages) with no `taskId` that the
auth detector does not suspend, the result is a newly created task (its ID is `formatID`
of the incremented counter, its context ID the supplied one) in state completed, carrying
exactly one artifact whose ID is "a-" followed by the task ID and whose parts are exactly
one text part with text "ok"; `tasks/get` on that ID then returns the same task. -/
theorem C11_send_creates (srv : Server) (p : MessageParams)
    (tNew tTouch tArt tDone tPut : Time)
    (hmsgs : p.Messages ≠ []) (hid : p.TaskID = none) (hns : ¬ Suspends p.Messages) :
    ∃ (srv' : Server) (task : Task),
      opsImpl.MessageSend srv (RawParams.decoded p) tNew tTouch tArt tDone tPut =
        (srv', { Result := some (ResultValue.task task) }) ∧
      task.ID = formatID (wrap64 (srv.tasks.seq + 1)) ∧
      srv'.tasks.seq = wrap64 (srv.tasks.seq + 1) ∧
      task.ContextID = p.ContextID ∧
      task.Status.State = TaskCompleted ∧
      task.Artifacts =
        [{ ID := "a-" ++ task.ID, CreatedAt := tArt,
           Parts := [{ Typ := "text", Text := "ok" }] }] ∧
      opsImpl.TasksGet srv' (RawParams.decoded { ID := task.ID }) =
        (srv', { Result := some (ResultValue.task task) }) := by
  have hc : continued srv p = none := by simp [continued, hid]
  have hnew := taskStore.newTask_get srv.tasks p.ContextID tNew
  rw [MessageSend_create srv p tNew tTouch tArt tDone tPut hmsgs hc, if_neg hns]
  refine ⟨_, _, rfl, rfl, rfl, rfl, rfl, rfl, ?_⟩
  have hne : formatID (wrap64 (srv.tasks.seq + 1)) ≠ "" := formatID_ne_empty _
  have hid2 : (completedTask (srv.tasks.newTask p.ContextID tNew).2 tArt tDone).ID =
      formatID (wrap64 (srv.tasks.seq + 1)) := rfl
  have hid3 : (srv.tasks.newTask p.ContextID tNew).2.ID =
      formatID (wrap64 (srv.tasks.seq + 1)) := rfl
  rw [hid3] at hnew
  simp [opsImpl.TasksGet, hid2, hne, taskStore.get_sync, hnew]

/-- Witness of C11: the scenario of the specification, a plain send to a fresh server. -/
theorem C11_send_creates_witness :
    ([textMessage] ≠ [] ∧ ¬ Suspends [textMessage]) ∧
    ∃ (srv' : Server) (task : Task),
      opsImpl.MessageSend (New streamingCard)
          (RawParams.decoded { Messages := [textMessage] }) 1 2 3 4 5 =
        (srv', { Result := some (ResultValue.task task) }) ∧
      task.ID = formatID (wrap64 ((New streamingCard).tasks.seq + 1)) ∧
      srv'.tasks.seq = wrap64 ((New streamingCard).tasks.seq + 1) ∧
      task.ContextID = none ∧
      task.Status.State = TaskCompleted ∧
      task.Artifacts =
        [{ ID := "a-" ++ task.ID, CreatedAt := 3,
           Parts := [{ Typ := "text", Text := "ok" }] }] ∧
      opsImpl.TasksGet srv' (RawParams.decoded { ID := task.ID }) =
        (srv', { Result := some (ResultValue.task task) }) :=
  ⟨⟨by simp, by decide⟩,
    C11_send_creates (New streamingCard) { Messages := [textMessage] } 1 2 3 4 5
      (by simp) rfl (by decide)⟩

/-- The entries of the challenge payload built by `buildAuthMessage`. -/
theorem buildAuthMessage_payload (a : secAuth) :
    ∃ auth : List (String × JSON),
      buildAuthMessage a = { Typ := "data", Data := [("auth", JSON.obj auth)] } ∧
      JSON.member auth "resource" = some (JSON.str a.Resource) ∧
      JSON.member auth "scopes" = some (marshalStrings a.Scopes) ∧
      (a.AuthorizationURI ≠ "" →
        JSON.member auth "authorization_uri" = some (JSON.str a.AuthorizationURI)) ∧
      (a.AuthorizationURI = "" → JSON.member auth "authorization_uri" = none) := by
  by_cases hu : a.AuthorizationURI = ""
  · refine ⟨_, by simp [buildAuthMessage, hu]; rfl, ?_, ?_, ?_, ?_⟩ <;>
      simp [JSON.member, mapGet, hu]
  · refine ⟨_, by simp [buildAuthMessage, hu]; rfl, ?_, ?_, ?_, ?_⟩ <;>
      simp [JSON.member, mapGet, hu]

/-- C12. When `MessageSend` suspends a task (an accepted request that the detector
suspends), the returned task is in auth-required and its status message is a data part
(type "data") whose payload holds, under "auth", the detected resource, the detected
scope list (written as `null` when no scope was detected, as an array of the detected
strings otherwise), and an "authorization_uri" entry if and only if the detected
authorization URI is non-empty, then equal to it. -/
theorem C12_challenge_message (srv : Server) (p : MessageParams)
    (tNew tTouch tArt tDone tPut : Time)
    (hmsgs : p.Messages ≠ [])
    (hnt : ∀ e, continued srv p = some e → ¬ Terminal e.Status.State)
    (hs : Suspends p.Messages) :
    ∃ (task : Task) (auth : List (String × JSON)),
      (opsImpl.MessageSend srv (RawParams.decoded p) tNew tTouch tArt tDone tPut).2 =
        { Result := some (ResultValue.task task) } ∧
      task.Status.State = TaskAuthRequired ∧
      task.Status.Message = some { Typ := "data", Data := [("auth", JSON.obj auth)] } ∧
      JSON.member auth "resource" = some (JSON.str (detectSecondaryAuth p.Messages).Resource) ∧
      JSON.member auth "scopes" = some (marshalStrings (detectSecondaryAuth p.Messages).Scopes) ∧
      ((detectSecondaryAuth p.Messages).Scopes = [] →
        JSON.member auth "scopes" = some JSON.null) ∧
      ((detectSecondaryAuth p.Messages).Scopes ≠ [] →
        JSON.member auth "scopes" =
          some (JSON.arr ((detectSecondaryAuth p.Messages).Scopes.map JSON.str))) ∧
      ((detectSecondaryAuth p.Messages).AuthorizationURI ≠ "" →
        JSON.member auth "authorization_uri" =
          some (JSON.str (detectSecondaryAuth p.Messages).AuthorizationURI)) ∧
      ((detectSecondaryAuth p.Messages).AuthorizationURI = "" →
        JSON.member auth "authorization_uri" = none) := by
  obtain ⟨auth, hb, h1, h2, h3, h4⟩ := buildAuthMessage_payload (detectSecondaryAuth p.Messages)
  have h2a : (detectSecondaryAuth p.Messages).Scopes = [] →
      JSON.member auth "scopes" = some JSON.null := by
    intro he
    rw [h2, he]
    rfl
  have h2b : (detectSecondaryAuth p.Messages).Scopes ≠ [] →
      JSON.member auth "scopes" =
        some (JSON.arr ((detectSecondaryAuth p.Messages).Scopes.map JSON.str)) := by
    intro hne
    rw [h2]
    cases hsc : (detectSecondaryAuth p.Messages).Scopes with
    | nil => exact absurd hsc hne
    | cons x rest => rfl
  cases hc : continued srv p with
  | none =>
    rw [MessageSend_create srv p tNew tTouch tArt tDone tPut hmsgs hc, if_pos hs]
    exact ⟨_, auth, rfl, rfl, by simp [suspendedTask, hb], h1, h2, h2a, h2b, h3, h4⟩
  | some e =>
    rw [MessageSend_continue srv p e tNew tTouch tArt tDone tPut hmsgs hc (hnt e hc), if_pos hs]
    exact ⟨_, auth, rfl, rfl, by simp [suspendedTask, hb], h1, h2, h2a, h2b, h3, h4⟩

/-- Witness of C12, the scenario of the specification: a send whose data part is
`{requireSecondaryAuth:true, resource:"r1"}` with no token; the detected resource is
"r1" and it is the resource of the challenge; no scope is detected and the challenge
carries `"scopes": null`. -/
theorem C12_challenge_message_witness :
    ([challengeMessage] ≠ [] ∧ Suspends [challengeMessage] ∧
      (detectSecondaryAuth [challengeMessage]).Resource = "r1" ∧
      (detectSecondaryAuth [challengeMessage]).Scopes = [] ∧
      (detectSecondaryAuth [challengeMessage]).Token = "") ∧
    ∃ (task : Task) (auth : List (String × JSON)),
      (opsImpl.MessageSend (New streamingCard)
          (RawParams.decoded { Messages := [challengeMessage] }) 1 2 3 4 5).2 =
        { Result := some (ResultValue.task task) } ∧
      task.Status.State = TaskAuthRequired ∧
      task.Status.Message = some { Typ := "data", Data := [("auth", JSON.obj auth)] } ∧
      JSON.member auth "resource" =
        some (JSON.str (detectSecondaryAuth [challengeMessage]).Resource) ∧
      JSON.member auth "scopes" =
        some (marshalStrings (detectSecondaryAuth [challengeMessage]).Scopes) ∧
      ((detectSecondaryAuth [challengeMessage]).Scopes = [] →
        JSON.member auth "scopes" = some JSON.null) ∧
      ((detectSecondaryAuth [challengeMessage]).Scopes ≠ [] →
        JSON.member auth "scopes" =
          some (JSON.arr ((detectSecondaryAuth [challengeMessage]).Scopes.map JSON.str))) ∧
      ((detectSecondaryAuth [challengeMessage]).AuthorizationURI ≠ "" →
        JSON.member auth "authorization_uri" =
          some (JSON.str (detectSecondaryAuth [challengeMessage]).AuthorizationURI)) ∧
      ((detectSecondaryAuth [challengeMessage]).AuthorizationURI = "" →
        JSON.member auth "authorization_uri" = none) :=
  ⟨⟨by simp, by decide, rfl, rfl, rfl⟩,
    C12_challenge_message (New streamingCard) { Messages := [challengeMessage] } 1 2 3 4 5
      (by simp) (fun e h => by simp [continued] at h) (by decide)⟩

/-! ## Identifiers: `itoa` writes the decimal numeral -/

/-- The digit loop of `itoa` on a natural number writes its base-10 digits in front of
what the buffer holds, provided they fit below the index and the fuel. -/
theorem itoaLoop_digits (fuel : Nat) :
    ∀ (n i : Nat) (out : List Char),
      (Nat.digits 10 n).length ≤ i → (Nat.digits 10 n).length ≤ fuel →
      itoaLoop fuel (n : Int) i out =
        some (i - (Nat.digits 10 n).length,
          (Nat.digits 10 n).reverse.map digitChar ++ out) := by
  induction fuel with
  | zero =>
    intro n i out _ hf
    have hnil : Nat.digits 10 n = [] := List.length_eq_zero.mp (Nat.le_zero.mp hf)
    have hn : n = 0 := by
      by_contra hne
      exact (Nat.digits_ne_nil_iff_ne_zero.mpr hne) hnil
    subst hn
    simp [itoaLoop]
  | succ f ih =>
    intro n i out hi hf
    by_cases hn : n = 0
    · subst hn
      simp [itoaLoop]
    · have hpos : 0 < n := Nat.pos_of_ne_zero hn
      have hd : Nat.digits 10 n = n % 10 :: Nat.digits 10 (n / 10) :=
        Nat.digits_def' (by decide) hpos
      rw [hd] at hi hf
      simp only [List.length_cons] at hi hf
      obtain ⟨j, rfl⟩ : ∃ j, i = j + 1 := ⟨i - 1, by omega⟩
      have hvpos : (n : Int) > 0 := by exact_mod_cast hpos
      have hdiv : (n : Int) / 10 = ((n / 10 : Nat) : Int) := by norm_cast
      have hmod : ((n : Int) % 10).toNat = n % 10 := by
        have : (n : Int) % 10 = ((n % 10 : Nat) : Int) := by norm_cast
        rw [this, Int.toNat_ofNat]
      rw [itoaLoop]
      simp only [hvpos, if_true]
      rw [hdiv, hmod, ih (n / 10) j _ (by omega) (by omega), hd]
      simp [Nat.add_sub_add_right]

/-- A number below 10^19 has at most 19 decimal digits. -/
theorem digits_length_le (n : Nat) (h : n < 10 ^ 19) : (Nat.digits 10 n).length ≤ 19 := by
  by_cases hn : n = 0
  · subst hn; simp
  · by_contra hlen
    have h20 : 20 ≤ (Nat.digits 10 n).length := by omega
    have h1 : 10 ^ 20 ≤ 10 ^ (Nat.digits 10 n).length :=
      Nat.pow_le_pow_right (by decide) h20
    have h2 := Nat.base_pow_length_digits_le 10 n (by decide) hn
    omega

/-- On every counter value from 0 up to the largest `int64`, `itoa` is the decimal
numeral. -/
theorem itoa_eq_decimal (n : Nat) (h : n < 2 ^ 63) : itoa (n : Int) = decimal n := by
  by_cases hn : n = 0
  · subst hn
    simp [itoa, itoaBuf, decimal]
  · have hlen := digits_length_le n (by omega)
    have hne : ¬ ((n : Int) = 0) := by exact_mod_cast hn
    have hnn : ¬ ((n : Int) < 0) := by omega
    have hl := itoaLoop_digits 21 n 20 [] (by omega) (by omega)
    simp [itoa, itoaBuf, decimal, hn, hne, hnn, hl]

theorem digitVal_digitChar (d : Nat) (h : d < 10) : digitVal (digitChar d) = d := by
  interval_cases d <;> rfl

/-- Reading a decimal numeral back gives the number: `decimal` has a left inverse. -/
theorem decimal_value (n : Nat) :
    Nat.ofDigits 10 (((decimal n).data.map digitVal).reverse) = n := by
  by_cases hn : n = 0
  · subst hn
    simp [decimal, digitVal]
  · have hmap : ((Nat.digits 10 n).reverse.map digitChar).map digitVal =
        (Nat.digits 10 n).reverse := by
      rw [List.map_map]
      conv_rhs => rw [← List.map_id (Nat.digits 10 n).reverse]
      apply List.map_congr_left
      intro d hd
      have hd2 : d ∈ Nat.digits 10 n := List.mem_reverse.mp hd
      simpa using digitVal_digitChar d (Nat.digits_lt_base (by decide) hd2)
    simp only [decimal, hn, if_false, hmap, List.reverse_reverse]
    exact Nat.ofDigits_digits 10 n

theorem decimal_injective {a b : Nat} (h : decimal a = decimal b) : a = b := by
  rw [← decimal_value a, ← decimal_value b, h]

/-- On counter values from 0 up to the largest `int64`, `formatID` is injective. -/
theorem formatID_injective {a b : Nat} (ha : a < 2 ^ 63) (hb : b < 2 ^ 63)
    (h : formatID (a : Int) = formatID (b : Int)) : a = b := by
  unfold formatID at h
  rw [itoa_eq_decimal a ha, itoa_eq_decimal b hb] at h
  have h2 := congrArg String.data h
  simp only [String.data_append] at h2
  have h3 := List.append_cancel_left h2
  exact decimal_injective (String.ext h3)

/-! ## Lemmas on Go maps -/

theorem mapGet_mapSet {β : Type} (m : List (String × β)) (k k' : String) (v : β) :
    mapGet (mapSet m k v) k' = if k = k' then some v else mapGet m k' := by
  induction m with
  | nil => simp [mapGet, mapSet]
  | cons x rest ih =>
    obtain ⟨xk, xv⟩ := x
    unfold mapSet
    by_cases hx : xk = k
    · by_cases hk : k = k'
      · simp [hx, hk, mapGet]
      · have hxk : ¬ xk = k' := fun h => hk (hx ▸ h)
        simp [hx, hk, mapGet]
    · by_cases hk : k = k'
      · subst hk
        simp [hx, mapGet] at ih ⊢
        exact ih
      · by_cases hxk : xk = k'
        · have hkx : ¬ k' = k := fun h => hk h.symm
          simp [mapGet, hxk, hk, hkx]
        · simp [hx, hk, mapGet, hxk, ih]

theorem cfgGet_cfgSet (m : List PushNotificationConfig) (cfg : PushNotificationConfig)
    (id : String) :
    cfgGet (cfgSet m cfg) id = if cfg.ID = id then some cfg else cfgGet m id := by
  induction m with
  | nil => simp [cfgGet, cfgSet]
  | cons x rest ih =>
    unfold cfgSet
    by_cases hx : x.ID = cfg.ID
    · by_cases hk : cfg.ID = id
      · simp [hx, hk, cfgGet]
      · have hxk : ¬ x.ID = id := fun h => hk (hx ▸ h)
        simp [hx, hk, cfgGet]
    · by_cases hk : cfg.ID = id
      · have hxk : ¬ x.ID = id := fun h => hx (h.trans hk.symm)
        simp [hx, hk, cfgGet, hxk, ih]
      · by_cases hxk : x.ID = id
        · have hkx : ¬ id = cfg.ID := fun h => hk h.symm
          simp [cfgGet, hxk, hk, hkx]
        · simp [hx, hk, cfgGet, hxk, ih]

theorem getHistory_histAppend (hist : List (String × List TaskStateTransition))
    (id id' : String) (tr : TaskStateTransition) :
    mapGet (histAppend hist id tr) id' =
      if id = id' then some ((mapGet hist id).getD [] ++ [tr]) else mapGet hist id' := by
  simp [histAppend, mapGet_mapSet]

/-! ## History: what a send records -/

/-- C13, at a concrete request. A plain `message/send` to a fresh server creates task `t-1`
and completes it: the stored task is in state completed, but its history is the single
entry (running, 1). `MessageSend` assigns the new status through the pointer that
`newTask` stored, so when `put` compares the previous record with the task it compares an
object with itself, sees no state change and appends nothing. The last history entry
(running) differs from the stored state (completed), and the history is not
[running, completed]. -/
theorem C13_history_misses_completion :
    (srvCompleted streamingCard).tasks.get "t-1" = some (completedTask firstTask 3 4) ∧
    (completedTask firstTask 3 4).Status.State = TaskCompleted ∧
    (srvCompleted streamingCard).tasks.getHistory "t-1" =
      some [{ State := TaskRunning, At := 1 }] ∧
    ((srvCompleted streamingCard).tasks.getHistory "t-1").map
        (fun h => h.map (fun tr => tr.State)) ≠ some [TaskRunning, TaskCompleted] := by
  refine ⟨rfl, rfl, rfl, ?_⟩
  decide

/-! ## `put` -/

/-- C17. The effect of `put` on history, for every store (whose histories belong to
stored tasks) and every task value. If a record with the task's ID is stored and its
state differs from the task's, exactly one entry is appended to that task's history: the
task's state with the task's timestamp, or with the call time when that timestamp is
unset. If a record is stored with the same state, no history changes. If no record is
stored, the history of the task's ID becomes the single entry carrying the supplied
state. -/
theorem C17_put_history (s : taskStore) (task : Task) (now : Time)
    (hwf : s.HistoryOfStored) :
    (∀ prev, s.get task.ID = some prev → prev.Status.State ≠ task.Status.State →
      (s.put task now).getHistory task.ID =
        some ((s.getHistory task.ID).getD [] ++
          [{ State := task.Status.State,
             At := if task.Status.UpdatedAt = 0 then now else task.Status.UpdatedAt }])) ∧
    (∀ prev, s.get task.ID = some prev → prev.Status.State = task.Status.State →
      (s.put task now).hist = s.hist) ∧
    (s.get task.ID = none →
      (s.put task now).getHistory task.ID =
        some [{ State := task.Status.State, At := task.Status.UpdatedAt }]) := by
  refine ⟨?_, ?_, ?_⟩
  · intro prev hget hne
    have hget2 : itemsGet s.items task.ID = some prev := hget
    simp [taskStore.put, taskStore.getHistory, hget2, hne, getHistory_histAppend,
      Time.IsZero]
  · intro prev hget heq
    have hget2 : itemsGet s.items task.ID = some prev := hget
    simp [taskStore.put, hget2, heq]
  · intro hget
    have hget2 : itemsGet s.items task.ID = none := hget
    have hh : mapGet s.hist task.ID = none := hwf task.ID hget
    simp [taskStore.put, taskStore.getHistory, hget2, getHistory_histAppend, hh]

/-- Witness of C17: a put of a completed copy of the running task `t-1`, with its
timestamp unset; the completion is appended at the call time. -/
theorem C17_put_history_witness :
    (srvRunning streamingCard).tasks.HistoryOfStored ∧
    (srvRunning streamingCard).tasks.get "t-1" = some firstTask ∧
    ((srvRunning streamingCard).tasks.put
        { ID := "t-1", ContextID := none, Status := { State := TaskCompleted, UpdatedAt := 0 } }
        7).getHistory "t-1" =
      some [{ State := TaskRunning, At := 1 }, { State := TaskCompleted, At := 7 }] := by
  have hwf : (srvRunning streamingCard).tasks.HistoryOfStored := by
    intro id hid
    by_cases h : id = "t-1"
    · subst h
      have hs : (srvRunning streamingCard).tasks.get "t-1" = some firstTask := rfl
      rw [hs] at hid
      cases hid
    · have h2 : ¬ "t-1" = id := fun hh => h hh.symm
      simp [taskStore.getHistory, srvRunning, New, newTaskStore, taskStore.newTask,
        histAppend, mapGet, mapSet, h2]
      intro hh
      exact absurd hh.symm h
  refine ⟨hwf, rfl, ?_⟩
  have h := (C17_put_history (srvRunning streamingCard).tasks
    { ID := "t-1", ContextID := none, Status := { State := TaskCompleted, UpdatedAt := 0 } }
    7 hwf).1 firstTask rfl (by decide)
  rw [h]
  rfl

/-- C18. `put` replaces only the record of the task's ID: afterwards `get` on that ID
returns the task, and for every other ID the results of `get`, of the history and of the
subscription lookups are what they were before; the subscription map, the task id
counter and the subscription id counter are unchanged. -/
theorem C18_put_frame (s : taskStore) (task : Task) (now : Time) :
    (s.put task now).get task.ID = some task ∧
    (∀ id, id ≠ task.ID →
      (s.put task now).get id = s.get id ∧
      (s.put task now).getHistory id = s.getHistory id ∧
      (s.put task now).listPush id = s.listPush id ∧
      ∀ cfgID, (s.put task now).getPush id cfgID = s.getPush id cfgID) ∧
    (s.put task now).push = s.push ∧
    (s.put task now).seq = s.seq ∧
    (s.put task now).pseq = s.pseq := by
  refine ⟨by simp [taskStore.get_put], ?_, rfl, rfl, rfl⟩
  intro id hid
  have hne : ¬ task.ID = id := fun h => hid h.symm
  have hg : (s.put task now).get id = s.get id := by simp [taskStore.get_put, hne]
  refine ⟨hg, ?_, ?_, ?_⟩
  · unfold taskStore.getHistory taskStore.put
    cases itemsGet s.items task.ID with
    | none => simp [getHistory_histAppend, hne]
    | some prev =>
      by_cases hst : prev.Status.State = task.Status.State
      · simp [hst]
      · simp [hst, getHistory_histAppend, hne]
  · have hg2 : itemsGet (s.put task now).items id = itemsGet s.items id := hg
    simp only [taskStore.listPush, hg2]
    rfl
  · intro cfgID
    rfl

/-- Witness of C18: a put of a completed copy of `t-1` leaves the lookups on `t-2` as
they were. -/
theorem C18_put_frame_witness :
    (("t-2" : String) ≠ "t-1") ∧
    ((srvRunning streamingCard).tasks.put (completedTask firstTask 3 4) 5).get "t-1" =
      some (completedTask firstTask 3 4) ∧
    ((srvRunning streamingCard).tasks.put (completedTask firstTask 3 4) 5).get "t-2" =
      (srvRunning streamingCard).tasks.get "t-2" ∧
    ((srvRunning streamingCard).tasks.put (completedTask firstTask 3 4) 5).getHistory "t-2" =
      (srvRunning streamingCard).tasks.getHistory "t-2" :=
  ⟨by decide,
    (C18_put_frame (srvRunning streamingCard).tasks (completedTask firstTask 3 4) 5).1,
    ((C18_put_frame (srvRunning streamingCard).tasks (completedTask firstTask 3 4) 5).2.1
      "t-2" (by decide)).1,
    ((C18_put_frame (srvRunning streamingCard).tasks (completedTask firstTask 3 4) 5).2.1
      "t-2" (by decide)).2.1⟩

/-! ## `addPush` -/

/-- C20. `addPush(taskID, cfg)` returns nil if and only if no task with `taskID` is
stored, and then the store is unchanged, the subscription counter included. Otherwise the
subscription counter is incremented and the call returns the config: as supplied when its
ID is non-empty, and with the ID set to "pc-" followed by the numeral `itoa` writes for
the incremented counter when the ID was empty, which is its decimal numeral as long as
the counter has not reached the `int64` maximum. Afterwards `getPush(taskID, returned ID)`
returns that config. -/
theorem C20_addPush (s : taskStore) (taskID : String) (cfg : PushNotificationConfig) :
    ((s.addPush taskID cfg).2 = none ↔ s.get taskID = none) ∧
    (s.get taskID = none → (s.addPush taskID cfg).1 = s) ∧
    (∀ t, s.get taskID = some t →
      ∃ out : PushNotificationConfig,
        (s.addPush taskID cfg).2 = some out ∧
        (s.addPush taskID cfg).1.pseq = wrap64 (s.pseq + 1) ∧
        (cfg.ID ≠ "" → out = cfg) ∧
        (cfg.ID = "" →
          out = { cfg with ID := "pc-" ++ itoa (wrap64 (s.pseq + 1)) } ∧
          (0 ≤ s.pseq → s.pseq < 2 ^ 63 - 1 →
            out.ID = "pc-" ++ decimal (s.pseq + 1).toNat)) ∧
        (s.addPush taskID cfg).1.getPush taskID out.ID = some out) := by
  refine ⟨?_, ?_, ?_⟩
  · cases hg : s.get taskID with
    | none =>
      have hg2 : itemsGet s.items taskID = none := hg
      simp [taskStore.addPush, hg2]
    | some t =>
      have hg2 : itemsGet s.items taskID = some t := hg
      simp [taskStore.addPush, hg2]
  · intro hg
    have hg2 : itemsGet s.items taskID = none := hg
    simp [taskStore.addPush, hg2]
  · intro t hg
    have hg2 : itemsGet s.items taskID = some t := hg
    by_cases hid : cfg.ID = ""
    · refine ⟨{ cfg with ID := "pc-" ++ itoa (wrap64 (s.pseq + 1)) }, ?_, ?_, ?_, ?_, ?_⟩
      · simp [taskStore.addPush, hg2, hid]
      · simp [taskStore.addPush, hg2]
      · intro h; exact absurd hid h
      · intro _
        refine ⟨rfl, ?_⟩
        intro h0 h1
        have hw : wrap64 (s.pseq + 1) = s.pseq + 1 := by
          unfold wrap64
          omega
        have hnat : ((s.pseq + 1).toNat : Int) = s.pseq + 1 := Int.toNat_of_nonneg (by omega)
        have hlt : (s.pseq + 1).toNat < 2 ^ 63 := by omega
        have hi := itoa_eq_decimal (s.pseq + 1).toNat hlt
        rw [hnat] at hi
        simp [hw, hi]
      · simp [taskStore.addPush, hg2, hid, taskStore.getPush, mapGet_mapSet, cfgGet_cfgSet]
    · refine ⟨cfg, ?_, ?_, ?_, ?_, ?_⟩
      · simp [taskStore.addPush, hg2, hid]
      · simp [taskStore.addPush, hg2]
      · intro _; rfl
      · intro h; exact absurd h hid
      · simp [taskStore.addPush, hg2, hid, taskStore.getPush, mapGet_mapSet, cfgGet_cfgSet]

/-- Witness of C20: on the server holding the completed task `t-1`, a config without ID
is filed as "pc-1", and a config for the unknown task `t-9` is refused. -/
theorem C20_addPush_witness :
    ((srvCompleted streamingCard).tasks.get "t-1" = some (completedTask firstTask 3 4) ∧
      (srvCompleted streamingCard).tasks.get "t-9" = none ∧
      (0 : Int) ≤ (srvCompleted streamingCard).tasks.pseq ∧
      (srvCompleted streamingCard).tasks.pseq < 2 ^ 63 - 1) ∧
    ((srvCompleted streamingCard).tasks.addPush "t-9" { ID := "", URL := "https://x" }).1 =
      (srvCompleted streamingCard).tasks ∧
    (∃ out : PushNotificationConfig,
      ((srvCompleted streamingCard).tasks.addPush "t-1"
        { ID := "", URL := "https://x" }).2 = some out ∧
      ((srvCompleted streamingCard).tasks.addPush "t-1"
        { ID := "", URL := "https://x" }).1.pseq =
          wrap64 ((srvCompleted streamingCard).tasks.pseq + 1) ∧
      (("" : String) ≠ "" → out = { ID := "", URL := "https://x" }) ∧
      (("" : String) = "" →
        out = { ID := "pc-" ++ itoa (wrap64 ((srvCompleted streamingCard).tasks.pseq + 1)),
                URL := "https://x" } ∧
        (0 ≤ (srvCompleted streamingCard).tasks.pseq →
          (srvCompleted streamingCard).tasks.pseq < 2 ^ 63 - 1 →
          out.ID = "pc-" ++ decimal ((srvCompleted streamingCard).tasks.pseq + 1).toNat)) ∧
      ((srvCompleted streamingCard).tasks.addPush "t-1"
        { ID := "", URL := "https://x" }).1.getPush "t-1" out.ID = some out) :=
  ⟨⟨rfl, rfl, by decide, by decide⟩,
    (C20_addPush (srvCompleted streamingCard).tasks "t-9" { ID := "", URL := "https://x" }).2.1
      rfl,
    (C20_addPush (srvCompleted streamingCard).tasks "t-1" { ID := "", URL := "https://x" }).2.2
      (completedTask firstTask 3 4) rfl⟩

/-! ## The bookkeeping invariant -/

theorem wrap64_of_range {v : Int} (h1 : -2 ^ 63 ≤ v) (h2 : v < 2 ^ 63) : wrap64 v = v := by
  unfold wrap64
  omega

theorem taskStore.Issued_empty : newTaskStore.Issued 0 := by
  refine ⟨by simp [newTaskStore], by simp [newTaskStore], ?_, ?_, ?_⟩
  · intro id h
    exact absurd rfl h
  · intro id _
    rfl
  · intro id h
    exact absurd rfl h

theorem taskStore.Issued_mono {s : taskStore} {n m : Nat} (h : s.Issued n) (hnm : n ≤ m) :
    s.Issued m := by
  obtain ⟨h0, h1, h2, h3, h4⟩ := h
  exact ⟨h0, by omega, h2, h3, h4⟩

/-- The invariant reads only the counter, the task IDs with their presence, and the
histories. -/
theorem taskStore.Issued_of_same {s s' : taskStore} {n : Nat} (h : s.Issued n)
    (hseq : s'.seq = s.seq) (hget : ∀ id, s'.get id = none ↔ s.get id = none)
    (hhist : s'.hist = s.hist) : s'.Issued n := by
  obtain ⟨h0, h1, h2, h3, h4⟩ := h
  have hh : ∀ id, s'.getHistory id = s.getHistory id := by
    intro id
    simp [taskStore.getHistory, hhist]
  refine ⟨by omega, by omega, ?_, ?_, ?_⟩
  · intro id hid
    have := h2 id (fun hn => hid ((hget id).2 hn))
    rw [hseq]
    exact this
  · intro id hid
    rw [hh]
    exact h3 id ((hget id).1 hid)
  · intro id hid
    rw [hh]
    exact h4 id (fun hn => hid ((hget id).2 hn))

theorem taskStore.get_sync_none (t : taskStore) (a : Task) (id : String) :
    (t.sync a).get id = none ↔ t.get id = none := by
  rw [taskStore.get_sync]
  by_cases h : a.ID = id
  · simp [h]
  · simp [h]

theorem taskStore.Issued_sync {s : taskStore} {n : Nat} (h : s.Issued n) (x : Task) :
    (s.sync x).Issued n :=
  taskStore.Issued_of_same h rfl (taskStore.get_sync_none s x) rfl

theorem taskStore.get_newTask (s : taskStore) (cid : Option String) (now : Time)
    (id : String) :
    (s.newTask cid now).1.get id =
      if formatID (wrap64 (s.seq + 1)) = id then some (s.newTask cid now).2 else s.get id := by
  simp [taskStore.newTask, taskStore.get, itemsGet_itemsSet]

theorem taskStore.getHistory_newTask (s : taskStore) (cid : Option String) (now : Time)
    (id : String) :
    (s.newTask cid now).1.getHistory id =
      if formatID (wrap64 (s.seq + 1)) = id then
        some ((s.getHistory (formatID (wrap64 (s.seq + 1)))).getD [] ++
          [{ State := TaskRunning, At := now }])
      else s.getHistory id := by
  simp [taskStore.newTask, taskStore.getHistory, getHistory_histAppend]

/-- In a store with the bookkeeping invariant whose counter can still be incremented, the
next ID is not stored. -/
theorem taskStore.Issued_fresh {s : taskStore} {n : Nat} (h : s.Issued n)
    (hn : n + 1 < 2 ^ 63) : s.get (formatID (s.seq + 1)) = none := by
  obtain ⟨h0, h1, h2, _, _⟩ := h
  by_contra hne
  obtain ⟨k, hk1, hk2, hk3⟩ := h2 _ hne
  have hnat : ((s.seq + 1).toNat : Int) = s.seq + 1 := Int.toNat_of_nonneg (by omega)
  rw [← hnat] at hk3
  have hinj := formatID_injective (by omega) (by omega) hk3
  omega

theorem taskStore.Issued_newTask {s : taskStore} {n : Nat} (h : s.Issued n)
    (hn : n + 1 < 2 ^ 63) (cid : Option String) (now : Time) :
    (s.newTask cid now).1.Issued (n + 1) := by
  have hfresh := taskStore.Issued_fresh h hn
  obtain ⟨h0, h1, h2, h3, h4⟩ := h
  have hw : wrap64 (s.seq + 1) = s.seq + 1 := wrap64_of_range (by omega) (by omega)
  have hseq : (s.newTask cid now).1.seq = s.seq + 1 := by
    simp [taskStore.newTask, hw]
  have hhfresh : s.getHistory (formatID (s.seq + 1)) = none := h3 _ hfresh
  refine ⟨by omega, by rw [hseq]; push_cast; omega, ?_, ?_, ?_⟩
  · intro id hid
    rw [taskStore.get_newTask, hw] at hid
    by_cases hi : formatID (s.seq + 1) = id
    · refine ⟨(s.seq + 1).toNat, by omega, ?_, ?_⟩
      · rw [hseq, Int.toNat_of_nonneg (by omega)]
      · rw [Int.toNat_of_nonneg (by omega)]
        exact hi.symm
    · simp [hi] at hid
      obtain ⟨k, hk1, hk2, hk3⟩ := h2 id hid
      exact ⟨k, hk1, by rw [hseq]; omega, hk3⟩
  · intro id hid
    rw [taskStore.get_newTask, hw] at hid
    rw [taskStore.getHistory_newTask, hw]
    by_cases hi : formatID (s.seq + 1) = id
    · simp [hi] at hid
    · simp [hi] at hid ⊢
      exact h3 id hid
  · intro id hid
    rw [taskStore.get_newTask, hw] at hid
    rw [taskStore.getHistory_newTask, hw]
    by_cases hi : formatID (s.seq + 1) = id
    · subst hi
      exact ⟨now, by simp [hhfresh]⟩
    · simp [hi] at hid ⊢
      exact h4 id hid

theorem taskStore.Issued_addPush {s : taskStore} {n : Nat} (h : s.Issued n)
    (taskID : String) (cfg : PushNotificationConfig) : (s.addPush taskID cfg).1.Issued n := by
  cases hg : itemsGet s.items taskID with
  | none =>
    have he : (s.addPush taskID cfg).1 = s := by simp [taskStore.addPush, hg]
    rw [he]; exact h
  | some t =>
    apply taskStore.Issued_of_same h
    · simp [taskStore.addPush, hg]
    · intro id; simp [taskStore.addPush, hg, taskStore.get]
    · simp [taskStore.addPush, hg]

theorem taskStore.Issued_deletePush {s : taskStore} {n : Nat} (h : s.Issued n)
    (taskID cfgID : String) : (s.deletePush taskID cfgID).1.Issued n := by
  cases hm : mapGet s.push taskID with
  | none =>
    have he : (s.deletePush taskID cfgID).1 = s := by simp [taskStore.deletePush, hm]
    rw [he]; exact h
  | some m =>
    cases hc : cfgGet m cfgID with
    | none =>
      have he : (s.deletePush taskID cfgID).1 = s := by simp [taskStore.deletePush, hm, hc]
      rw [he]; exact h
    | some c =>
      apply taskStore.Issued_of_same h
      · simp [taskStore.deletePush, hm, hc]
      · intro id; simp [taskStore.deletePush, hm, hc, taskStore.get]
      · simp [taskStore.deletePush, hm, hc]

/-- Every store reached by `n` registry operations, `n` below 2^63, has the bookkeeping
invariant. -/
theorem RegistryReached.issued {n : Nat} {s : taskStore} (h : RegistryReached n s) :
    n < 2 ^ 63 → s.Issued n := by
  induction h with
  | empty => intro _; exact taskStore.Issued_empty
  | newTask cid now _ ih =>
    intro hn
    exact taskStore.Issued_newTask (ih (by omega)) hn cid now
  | put task prev now _ hget ih =>
    intro hn
    rw [taskStore.put_sync _ _ _ _ hget]
    exact taskStore.Issued_mono (taskStore.Issued_sync (ih (by omega)) task) (by omega)
  | addPush taskID cfg _ ih =>
    intro hn
    exact taskStore.Issued_mono (taskStore.Issued_addPush (ih (by omega)) taskID cfg)
      (by omega)
  | deletePush taskID cfgID _ ih =>
    intro hn
    exact taskStore.Issued_mono (taskStore.Issued_deletePush (ih (by omega)) taskID cfgID)
      (by omega)

/-! ## `newTask` -/

/-- C16. `newTask` is total, and in every store reached from the empty store by registry
operations in which `put` is applied only to tasks previously returned by `newTask` or
`get` (fewer than 2^63 - 1 operations, so that the `int64` counter has not reached its
maximum), it returns a task whose ID is "t-" followed by the decimal numeral of the
incremented counter and is not the ID of any task already stored, whose state is
running and whose context ID is the one supplied; afterwards `get` on that ID returns the
task and its history is the single entry (running, the task's timestamp). -/
theorem C16_newTask (n : Nat) (s : taskStore) (h : RegistryReached n s)
    (hn : n + 1 < 2 ^ 63) (contextID : Option String) (now : Time) :
    (s.newTask contextID now).2.ID = "t-" ++ decimal (s.seq + 1).toNat ∧
    (s.newTask contextID now).1.seq = s.seq + 1 ∧
    s.get (s.newTask contextID now).2.ID = none ∧
    (s.newTask contextID now).2.Status.State = TaskRunning ∧
    (s.newTask contextID now).2.ContextID = contextID ∧
    (s.newTask contextID now).1.get (s.newTask contextID now).2.ID =
      some (s.newTask contextID now).2 ∧
    (s.newTask contextID now).1.getHistory (s.newTask contextID now).2.ID =
      some [{ State := TaskRunning, At := (s.newTask contextID now).2.Status.UpdatedAt }] := by
  have hI := h.issued (by omega)
  have hfresh := taskStore.Issued_fresh hI hn
  obtain ⟨h0, h1, _, h3, _⟩ := hI
  have hw : wrap64 (s.seq + 1) = s.seq + 1 := wrap64_of_range (by omega) (by omega)
  have hid : (s.newTask contextID now).2.ID = formatID (s.seq + 1) := by
    simp [taskStore.newTask, hw]
  have hnat : ((s.seq + 1).toNat : Int) = s.seq + 1 := Int.toNat_of_nonneg (by omega)
  have hdec : formatID (s.seq + 1) = "t-" ++ decimal (s.seq + 1).toNat := by
    have hi := itoa_eq_decimal (s.seq + 1).toNat (by omega)
    rw [hnat] at hi
    simp [formatID, hi]
  refine ⟨by rw [hid, hdec], by simp [taskStore.newTask, hw], by rw [hid]; exact hfresh,
    rfl, rfl, taskStore.newTask_get s contextID now, ?_⟩
  rw [hid, taskStore.getHistory_newTask, hw]
  simp [h3 _ hfresh, taskStore.newTask]

/-- Witness of C16: after one `newTask` and a `put` of that task, completed through its
pointer, a second `newTask` returns the fresh task `t-2`. -/
theorem C16_newTask_witness :
    (RegistryReached 2 registryDemo ∧ (2 : Nat) + 1 < 2 ^ 63) ∧
    ((registryDemo.newTask (some "ctx") 6).2.ID = "t-" ++ decimal (registryDemo.seq + 1).toNat ∧
    (registryDemo.newTask (some "ctx") 6).1.seq = registryDemo.seq + 1 ∧
    registryDemo.get (registryDemo.newTask (some "ctx") 6).2.ID = none ∧
    (registryDemo.newTask (some "ctx") 6).2.Status.State = TaskRunning ∧
    (registryDemo.newTask (some "ctx") 6).2.ContextID = some "ctx" ∧
    (registryDemo.newTask (some "ctx") 6).1.get (registryDemo.newTask (some "ctx") 6).2.ID =
      some (registryDemo.newTask (some "ctx") 6).2 ∧
    (registryDemo.newTask (some "ctx") 6).1.getHistory
        (registryDemo.newTask (some "ctx") 6).2.ID =
      some [{ State := TaskRunning,
              At := (registryDemo.newTask (some "ctx") 6).2.Status.UpdatedAt }]) ∧
    (registryDemo.newTask (some "ctx") 6).2.ID = "t-2" := by
  have hr : RegistryReached 2 registryDemo :=
    RegistryReached.put (completedTask firstTask 3 4) firstTask 5
      (RegistryReached.newTask none 1 RegistryReached.empty) rfl
  exact ⟨⟨hr, by norm_num⟩, C16_newTask 2 registryDemo hr (by norm_num) (some "ctx") 6, rfl⟩

/-! ## The engine's runs -/

theorem taskStore.sync_self (t : taskStore) (a : Task) (h : t.get a.ID = some a) :
    t.sync a = t := by
  have h2 : itemsGet t.items a.ID = some a := h
  simp [taskStore.sync, itemsSync_self h2]

theorem MessageSend_terminal (srv : Server) (p : MessageParams) (e : Task)
    (tNew tTouch tArt tDone tPut : Time)
    (hc : continued srv p = some e) (ht : Terminal e.Status.State) :
    (opsImpl.MessageSend srv (RawParams.decoded p) tNew tTouch tArt tDone tPut).1 = srv := by
  obtain ⟨id, hid, hne, hget, _⟩ := continued_some hc
  have hT := isTerminal_of_Terminal ht
  by_cases hm : p.Messages = []
  · simp [opsImpl.MessageSend, hm]
  · simp [opsImpl.MessageSend, hid, hne, hget, hT, hm]

theorem MessageStream_terminal (srv : Server) (ctx : Context) (p : MessageParams) (e : Task)
    (tNew tTouch tPut : Time)
    (hc : continued srv p = some e) (ht : Terminal e.Status.State) :
    (opsImpl.MessageStream srv ctx (RawParams.decoded p) tNew tTouch tPut).1 = srv := by
  obtain ⟨id, hid, hne, hget, _⟩ := continued_some hc
  have hT := isTerminal_of_Terminal ht
  by_cases hs : AgentCard.StreamingSupported (some srv.card) = true
  · by_cases hm : p.Messages = []
    · simp [opsImpl.MessageStream, hs, hm]
    · simp [opsImpl.MessageStream, hs, hid, hne, hget, hT, hm]
  · simp [opsImpl.MessageStream, hs]

theorem MessageSend_step (srv : Server) (params : RawParams MessageParams)
    (tNew tTouch tArt tDone tPut : Time) :
    EngineStep srv.tasks (opsImpl.MessageSend srv params tNew tTouch tArt tDone tPut).1.tasks := by
  cases params with
  | absent => left; simp [opsImpl.MessageSend]
  | malformed => left; simp [opsImpl.MessageSend]
  | decoded p =>
    by_cases hm : p.Messages = []
    · left; simp [opsImpl.MessageSend, hm]
    · cases hc : continued srv p with
      | none =>
        rw [MessageSend_create srv p tNew tTouch tArt tDone tPut hm hc]
        right; right
        by_cases hs : Suspends p.Messages
        · rw [if_pos hs]; exact ⟨_, _, _, rfl⟩
        · rw [if_neg hs]; exact ⟨_, _, _, rfl⟩
      | some e =>
        by_cases ht : Terminal e.Status.State
        · left
          rw [MessageSend_terminal srv p e tNew tTouch tArt tDone tPut hc ht]
        · rw [MessageSend_continue srv p e tNew tTouch tArt tDone tPut hm hc ht]
          right; left
          by_cases hs : Suspends p.Messages
          · rw [if_pos hs]; exact ⟨_, rfl⟩
          · rw [if_neg hs]; exact ⟨_, rfl⟩

theorem MessageStream_step (srv : Server) (ctx : Context) (params : RawParams MessageParams)
    (tNew tTouch tPut : Time) :
    EngineStep srv.tasks (opsImpl.MessageStream srv ctx params tNew tTouch tPut).1.tasks := by
  by_cases hstream : AgentCard.StreamingSupported (some srv.card) = true
  · cases params with
    | absent => left; simp [opsImpl.MessageStream, hstream]
    | malformed => left; simp [opsImpl.MessageStream, hstream]
    | decoded p =>
      by_cases hm : p.Messages = []
      · left; simp [opsImpl.MessageStream, hstream, hm]
      · cases hc : continued srv p with
        | none =>
          rw [MessageStream_create srv ctx p tNew tTouch tPut hstream hm hc]
          right; right
          by_cases hs : Suspends p.Messages
          · rw [if_pos hs]; exact ⟨_, _, _, rfl⟩
          · rw [if_neg hs]
            refine ⟨p.ContextID, tNew, (srv.tasks.newTask p.ContextID tNew).2, ?_⟩
            exact (taskStore.sync_self _ _ (taskStore.newTask_get _ _ _)).symm
        | some e =>
          by_cases ht : Terminal e.Status.State
          · left
            rw [MessageStream_terminal srv ctx p e tNew tTouch tPut hc ht]
          · rw [MessageStream_continue srv ctx p e tNew tTouch tPut hstream hm hc ht]
            by_cases hs : Suspends p.Messages
            · rw [if_pos hs]; right; left; exact ⟨_, rfl⟩
            · rw [if_neg hs]; left; rfl
  · left; simp [opsImpl.MessageStream, hstream]

theorem TasksCancel_step (srv : Server) (params : RawParams IDParams) (tNow tPut : Time) :
    EngineStep srv.tasks (opsImpl.TasksCancel srv params tNow tPut).1.tasks := by
  cases params with
  | absent => left; simp [opsImpl.TasksCancel]
  | malformed => left; simp [opsImpl.TasksCancel]
  | decoded p =>
    obtain ⟨id⟩ := p
    by_cases hne : id = ""
    · left; simp [opsImpl.TasksCancel, hne]
    · cases hg : srv.tasks.get id with
      | none => left; simp [opsImpl.TasksCancel, hne, hg]
      | some e =>
        rw [TasksCancel_stored srv id e tNow tPut hne hg]
        right; left; exact ⟨_, rfl⟩

theorem EngineCall.apply_step (srv : Server) (c : EngineCall) :
    EngineStep srv.tasks (c.apply srv).tasks := by
  cases c with
  | send params tNew tTouch tArt tDone tPut =>
    exact MessageSend_step srv params tNew tTouch tArt tDone tPut
  | stream ctx params tNew tTouch tPut =>
    exact MessageStream_step srv ctx params tNew tTouch tPut
  | progress ctx id tRun tArt tDone tPut =>
    cases hg : srv.tasks.get id with
    | none => left; simp [EngineCall.apply, hg]
    | some task =>
      have hid : task.ID = id := itemsGet_id hg
      have hg2 : srv.tasks.get task.ID = some task := hid ▸ hg
      right; left
      refine ⟨streamedTask task tArt tDone, ?_⟩
      simp only [EngineCall.apply, hg]
      rw [streamDemo_store srv ctx task tRun tArt tDone tPut hg2]
  | cancel params tNow tPut =>
    exact TasksCancel_step srv params tNow tPut

theorem taskStore.Issued_step {s s' : taskStore} {n : Nat} (h : s.Issued n)
    (hn : n + 1 < 2 ^ 63) (hstep : EngineStep s s') : s'.Issued (n + 1) := by
  rcases hstep with rfl | ⟨x, rfl⟩ | ⟨cid, now, x, rfl⟩
  · exact taskStore.Issued_mono h (by omega)
  · exact taskStore.Issued_mono (taskStore.Issued_sync h x) (by omega)
  · exact taskStore.Issued_sync (taskStore.Issued_newTask h hn cid now) x

theorem foldl_apply_issued (calls : List EngineCall) :
    ∀ (srv : Server) (n : Nat), srv.tasks.Issued n → n + calls.length < 2 ^ 63 →
      (calls.foldl EngineCall.apply srv).tasks.Issued (n + calls.length) := by
  induction calls with
  | nil => intro srv n h _; simpa using h
  | cons c rest ih =>
    intro srv n h hn
    simp only [List.length_cons] at hn
    have h1 := taskStore.Issued_step h (by omega) (EngineCall.apply_step srv c)
    have h2 := ih (c.apply srv) (n + 1) h1 (by omega)
    simp only [List.foldl_cons, List.length_cons]
    have he : n + (rest.length + 1) = n + 1 + rest.length := by omega
    rw [he]
    exact h2

theorem runEngine_issued (card : AgentCard) (calls : List EngineCall)
    (hlen : calls.length < 2 ^ 63) : (runEngine card calls).tasks.Issued calls.length := by
  have h := foldl_apply_issued calls (New card) 0 taskStore.Issued_empty (by omega)
  simpa [runEngine] using h

/-- Every history of a store reached from the empty store by engine operations (fewer
than 2^63 of them) is the single entry written at creation. -/
theorem runEngine_history (card : AgentCard) (calls : List EngineCall)
    (hlen : calls.length < 2 ^ 63) (id : String) (t : Task)
    (hget : (runEngine card calls).tasks.get id = some t) :
    ∃ t0 : Time,
      (runEngine card calls).tasks.getHistory id = some [{ State := TaskRunning, At := t0 }] := by
  obtain ⟨_, _, _, _, h4⟩ := runEngine_issued card calls hlen
  exact h4 id (by simp [hget])

/-- C15. The history is not the path the task took. A send creates task `t-1` (running)
and completes it; a cancel then forces it to canceled. The states the stored task went
through are running, completed, canceled, which is not a valid path of the lifecycle
graph: completed to canceled is not an edge, and canceled follows a terminal state. The
history of `t-1` is still the single entry (running, 1): `put` never appends for the
engine, so the recorded states are a valid path only because nothing after creation is
recorded, in every store reached by engine operations. -/
theorem C15_history_not_the_path :
    (runEngine streamingCard
      [EngineCall.send (RawParams.decoded { Messages := [textMessage] }) 1 2 3 4 5]).tasks.get
        "t-1" = some (completedTask firstTask 3 4) ∧
    (completedTask firstTask 3 4).Status.State = TaskCompleted ∧
    (runEngine streamingCard
      [EngineCall.send (RawParams.decoded { Messages := [textMessage] }) 1 2 3 4 5,
       EngineCall.cancel (RawParams.decoded { ID := "t-1" }) 6 7]).tasks.get "t-1" =
      some (canceledTask (completedTask firstTask 3 4) 6) ∧
    (canceledTask (completedTask firstTask 3 4) 6).Status.State = TaskCanceled ∧
    (runEngine streamingCard
      [EngineCall.send (RawParams.decoded { Messages := [textMessage] }) 1 2 3 4 5,
       EngineCall.cancel (RawParams.decoded { ID := "t-1" }) 6 7]).tasks.getHistory "t-1" =
      some [{ State := TaskRunning, At := 1 }] ∧
    ValidPath [TaskRunning, TaskCompleted] ∧
    ¬ LifecycleEdge TaskCompleted TaskCanceled ∧
    ¬ ValidPath [TaskRunning, TaskCompleted, TaskCanceled] ∧
    (∀ (card : AgentCard) (calls : List EngineCall), calls.length < 2 ^ 63 →
      ∀ (id : String) (t : Task), (runEngine card calls).tasks.get id = some t →
        ∃ t0 : Time,
          (runEngine card calls).tasks.getHistory id =
            some [{ State := TaskRunning, At := t0 }]) := by
  refine ⟨rfl, rfl, rfl, rfl, rfl, ?_, ?_, ?_, ?_⟩
  · simp [ValidPath, LifecycleEdge, Terminal]
  · simp [LifecycleEdge, Terminal]
  · simp [ValidPath, LifecycleEdge, Terminal]
  · intro card calls hlen id t hget
    exact runEngine_history card calls hlen id t hget

/-! ## The history invariant of the registry -/

/-- A call that files a record under `id0` and appends the entry `(st, t)` to its history
keeps the history invariant, the clock moving from `c` to `c'`. -/
theorem HistoryInv.extend {c c' : Time} {first : String → Option TaskState}
    {s s' : taskStore} (h : HistoryInv c first s) (id0 : String) (x : Task)
    (st : TaskState) (t : Time) (hc : c ≤ c') (ht : t ≤ c')
    (hct : s.get id0 ≠ none → c ≤ t)
    (hget : ∀ id, s'.get id = if id0 = id then some x else s.get id)
    (hhist : ∀ id, s'.getHistory id =
      if id0 = id then some ((s.getHistory id0).getD [] ++ [{ State := st, At := t }])
      else s.getHistory id) :
    HistoryInv c' (recordFirst first id0 st) s' := by
  obtain ⟨h1, h2⟩ := h
  refine ⟨?_, ?_⟩
  · intro id hid
    rw [hget] at hid
    by_cases hi : id0 = id
    · simp [hi] at hid
    · have hi2 : ¬ id = id0 := fun hh => hi hh.symm
      simp only [hi, if_false] at hid
      rw [hhist]
      simp only [hi, if_false, recordFirst, hi2]
      exact h1 id hid
  · intro id tk hid
    rw [hget] at hid
    by_cases hi : id0 = id
    · subst hi
      rw [hhist]
      simp only [if_true, recordFirst]
      cases hs : s.get id0 with
      | none =>
        obtain ⟨hh, hf⟩ := h1 id0 hs
        refine ⟨{ State := st, At := t }, [], by simp [hh], by simp, ?_, by simp [hf]⟩
        intro y hy
        simp at hy
        subst hy
        exact ht
      | some t0 =>
        obtain ⟨e, rest, hh, hsorted, hbound, hf⟩ := h2 id0 t0 hs
        have hle : c ≤ t := hct (by simp [hs])
        refine ⟨e, rest ++ [{ State := st, At := t }], by simp [hh], ?_, ?_, by simp [hf]⟩
        · have hm : (e :: (rest ++ [({ State := st, At := t } : TaskStateTransition)])).map
              (fun tr => tr.At) = (e :: rest).map (fun tr => tr.At) ++ [t] := by simp
          rw [hm, List.pairwise_append]
          refine ⟨hsorted, by simp, ?_⟩
          intro a ha b hb
          simp at hb
          subst hb
          obtain ⟨y, hy, rfl⟩ := List.mem_map.mp ha
          exact le_trans (hbound y hy) hle
        · intro y hy
          have hy2 : y = e ∨ y ∈ rest ∨ y = { State := st, At := t } := by
            simpa [List.mem_append] using hy
          rcases hy2 with hy2 | hy2 | hy2
          · exact le_trans (hbound y (by simp [hy2])) hc
          · exact le_trans (hbound y (by simp [hy2])) hc
          · subst hy2
            exact ht
    · have hi2 : ¬ id = id0 := fun hh => hi hh.symm
      simp only [hi, if_false] at hid
      obtain ⟨e, rest, hh, hsorted, hbound, hf⟩ := h2 id tk hid
      rw [hhist]
      simp only [hi, if_false, recordFirst, hi2]
      exact ⟨e, rest, hh, hsorted, fun y hy => le_trans (hbound y hy) hc, hf⟩

/-- A call that replaces the record stored under `id0` and leaves the histories alone
keeps the history invariant, the clock moving from `c` to `c'`. -/
theorem HistoryInv.keep {c c' : Time} {first : String → Option TaskState}
    {s s' : taskStore} (h : HistoryInv c first s) (id0 : String) (x prev : Task)
    (st : TaskState) (hc : c ≤ c') (hprev : s.get id0 = some prev)
    (hget : ∀ id, s'.get id = if id0 = id then some x else s.get id)
    (hhist : ∀ id, s'.getHistory id = s.getHistory id) :
    HistoryInv c' (recordFirst first id0 st) s' := by
  obtain ⟨h1, h2⟩ := h
  refine ⟨?_, ?_⟩
  · intro id hid
    rw [hget] at hid
    by_cases hi : id0 = id
    · simp [hi] at hid
    · have hi2 : ¬ id = id0 := fun hh => hi hh.symm
      simp only [hi, if_false] at hid
      rw [hhist]
      simp only [recordFirst, hi2, if_false]
      exact h1 id hid
  · intro id tk hid
    rw [hhist]
    by_cases hi : id0 = id
    · subst hi
      obtain ⟨e, rest, hh, hsorted, hbound, hf⟩ := h2 id0 prev hprev
      exact ⟨e, rest, hh, hsorted, fun y hy => le_trans (hbound y hy) hc,
        by simp [recordFirst, hf]⟩
    · have hi2 : ¬ id = id0 := fun hh => hi hh.symm
      rw [hget] at hid
      simp only [hi, if_false] at hid
      obtain ⟨e, rest, hh, hsorted, hbound, hf⟩ := h2 id tk hid
      simp only [recordFirst, hi2, if_false]
      exact ⟨e, rest, hh, hsorted, fun y hy => le_trans (hbound y hy) hc, hf⟩

theorem putStamp_ge (task : Task) (now : Time) : task.Status.UpdatedAt ≤ putStamp task now := by
  unfold putStamp
  by_cases h : task.Status.UpdatedAt = 0
  · simp [h]
  · simp [h]

/-- Every store of a clocked run has the history invariant at the run's latest clock
reading. -/
theorem ClockedRun.historyInv {c : Time} {first : String → Option TaskState}
    {s : taskStore} (h : ClockedRun c first s) : HistoryInv c first s := by
  induction h with
  | empty =>
    refine ⟨fun id _ => ⟨rfl, rfl⟩, ?_⟩
    intro id t hid
    simp [newTaskStore, taskStore.get, itemsGet] at hid
  | @newTask c first s cid now _ hle ih =>
    exact HistoryInv.extend ih (formatID (wrap64 (s.seq + 1))) (s.newTask cid now).2
      TaskRunning now hle (le_refl _) (fun _ => hle)
      (taskStore.get_newTask s cid now) (taskStore.getHistory_newTask s cid now)
  | @put c first s task now _ hle ih =>
    have hget : ∀ id, (s.put task now).get id = if task.ID = id then some task else s.get id :=
      taskStore.get_put s task now
    cases hg : itemsGet s.items task.ID with
    | none =>
      have hg2 : s.get task.ID = none := hg
      refine HistoryInv.extend ih task.ID task task.Status.State task.Status.UpdatedAt hle
        (putStamp_ge task now) (fun hne => absurd hg2 hne) hget ?_
      intro id
      simp [taskStore.put, taskStore.getHistory, hg, getHistory_histAppend]
    | some prev =>
      have hg2 : s.get task.ID = some prev := hg
      by_cases hst : prev.Status.State = task.Status.State
      · refine HistoryInv.keep ih task.ID task prev task.Status.State hle hg2 hget ?_
        intro id
        simp [taskStore.put, taskStore.getHistory, hg, hst]
      · refine HistoryInv.extend ih task.ID task task.Status.State (putStamp task now) hle
          (le_refl _) (fun _ => hle) hget ?_
        intro id
        simp [taskStore.put, taskStore.getHistory, hg, hst, getHistory_histAppend,
          putStamp, Time.IsZero]

/-- A call that files a record under `id0` and appends an entry with state `st` to its
history keeps the time-free part of the history invariant. -/
theorem HistoryFirst_append {first : String → Option TaskState} {s s' : taskStore}
    (h : HistoryFirst first s) (id0 : String) (x : Task) (st : TaskState) (t : Time)
    (hget : ∀ id, s'.get id = if id0 = id then some x else s.get id)
    (hhist : ∀ id, s'.getHistory id =
      if id0 = id then some ((s.getHistory id0).getD [] ++ [{ State := st, At := t }])
      else s.getHistory id) :
    HistoryFirst (recordFirst first id0 st) s' := by
  obtain ⟨h1, h2⟩ := h
  refine ⟨?_, ?_⟩
  · intro id hid
    rw [hget] at hid
    by_cases hi : id0 = id
    · simp [hi] at hid
    · have hi2 : ¬ id = id0 := fun hh => hi hh.symm
      simp only [hi, if_false] at hid
      rw [hhist]
      simp only [hi, if_false, recordFirst, hi2]
      exact h1 id hid
  · intro id tk hid
    rw [hget] at hid
    by_cases hi : id0 = id
    · subst hi
      rw [hhist]
      simp only [if_true, recordFirst]
      cases hs : s.get id0 with
      | none =>
        obtain ⟨hh, hf⟩ := h1 id0 hs
        exact ⟨{ State := st, At := t }, [], by simp [hh], by simp [hf]⟩
      | some t0 =>
        obtain ⟨e, rest, hh, hf⟩ := h2 id0 t0 hs
        exact ⟨e, rest ++ [{ State := st, At := t }], by simp [hh], by simp [hf]⟩
    · have hi2 : ¬ id = id0 := fun hh => hi hh.symm
      simp only [hi, if_false] at hid
      obtain ⟨e, rest, hh, hf⟩ := h2 id tk hid
      rw [hhist]
      simp only [hi, if_false, recordFirst, hi2]
      exact ⟨e, rest, hh, hf⟩

/-- A call that replaces the record stored under `id0` and leaves the histories alone
keeps the time-free part of the history invariant. -/
theorem HistoryFirst_same {first : String → Option TaskState} {s s' : taskStore}
    (h : HistoryFirst first s) (id0 : String) (x prev : Task) (st : TaskState)
    (hprev : s.get id0 = some prev)
    (hget : ∀ id, s'.get id = if id0 = id then some x else s.get id)
    (hhist : ∀ id, s'.getHistory id = s.getHistory id) :
    HistoryFirst (recordFirst first id0 st) s' := by
  obtain ⟨h1, h2⟩ := h
  refine ⟨?_, ?_⟩
  · intro id hid
    rw [hget] at hid
    by_cases hi : id0 = id
    · simp [hi] at hid
    · have hi2 : ¬ id = id0 := fun hh => hi hh.symm
      simp only [hi, if_false] at hid
      rw [hhist]
      simp only [recordFirst, hi2, if_false]
      exact h1 id hid
  · intro id tk hid
    rw [hhist]
    by_cases hi : id0 = id
    · subst hi
      obtain ⟨e, rest, hh, hf⟩ := h2 id0 prev hprev
      exact ⟨e, rest, hh, by simp [recordFirst, hf]⟩
    · have hi2 : ¬ id = id0 := fun hh => hi hh.symm
      rw [hget] at hid
      simp only [hi, if_false] at hid
      obtain ⟨e, rest, hh, hf⟩ := h2 id tk hid
      simp only [recordFirst, hi2, if_false]
      exact ⟨e, rest, hh, hf⟩

/-- Every store of a run of `newTask` and `put` calls has the time-free part of the
history invariant, whatever timestamps the tasks carry. -/
theorem RegistryRun_historyFirst {c : Time} {first : String → Option TaskState}
    {s : taskStore} (h : RegistryRun c first s) : HistoryFirst first s := by
  induction h with
  | empty =>
    refine ⟨fun id _ => ⟨rfl, rfl⟩, ?_⟩
    intro id t hid
    simp [newTaskStore, taskStore.get, itemsGet] at hid
  | @newTask c first s cid now _ _ ih =>
    exact HistoryFirst_append ih (formatID (wrap64 (s.seq + 1))) (s.newTask cid now).2
      TaskRunning now (taskStore.get_newTask s cid now) (taskStore.getHistory_newTask s cid now)
  | @put c first s task now _ _ ih =>
    have hget : ∀ id, (s.put task now).get id = if task.ID = id then some task else s.get id :=
      taskStore.get_put s task now
    cases hg : itemsGet s.items task.ID with
    | none =>
      refine HistoryFirst_append ih task.ID task task.Status.State task.Status.UpdatedAt
        hget ?_
      intro id
      simp [taskStore.put, taskStore.getHistory, hg, getHistory_histAppend]
    | some prev =>
      have hg2 : s.get task.ID = some prev := hg
      by_cases hst : prev.Status.State = task.Status.State
      · refine HistoryFirst_same ih task.ID task prev task.Status.State hg2 hget ?_
        intro id
        simp [taskStore.put, taskStore.getHistory, hg, hst]
      · refine HistoryFirst_append ih task.ID task task.Status.State (putStamp task now)
          hget ?_
        intro id
        simp [taskStore.put, taskStore.getHistory, hg, hst, getHistory_histAppend,
          putStamp, Time.IsZero]

/-- C14, counterexample. The clock reads 5, 6, 7, 8, 9. `newTask` at reading 5 creates
`t-1`; two copies of the task are stamped at readings 7 (completed) and 6 (canceled);
`put` of the copy stamped 7 is called at reading 8, then `put` of the copy stamped 6 at
reading 9. The calls are made under a non-decreasing clock (5, 8, 9), and the recorded
history has the timestamps 5, 7, 6, which is not sorted: `put` records the timestamp the
task carries, not the clock. -/
theorem C14_counterexample :
    RegistryRun 9
      (recordFirst (recordFirst (recordFirst (fun _ => none) "t-1" TaskRunning)
        "t-1" TaskCompleted) "t-1" TaskCanceled)
      unsortedDemo ∧
    unsortedDemo.get "t-1" = some earlyCopy ∧
    unsortedDemo.getHistory "t-1" =
      some [{ State := TaskRunning, At := 5 }, { State := TaskCompleted, At := 7 },
            { State := TaskCanceled, At := 6 }] ∧
    ¬ List.Pairwise (fun a b : Time => a ≤ b)
      (([{ State := TaskRunning, At := 5 }, { State := TaskCompleted, At := 7 },
         { State := TaskCanceled, At := 6 }] : List TaskStateTransition).map
        (fun tr => tr.At)) := by
  refine ⟨?_, rfl, rfl, by decide⟩
  exact RegistryRun.put earlyCopy 9
    (RegistryRun.put lateCopy 8
      (RegistryRun.newTask none 5 RegistryRun.empty (by decide)) (by decide)) (by decide)

/-- C14, amended. In every store reached from the empty store by a sequence of `newTask`
and `put` calls made under a non-decreasing clock, whatever timestamps the tasks handed
to `put` carry, the history recorded for every stored task ID is non-empty and its first
entry's state is the state the task had when it was first stored. The history is sorted
by timestamp ascending (non-decreasing) when, in addition, the timestamps recorded by
the calls do not decrease along the sequence (the time `newTask` reads; for `put` the
timestamp of its task, or the time `put` reads when that timestamp is unset). -/
theorem C14_history_invariant (c : Time) (first : String → Option TaskState)
    (s : taskStore) (h : RegistryRun c first s) (id : String) (t : Task)
    (hget : s.get id = some t) :
    ∃ (e : TaskStateTransition) (rest : List TaskStateTransition),
      s.getHistory id = some (e :: rest) ∧
      first id = some e.State ∧
      (∀ c1 : Time, ClockedRun c1 first s →
        List.Pairwise (fun a b : Time => a ≤ b) ((e :: rest).map (fun tr => tr.At))) := by
  obtain ⟨e, rest, hh, hf⟩ := (RegistryRun_historyFirst h).2 id t hget
  refine ⟨e, rest, hh, hf, ?_⟩
  intro c1 hc
  obtain ⟨e1, rest1, hh1, hsorted, _, _⟩ := hc.historyInv.2 id t hget
  rw [hh] at hh1
  cases hh1
  exact hsorted

/-- Witness of C14 (amended): `newTask` at time 1 creates `t-1`; a `put` of a completed
copy stamped 4 follows at clock reading 5; the history is [(running, 1), (completed, 4)],
it is sorted and the first stored state is running. -/
theorem C14_history_invariant_witness :
    (RegistryRun 5
        (recordFirst (recordFirst (fun _ => none) "t-1" TaskRunning) "t-1" TaskCompleted)
        clockedDemo ∧
      ClockedRun 4
        (recordFirst (recordFirst (fun _ => none) "t-1" TaskRunning) "t-1" TaskCompleted)
        clockedDemo ∧
      clockedDemo.get "t-1" = some (completedTask firstTask 3 4) ∧
      clockedDemo.getHistory "t-1" =
        some [{ State := TaskRunning, At := 1 }, { State := TaskCompleted, At := 4 }]) ∧
    ∃ (e : TaskStateTransition) (rest : List TaskStateTransition),
      clockedDemo.getHistory "t-1" = some (e :: rest) ∧
      recordFirst (recordFirst (fun _ => none) "t-1" TaskRunning) "t-1" TaskCompleted "t-1" =
        some e.State ∧
      (∀ c1 : Time,
        ClockedRun c1
          (recordFirst (recordFirst (fun _ => none) "t-1" TaskRunning) "t-1" TaskCompleted)
          clockedDemo →
        List.Pairwise (fun a b : Time => a ≤ b) ((e :: rest).map (fun tr => tr.At))) := by
  have hr : RegistryRun 5
      (recordFirst (recordFirst (fun _ => none) "t-1" TaskRunning) "t-1" TaskCompleted)
      clockedDemo :=
    RegistryRun.put (completedTask firstTask 3 4) 5
      (RegistryRun.newTask none 1 RegistryRun.empty (by decide)) (by decide)
  have hc : ClockedRun 4
      (recordFirst (recordFirst (fun _ => none) "t-1" TaskRunning) "t-1" TaskCompleted)
      clockedDemo :=
    ClockedRun.put (completedTask firstTask 3 4) 5
      (ClockedRun.newTask none 1 ClockedRun.empty (by decide)) (by decide)
  exact ⟨⟨hr, hc, rfl, rfl⟩, C14_history_invariant 5 _ clockedDemo hr "t-1" _ rfl⟩

/-! ## Tasks are never deleted -/

theorem Keeps.refl (s : taskStore) : Keeps s s := ⟨fun _ h => h, le_refl _⟩

theorem Keeps.trans {a b c : taskStore} (h1 : Keeps a b) (h2 : Keeps b c) : Keeps a c :=
  ⟨fun id h => h2.1 id (h1.1 id h), le_trans h1.2 h2.2⟩

theorem Keeps.sync (s : taskStore) (x : Task) : Keeps s (s.sync x) :=
  ⟨fun id h hn => h ((taskStore.get_sync_none s x id).1 hn), le_refl _⟩

theorem Keeps.put (s : taskStore) (x : Task) (now : Time) : Keeps s (s.put x now) := by
  refine ⟨?_, le_refl _⟩
  intro id h
  rw [taskStore.get_put]
  by_cases hi : x.ID = id
  · simp [hi]
  · simpa [hi] using h

theorem Keeps.newTask (s : taskStore) (hlo : -2 ^ 63 ≤ s.seq) (hhi : s.seq < 2 ^ 63 - 1)
    (cid : Option String) (now : Time) : Keeps s (s.newTask cid now).1 := by
  refine ⟨?_, ?_⟩
  · intro id h
    rw [taskStore.get_newTask]
    by_cases hi : formatID (wrap64 (s.seq + 1)) = id
    · simp [hi]
    · simpa [hi] using h
  · have hw : wrap64 (s.seq + 1) = s.seq + 1 := wrap64_of_range (by omega) (by omega)
    simp [taskStore.newTask, hw]

theorem Keeps.of_same {s s' : taskStore} (hitems : s'.items = s.items)
    (hseq : s'.seq = s.seq) : Keeps s s' := by
  refine ⟨?_, by omega⟩
  intro id h
  simpa [taskStore.get, hitems] using h

theorem Keeps.addPush (s : taskStore) (taskID : String) (cfg : PushNotificationConfig) :
    Keeps s (s.addPush taskID cfg).1 := by
  cases hg : itemsGet s.items taskID with
  | none => apply Keeps.of_same <;> simp [taskStore.addPush, hg]
  | some t => apply Keeps.of_same <;> simp [taskStore.addPush, hg]

theorem Keeps.deletePush (s : taskStore) (taskID cfgID : String) :
    Keeps s (s.deletePush taskID cfgID).1 := by
  cases hm : mapGet s.push taskID with
  | none => apply Keeps.of_same <;> simp [taskStore.deletePush, hm]
  | some m =>
    cases hc : cfgGet m cfgID with
    | none => apply Keeps.of_same <;> simp [taskStore.deletePush, hm, hc]
    | some c => apply Keeps.of_same <;> simp [taskStore.deletePush, hm, hc]

theorem Keeps.of_step {s s' : taskStore} (hlo : -2 ^ 63 ≤ s.seq) (hhi : s.seq < 2 ^ 63 - 1)
    (h : EngineStep s s') : Keeps s s' := by
  rcases h with rfl | ⟨x, rfl⟩ | ⟨cid, now, x, rfl⟩
  · exact Keeps.refl _
  · exact Keeps.sync _ _
  · exact (Keeps.newTask s hlo hhi cid now).trans (Keeps.sync _ _)

theorem TasksGet_tasks (srv : Server) (params : RawParams IDParams) :
    (opsImpl.TasksGet srv params).1 = srv := by
  cases params with
  | absent => simp [opsImpl.TasksGet]
  | malformed => simp [opsImpl.TasksGet]
  | decoded p =>
    by_cases hne : p.ID = ""
    · simp [opsImpl.TasksGet, hne]
    · cases hg : srv.tasks.get p.ID <;> simp [opsImpl.TasksGet, hne, hg]

theorem TasksResubscribe_tasks (srv : Server) (params : RawParams IDParams) :
    (opsImpl.TasksResubscribe srv params).1 = srv := by
  by_cases hs : AgentCard.StreamingSupported (some srv.card) = true
  · simp [opsImpl.TasksResubscribe, hs]
  · simp [opsImpl.TasksResubscribe, hs]

theorem PushSet_keeps (srv : Server) (params : RawParams PushSetParams) :
    Keeps srv.tasks (opsImpl.TasksPushNotificationConfigSet srv params).1.tasks := by
  by_cases hp : opsImpl.pushSupported srv = true
  · cases params with
    | absent => simp [opsImpl.TasksPushNotificationConfigSet, hp, Keeps.refl]
    | malformed => simp [opsImpl.TasksPushNotificationConfigSet, hp, Keeps.refl]
    | decoded p =>
      by_cases hne : p.TaskID = ""
      · simp [opsImpl.TasksPushNotificationConfigSet, hp, hne, Keeps.refl]
      · have hk := Keeps.addPush srv.tasks p.TaskID p.Config
        cases hr : srv.tasks.addPush p.TaskID p.Config with
        | mk tasks out =>
          rw [hr] at hk
          cases out <;> simpa [opsImpl.TasksPushNotificationConfigSet, hp, hne, hr] using hk
  · simp [opsImpl.TasksPushNotificationConfigSet, hp, Keeps.refl]

theorem PushGet_tasks (srv : Server) (params : RawParams PushRefParams) :
    (opsImpl.TasksPushNotificationConfigGet srv params).1 = srv := by
  by_cases hp : opsImpl.pushSupported srv = true
  · cases params with
    | absent => simp [opsImpl.TasksPushNotificationConfigGet, hp]
    | malformed => simp [opsImpl.TasksPushNotificationConfigGet, hp]
    | decoded p =>
      by_cases hne : p.TaskID = "" ∨ p.ConfigID = ""
      · simp [opsImpl.TasksPushNotificationConfigGet, hp, hne]
      · cases hg : srv.tasks.getPush p.TaskID p.ConfigID <;>
          simp [opsImpl.TasksPushNotificationConfigGet, hp, hne, hg]
  · simp [opsImpl.TasksPushNotificationConfigGet, hp]

theorem PushList_tasks (srv : Server) (params : RawParams PushListParams) :
    (opsImpl.TasksPushNotificationConfigList srv params).1 = srv := by
  by_cases hp : opsImpl.pushSupported srv = true
  · cases params with
    | absent => simp [opsImpl.TasksPushNotificationConfigList, hp]
    | malformed => simp [opsImpl.TasksPushNotificationConfigList, hp]
    | decoded p =>
      by_cases hne : p.TaskID = ""
      · simp [opsImpl.TasksPushNotificationConfigList, hp, hne]
      · cases hg : srv.tasks.listPush p.TaskID <;>
          simp [opsImpl.TasksPushNotificationConfigList, hp, hne, hg]
  · simp [opsImpl.TasksPushNotificationConfigList, hp]

theorem PushDelete_keeps (srv : Server) (params : RawParams PushRefParams) :
    Keeps srv.tasks (opsImpl.TasksPushNotificationConfigDelete srv params).1.tasks := by
  by_cases hp : opsImpl.pushSupported srv = true
  · cases params with
    | absent => simp [opsImpl.TasksPushNotificationConfigDelete, hp, Keeps.refl]
    | malformed => simp [opsImpl.TasksPushNotificationConfigDelete, hp, Keeps.refl]
    | decoded p =>
      by_cases hne : p.TaskID = "" ∨ p.ConfigID = ""
      · simp [opsImpl.TasksPushNotificationConfigDelete, hp, hne, Keeps.refl]
      · have hk := Keeps.deletePush srv.tasks p.TaskID p.ConfigID
        cases hr : srv.tasks.deletePush p.TaskID p.ConfigID with
        | mk tasks ok =>
          rw [hr] at hk
          cases ok <;> simpa [opsImpl.TasksPushNotificationConfigDelete, hp, hne, hr] using hk
  · simp [opsImpl.TasksPushNotificationConfigDelete, hp, Keeps.refl]

theorem streamDemo_keeps (srv : Server) (ctx : Context) (task : Task)
    (tRun tArt tDone tPut : Time) :
    Keeps srv.tasks (opsImpl.streamDemo srv ctx task tRun tArt tDone tPut).1.tasks := by
  simp only [opsImpl.streamDemo]
  exact (((Keeps.sync _ _).trans (Keeps.sync _ _)).trans (Keeps.sync _ _)).trans
    (Keeps.put _ _ _)

/-- C19. Tasks are never deleted: for every store whose task id counter is an `int64`
below the maximum (so that an increment does not overflow) and every operation of the
registry and of the engine (`newTask`, `put`, `addPush`, `deletePush`, send, stream, the
streaming progression, get, cancel, resubscribe, the four push-configuration operations),
whatever its arguments, every task ID stored before the operation is stored after it and
the task id counter has not decreased. -/
theorem C19_never_deleted (srv : Server)
    (hlo : -2 ^ 63 ≤ srv.tasks.seq) (hhi : srv.tasks.seq < 2 ^ 63 - 1)
    (cid : Option String) (task : Task) (taskID cfgID : String)
    (cfg : PushNotificationConfig) (ctx : Context)
    (pm : RawParams MessageParams) (pid : RawParams IDParams)
    (ps : RawParams PushSetParams) (pr : RawParams PushRefParams)
    (pl : RawParams PushListParams) (now tNew tTouch tArt tDone tPut tRun : Time) :
    (Keeps srv.tasks (srv.tasks.newTask cid now).1 ∧
     Keeps srv.tasks (srv.tasks.put task now) ∧
     Keeps srv.tasks (srv.tasks.addPush taskID cfg).1 ∧
     Keeps srv.tasks (srv.tasks.deletePush taskID cfgID).1) ∧
    (Keeps srv.tasks (opsImpl.MessageSend srv pm tNew tTouch tArt tDone tPut).1.tasks ∧
     Keeps srv.tasks (opsImpl.MessageStream srv ctx pm tNew tTouch tPut).1.tasks ∧
     Keeps srv.tasks (opsImpl.streamDemo srv ctx task tRun tArt tDone tPut).1.tasks ∧
     Keeps srv.tasks (opsImpl.TasksGet srv pid).1.tasks ∧
     Keeps srv.tasks (opsImpl.TasksCancel srv pid now tPut).1.tasks ∧
     Keeps srv.tasks (opsImpl.TasksResubscribe srv pid).1.tasks) ∧
    (Keeps srv.tasks (opsImpl.TasksPushNotificationConfigSet srv ps).1.tasks ∧
     Keeps srv.tasks (opsImpl.TasksPushNotificationConfigGet srv pr).1.tasks ∧
     Keeps srv.tasks (opsImpl.TasksPushNotificationConfigList srv pl).1.tasks ∧
     Keeps srv.tasks (opsImpl.TasksPushNotificationConfigDelete srv pr).1.tasks) := by
  refine ⟨⟨?_, ?_, ?_, ?_⟩, ⟨?_, ?_, ?_, ?_, ?_, ?_⟩, ⟨?_, ?_, ?_, ?_⟩⟩
  · exact Keeps.newTask _ hlo hhi cid now
  · exact Keeps.put _ _ _
  · exact Keeps.addPush _ _ _
  · exact Keeps.deletePush _ _ _
  · exact Keeps.of_step hlo hhi (MessageSend_step srv pm tNew tTouch tArt tDone tPut)
  · exact Keeps.of_step hlo hhi (MessageStream_step srv ctx pm tNew tTouch tPut)
  · exact streamDemo_keeps srv ctx task tRun tArt tDone tPut
  · rw [TasksGet_tasks]; exact Keeps.refl _
  · exact Keeps.of_step hlo hhi (TasksCancel_step srv pid now tPut)
  · rw [TasksResubscribe_tasks]; exact Keeps.refl _
  · exact PushSet_keeps srv ps
  · rw [PushGet_tasks]; exact Keeps.refl _
  · rw [PushList_tasks]; exact Keeps.refl _
  · exact PushDelete_keeps srv pr

/-- Witness of C19: on the server holding the completed task `t-1` (counter 1), a new
send, a cancel of `t-1` and a subscription delete keep `t-1` stored. -/
theorem C19_never_deleted_witness :
    ((-2 : Int) ^ 63 ≤ (srvCompleted streamingCard).tasks.seq ∧
      (srvCompleted streamingCard).tasks.seq < 2 ^ 63 - 1) ∧
    (Keeps (srvCompleted streamingCard).tasks
        (opsImpl.MessageSend (srvCompleted streamingCard)
          (RawParams.decoded { Messages := [textMessage] }) 6 7 8 9 10).1.tasks ∧
     Keeps (srvCompleted streamingCard).tasks
        (opsImpl.TasksCancel (srvCompleted streamingCard)
          (RawParams.decoded { ID := "t-1" }) 5 10).1.tasks ∧
     Keeps (srvCompleted streamingCard).tasks
        ((srvCompleted streamingCard).tasks.deletePush "t-1" "c1").1) := by
  have h := C19_never_deleted (srvCompleted streamingCard) (by decide) (by decide)
    none firstTask "t-1" "c1" { ID := "", URL := "https://x" } { session := some [] }
    (RawParams.decoded { Messages := [textMessage] }) (RawParams.decoded { ID := "t-1" })
    RawParams.absent RawParams.absent RawParams.absent 5 6 7 8 9 10 11
  exact ⟨⟨by decide, by decide⟩, h.2.1.1, h.2.1.2.2.2.2.1, h.1.2.2.2⟩

/-! ## Capabilities -/

theorem contains_iff_mem (l : List String) (v : String) : contains l v = true ↔ v ∈ l := by
  induction l with
  | nil => simp [contains]
  | cons e rest ih =>
    unfold contains
    by_cases h : e = v
    · simp [h]
    · have h2 : ¬ v = e := fun hh => h hh.symm
      simp [h, h2, ih]

/-- C24. For every capability object `c`, after `SetCapabilities(c)` the derived legacy
list contains "streaming" iff `c.Streaming` is set and true, "pushNotifications" iff
`c.PushNotifications` is set and true, and "stateTransitionHistory" iff
`c.StateTransitionHistory` is set and true; it contains nothing else, has no
duplicates, and its length is the number of true flags. The structured object stored is
`c`. -/
theorem C24_derived_list (a : AgentCard) (c : AgentCapabilities) :
    ("streaming" ∈ (a.SetCapabilities c).Capabilities ↔ c.Streaming = some true) ∧
    ("pushNotifications" ∈ (a.SetCapabilities c).Capabilities ↔
      c.PushNotifications = some true) ∧
    ("stateTransitionHistory" ∈ (a.SetCapabilities c).Capabilities ↔
      c.StateTransitionHistory = some true) ∧
    (∀ x ∈ (a.SetCapabilities c).Capabilities,
      x = "streaming" ∨ x = "pushNotifications" ∨ x = "stateTransitionHistory") ∧
    (a.SetCapabilities c).Capabilities.Nodup ∧
    (a.SetCapabilities c).Capabilities.length = trueFlags c ∧
    (a.SetCapabilities c).capObj = some c := by
  obtain ⟨st, pn, sh⟩ := c
  rcases st with _ | _ | _ <;> rcases pn with _ | _ | _ <;> rcases sh with _ | _ | _ <;>
    simp [AgentCard.SetCapabilities, trueFlags]

/-- Witness of C24: the capability object of the unmarshalling test (streaming and
state history true, push false) yields the list ["streaming",
"stateTransitionHistory"]. -/
theorem C24_derived_list_witness :
    (({ Name := "x" } : AgentCard).SetCapabilities
        { Streaming := some true, PushNotifications := some false,
          StateTransitionHistory := some true }).Capabilities =
      ["streaming", "stateTransitionHistory"] ∧
    (∀ x ∈ (({ Name := "x" } : AgentCard).SetCapabilities
        { Streaming := some true, PushNotifications := some false,
          StateTransitionHistory := some true }).Capabilities,
      x = "streaming" ∨ x = "pushNotifications" ∨ x = "stateTransitionHistory") ∧
    (({ Name := "x" } : AgentCard).SetCapabilities
        { Streaming := some true, PushNotifications := some false,
          StateTransitionHistory := some true }).Capabilities.length = 2 :=
  ⟨rfl,
    (C24_derived_list { Name := "x" }
      { Streaming := some true, PushNotifications := some false,
        StateTransitionHistory := some true }).2.2.2.1,
    (C24_derived_list { Name := "x" }
      { Streaming := some true, PushNotifications := some false,
        StateTransitionHistory := some true }).2.2.2.2.2.1⟩

/-- C25. Capability accessors. Each of the three accessors returns the structured
object's flag when the object is set and that flag is present, and otherwise returns
whether the capability's name occurs in the legacy list; on a nil card it returns false.
Hence after `SetCapabilities(c)` each accessor is true iff the corresponding flag of `c`
is set and true, and on a card holding only the legacy list
["streaming", "pushNotifications"] the three accessors return true, true, false. -/
theorem C25_accessors (a : AgentCard) (c : AgentCapabilities) :
    (AgentCard.StreamingSupported none = false ∧
      AgentCard.PushNotificationsSupported none = false ∧
      AgentCard.StateTransitionHistorySupported none = false) ∧
    (∀ (o : AgentCapabilities) (b : Bool), a.capObj = some o →
      (o.Streaming = some b → AgentCard.StreamingSupported (some a) = b) ∧
      (o.PushNotifications = some b → AgentCard.PushNotificationsSupported (some a) = b) ∧
      (o.StateTransitionHistory = some b →
        AgentCard.StateTransitionHistorySupported (some a) = b)) ∧
    ((a.capObj = none ∨ ∃ o, a.capObj = some o ∧ o.Streaming = none) →
      (AgentCard.StreamingSupported (some a) = true ↔ "streaming" ∈ a.Capabilities)) ∧
    ((a.capObj = none ∨ ∃ o, a.capObj = some o ∧ o.PushNotifications = none) →
      (AgentCard.PushNotificationsSupported (some a) = true ↔
        "pushNotifications" ∈ a.Capabilities)) ∧
    ((a.capObj = none ∨ ∃ o, a.capObj = some o ∧ o.StateTransitionHistory = none) →
      (AgentCard.StateTransitionHistorySupported (some a) = true ↔
        "stateTransitionHistory" ∈ a.Capabilities)) ∧
    ((AgentCard.StreamingSupported (some (a.SetCapabilities c)) = true ↔
        c.Streaming = some true) ∧
      (AgentCard.PushNotificationsSupported (some (a.SetCapabilities c)) = true ↔
        c.PushNotifications = some true) ∧
      (AgentCard.StateTransitionHistorySupported (some (a.SetCapabilities c)) = true ↔
        c.StateTransitionHistory = some true)) ∧
    (AgentCard.StreamingSupported (some legacyCard) = true ∧
      AgentCard.PushNotificationsSupported (some legacyCard) = true ∧
      AgentCard.StateTransitionHistorySupported (some legacyCard) = false) := by
  refine ⟨⟨rfl, rfl, rfl⟩, ?_, ?_, ?_, ?_, ?_, ⟨rfl, rfl, rfl⟩⟩
  · intro o b ho
    refine ⟨?_, ?_, ?_⟩ <;> intro hb
    · simp [AgentCard.StreamingSupported, ho, hb]
    · simp [AgentCard.PushNotificationsSupported, ho, hb]
    · simp [AgentCard.StateTransitionHistorySupported, ho, hb]
  · rintro (h | ⟨o, ho, hf⟩)
    · simp [AgentCard.StreamingSupported, h, contains_iff_mem]
    · simp [AgentCard.StreamingSupported, ho, hf, contains_iff_mem]
  · rintro (h | ⟨o, ho, hf⟩)
    · simp [AgentCard.PushNotificationsSupported, h, contains_iff_mem]
    · simp [AgentCard.PushNotificationsSupported, ho, hf, contains_iff_mem]
  · rintro (h | ⟨o, ho, hf⟩)
    · simp [AgentCard.StateTransitionHistorySupported, h, contains_iff_mem]
    · simp [AgentCard.StateTransitionHistorySupported, ho, hf, contains_iff_mem]
  · obtain ⟨st, pn, sh⟩ := c
    rcases st with _ | _ | _ <;> rcases pn with _ | _ | _ <;> rcases sh with _ | _ | _ <;>
      simp [AgentCard.SetCapabilities, AgentCard.StreamingSupported,
        AgentCard.PushNotificationsSupported, AgentCard.StateTransitionHistorySupported,
        contains]

/-- Witness of C25: a card whose object sets only the streaming flag (to false) while
its legacy list names all of streaming and pushNotifications; the flag wins for
streaming, the list answers for push notifications. -/
theorem C25_accessors_witness :
    AgentCard.StreamingSupported
        (some { Capabilities := ["streaming", "pushNotifications"],
                capObj := some { Streaming := some false } }) = false ∧
    (AgentCard.PushNotificationsSupported
        (some { Capabilities := ["streaming", "pushNotifications"],
                capObj := some { Streaming := some false } }) = true ↔
      "pushNotifications" ∈ ["streaming", "pushNotifications"]) :=
  ⟨((C25_accessors
        { Capabilities := ["streaming", "pushNotifications"],
          capObj := some { Streaming := some false } } {}).2.1
      { Streaming := some false } false rfl).1 rfl,
    (C25_accessors
        { Capabilities := ["streaming", "pushNotifications"],
          capObj := some { Streaming := some false } } {}).2.2.2.1
      (Or.inr ⟨{ Streaming := some false }, rfl, rfl⟩)⟩

/-- C26, counterexample. Two cards hold the same structured object, in which the
streaming flag is absent, and differ only in their legacy list; `StreamingSupported`
is true on the card whose list names "streaming" and false on the other. -/
theorem C26_counterexample :
    ({ Capabilities := ["streaming"], capObj := some {} } : AgentCard).capObj =
      ({ Capabilities := [], capObj := some {} } : AgentCard).capObj ∧
    ({ Capabilities := ["streaming"], capObj := some {} } : AgentCard).Name =
      ({ Capabilities := [], capObj := some {} } : AgentCard).Name ∧
    AgentCard.StreamingSupported
      (some { Capabilities := ["streaming"], capObj := some {} }) = true ∧
    AgentCard.StreamingSupported
      (some { Capabilities := [], capObj := some {} }) = false :=
  ⟨rfl, rfl, rfl, rfl⟩

/-- C26, amended. For every two cards that hold the same structured object and differ
only in the contents of their legacy list, each capability accessor whose flag is
present in the object returns the same result on both, namely that flag; an accessor
whose flag is absent answers from the legacy list of the card it is asked on. -/
theorem C26_object_flags_decide (o : AgentCapabilities) (name : String)
    (l1 l2 : List String) :
    (∀ b, o.Streaming = some b →
      AgentCard.StreamingSupported
          (some { Name := name, Capabilities := l1, capObj := some o }) = b ∧
      AgentCard.StreamingSupported
          (some { Name := name, Capabilities := l2, capObj := some o }) = b) ∧
    (∀ b, o.PushNotifications = some b →
      AgentCard.PushNotificationsSupported
          (some { Name := name, Capabilities := l1, capObj := some o }) = b ∧
      AgentCard.PushNotificationsSupported
          (some { Name := name, Capabilities := l2, capObj := some o }) = b) ∧
    (∀ b, o.StateTransitionHistory = some b →
      AgentCard.StateTransitionHistorySupported
          (some { Name := name, Capabilities := l1, capObj := some o }) = b ∧
      AgentCard.StateTransitionHistorySupported
          (some { Name := name, Capabilities := l2, capObj := some o }) = b) ∧
    (o.Streaming = none →
      (AgentCard.StreamingSupported
          (some { Name := name, Capabilities := l1, capObj := some o }) = true ↔
        "streaming" ∈ l1)) ∧
    (o.PushNotifications = none →
      (AgentCard.PushNotificationsSupported
          (some { Name := name, Capabilities := l1, capObj := some o }) = true ↔
        "pushNotifications" ∈ l1)) ∧
    (o.StateTransitionHistory = none →
      (AgentCard.StateTransitionHistorySupported
          (some { Name := name, Capabilities := l1, capObj := some o }) = true ↔
        "stateTransitionHistory" ∈ l1)) := by
  refine ⟨?_, ?_, ?_, ?_, ?_, ?_⟩
  · intro b hb; simp [AgentCard.StreamingSupported, hb]
  · intro b hb; simp [AgentCard.PushNotificationsSupported, hb]
  · intro b hb; simp [AgentCard.StateTransitionHistorySupported, hb]
  · intro hb; simp [AgentCard.StreamingSupported, hb, contains_iff_mem]
  · intro hb; simp [AgentCard.PushNotificationsSupported, hb, contains_iff_mem]
  · intro hb; simp [AgentCard.StateTransitionHistorySupported, hb, contains_iff_mem]

/-- Witness of C26 (amended): with the streaming flag present and false, both cards
answer false although one list names "streaming". -/
theorem C26_object_flags_decide_witness :
    AgentCard.StreamingSupported
        (some { Name := "x", Capabilities := ["streaming"],
                capObj := some { Streaming := some false } }) = false ∧
    AgentCard.StreamingSupported
        (some { Name := "x", Capabilities := [],
                capObj := some { Streaming := some false } }) = false :=
  (C26_object_flags_decide { Streaming := some false } "x" ["streaming"] []).1 false rfl

/-! ## Reads, resubscription and the plain `message/send` handler -/

/-- C27. `tasks/get` and `tasks/cancel` (the operations of `opsImpl` and the handlers
`rpcGetTask`, `rpcCancelTask`): on an empty id they return invalid-params (-32602), on a
non-empty ID that is not stored they return not-found (-32004), and in both cases the
server is unchanged; `tasks/get` on a stored ID returns the stored task and leaves the
server unchanged, whatever the card's capability settings. -/
theorem C27_get_cancel_not_found (srv : Server) (id : String) (tNow tPut : Time) :
    (id = "" →
      opsImpl.TasksGet srv (RawParams.decoded { ID := id }) =
        (srv, { Error := some { Code := -32602, Message := "id required" } }) ∧
      opsImpl.TasksCancel srv (RawParams.decoded { ID := id }) tNow tPut =
        (srv, { Error := some { Code := -32602, Message := "id required" } }) ∧
      srv.rpcGetTask (RawParams.decoded { ID := id }) =
        (srv, { Error := some { Code := -32602, Message := "invalid params" } }) ∧
      srv.rpcCancelTask (RawParams.decoded { ID := id }) tNow tPut =
        (srv, { Error := some { Code := -32602, Message := "invalid params" } })) ∧
    (id ≠ "" → srv.tasks.get id = none →
      opsImpl.TasksGet srv (RawParams.decoded { ID := id }) =
        (srv, { Error := some { Code := -32004, Message := "not found" } }) ∧
      opsImpl.TasksCancel srv (RawParams.decoded { ID := id }) tNow tPut =
        (srv, { Error := some { Code := -32004, Message := "not found" } }) ∧
      srv.rpcGetTask (RawParams.decoded { ID := id }) =
        (srv, { Error := some { Code := -32004, Message := "not found" } }) ∧
      srv.rpcCancelTask (RawParams.decoded { ID := id }) tNow tPut =
        (srv, { Error := some { Code := -32004, Message := "not found" } })) ∧
    (∀ t : Task, id ≠ "" → srv.tasks.get id = some t →
      opsImpl.TasksGet srv (RawParams.decoded { ID := id }) =
        (srv, { Result := some (ResultValue.task t) }) ∧
      srv.rpcGetTask (RawParams.decoded { ID := id }) =
        (srv, { Result := some (ResultValue.task t) })) := by
  refine ⟨?_, ?_, ?_⟩
  · intro h
    simp [opsImpl.TasksGet, opsImpl.TasksCancel, Server.rpcGetTask, Server.rpcCancelTask, h,
      NewInvalidParamsError, InvalidParams]
  · intro h hg
    simp [opsImpl.TasksGet, opsImpl.TasksCancel, Server.rpcGetTask, Server.rpcCancelTask, h,
      hg]
  · intro t h hg
    simp [opsImpl.TasksGet, Server.rpcGetTask, h, hg]

/-- Witness of C27: on the server holding the completed task `t-1` (streaming enabled,
push disabled), `t-9` is not found by get and cancel, and `t-1` is returned by get. -/
theorem C27_get_cancel_not_found_witness :
    ("t-9" ≠ "" ∧ (srvCompleted streamingCard).tasks.get "t-9" = none) ∧
    (opsImpl.TasksGet (srvCompleted streamingCard) (RawParams.decoded { ID := "t-9" }) =
        (srvCompleted streamingCard,
          { Error := some { Code := -32004, Message := "not found" } }) ∧
      opsImpl.TasksCancel (srvCompleted streamingCard) (RawParams.decoded { ID := "t-9" })
          6 7 =
        (srvCompleted streamingCard,
          { Error := some { Code := -32004, Message := "not found" } }) ∧
      (srvCompleted streamingCard).rpcGetTask (RawParams.decoded { ID := "t-9" }) =
        (srvCompleted streamingCard,
          { Error := some { Code := -32004, Message := "not found" } }) ∧
      (srvCompleted streamingCard).rpcCancelTask (RawParams.decoded { ID := "t-9" }) 6 7 =
        (srvCompleted streamingCard,
          { Error := some { Code := -32004, Message := "not found" } })) :=
  ⟨⟨by decide, rfl⟩,
    (C27_get_cancel_not_found (srvCompleted streamingCard) "t-9" 6 7).2.1 (by decide) rfl⟩

/-- C28. With streaming enabled, `tasks/resubscribe` (`opsImpl.TasksResubscribe` and
`DefaultOperations.TasksResubscribe`) never fails, whatever the parameters, and leaves
the server unchanged; for the ID of a stored task the result is that task, and for an
ID that is not stored the result is the acknowledgement object
`{status: "resubscribed"}`. -/
theorem C28_resubscribe (srv : Server)
    (hstream : AgentCard.StreamingSupported (some srv.card) = true) :
    (∀ params : RawParams IDParams,
      (opsImpl.TasksResubscribe srv params).1 = srv ∧
      (opsImpl.TasksResubscribe srv params).2.Error = none ∧
      (opsImpl.TasksResubscribe srv params).2.Result ≠ none ∧
      (DefaultOperations.TasksResubscribe srv params).1 = srv ∧
      (DefaultOperations.TasksResubscribe srv params).2.Error = none ∧
      (DefaultOperations.TasksResubscribe srv params).2.Result ≠ none) ∧
    (∀ (id : String) (t : Task), id ≠ "" → srv.tasks.get id = some t →
      opsImpl.TasksResubscribe srv (RawParams.decoded { ID := id }) =
        (srv, { Result := some (ResultValue.task t) }) ∧
      DefaultOperations.TasksResubscribe srv (RawParams.decoded { ID := id }) =
        (srv, { Result := some (ResultValue.task t) })) ∧
    (∀ id : String, srv.tasks.get id = none →
      opsImpl.TasksResubscribe srv (RawParams.decoded { ID := id }) =
        (srv, { Result := some ResultValue.resubscribed }) ∧
      DefaultOperations.TasksResubscribe srv (RawParams.decoded { ID := id }) =
        (srv, { Result := some ResultValue.resubscribed })) := by
  refine ⟨?_, ?_, ?_⟩
  · intro params
    simp [opsImpl.TasksResubscribe, DefaultOperations.TasksResubscribe, hstream]
  · intro id t hne hg
    simp [opsImpl.TasksResubscribe, DefaultOperations.TasksResubscribe, hstream, hne, hg]
  · intro id hg
    by_cases hne : id = ""
    · simp [opsImpl.TasksResubscribe, DefaultOperations.TasksResubscribe, hstream, hne]
    · simp [opsImpl.TasksResubscribe, DefaultOperations.TasksResubscribe, hstream, hne, hg]

/-- Witness of C28: on the streaming server holding the completed task `t-1`,
resubscribing to the unknown `t-9` is acknowledged with `{status: "resubscribed"}`. -/
theorem C28_resubscribe_witness :
    AgentCard.StreamingSupported (some (srvCompleted streamingCard).card) = true ∧
    (srvCompleted streamingCard).tasks.get "t-9" = none ∧
    opsImpl.TasksResubscribe (srvCompleted streamingCard) (RawParams.decoded { ID := "t-9" }) =
      (srvCompleted streamingCard, { Result := some ResultValue.resubscribed }) ∧
    DefaultOperations.TasksResubscribe (srvCompleted streamingCard)
        (RawParams.decoded { ID := "t-9" }) =
      (srvCompleted streamingCard, { Result := some ResultValue.resubscribed }) :=
  ⟨rfl, rfl, (C28_resubscribe (srvCompleted streamingCard) rfl).2.2 "t-9" rfl⟩

/-- What `rpcSendMessage` does with a request that carries at least one message: a task
is created and completed through its pointer. -/
theorem rpcSendMessage_create (s : Server) (p : rpcSendParams) (tNew tArt tDone tPut : Time)
    (hmsgs : p.Messages ≠ []) :
    s.rpcSendMessage (RawParams.decoded p) tNew tArt tDone tPut =
      ({ s with tasks := ((s.tasks.newTask p.ContextID tNew).1.sync
            (completedTask (s.tasks.newTask p.ContextID tNew).2 tArt tDone)) },
        { Result := some (ResultValue.task
            (completedTask (s.tasks.newTask p.ContextID tNew).2 tArt tDone)) }) := by
  have hlen : ¬ p.Messages = [] := hmsgs
  have hnew := taskStore.newTask_get s.tasks p.ContextID tNew
  simp [Server.rpcSendMessage, hlen, completedTask, okArtifact]
  exact taskStore.sync_sync_put _ _ _ _ _ rfl hnew

/-- C29, counterexample. The server holds the completed task `t-1`. A `message/send`
request posted to the JSON-RPC endpoint with `taskId: "t-1"` and one text message is not
answered with terminal-task: the response carries no error and a new completed task
`t-2`, which is then stored, so the store has changed. -/
theorem C29_counterexample :
    (∃ t : Task, (srvCompleted streamingCard).tasks.get "t-1" = some t ∧
      t.Status.State = TaskCompleted) ∧
    (srvCompleted streamingCard).tasks.get "t-2" = none ∧
    (∃ (srv1 : Server) (t2 : Task),
      (srvCompleted streamingCard).handleJSONRPC "POST"
          (some { Method := "message/send",
                  sendParams := RawParams.decoded
                    (MessageParams.forRPC
                      { TaskID := some "t-1", Messages := [textMessage] }) })
          6 7 8 9 10 =
        (srv1, some { Result := some (ResultValue.task t2), Error := none }) ∧
      t2.ID = "t-2" ∧ t2.Status.State = TaskCompleted ∧
      srv1.tasks.get "t-2" = some t2 ∧
      srv1.tasks.seq = 2 ∧ (srvCompleted streamingCard).tasks.seq = 1) :=
  ⟨⟨_, rfl, rfl⟩, rfl, ⟨_, _, rfl, rfl, rfl, rfl, rfl, rfl⟩⟩

/-- C29, amended. The `message/send` method served by the JSON-RPC HTTP endpoint
(`handleJSONRPC` dispatching to `rpcSendMessage`) does not read `taskId`: for every
server and every request that carries at least one message, whatever its `taskId`, it
creates a task under the next task ID, returns it completed with the artifact "ok" and
no error, stores it, and leaves the record of every other ID as it was; in a store
whose IDs were all issued by the counter (before the counter overflows) the new ID was
not stored, so every task stored before, terminal or not, is unchanged. A request
without messages is answered with invalid-params (-32602) and the server unchanged. -/
theorem C29_rpc_send_creates (s : Server) (p : MessageParams)
    (tNew tArt tDone tNow tPut : Time) :
    (p.Messages ≠ [] →
      ∃ (s1 : Server) (t : Task),
        s.handleJSONRPC "POST"
            (some { Method := "message/send",
                    sendParams := RawParams.decoded p.forRPC })
            tNew tArt tDone tNow tPut =
          (s1, some { Result := some (ResultValue.task t), Error := none }) ∧
        t = { ID := formatID (wrap64 (s.tasks.seq + 1)), ContextID := p.ContextID,
              Status := { State := TaskCompleted, UpdatedAt := tDone },
              Artifacts := [{ ID := "a-" ++ formatID (wrap64 (s.tasks.seq + 1)),
                              CreatedAt := tArt,
                              Parts := [{ Typ := "text", Text := "ok" }] }] } ∧
        s1.tasks.get t.ID = some t ∧
        (∀ id : String, id ≠ t.ID → s1.tasks.get id = s.tasks.get id) ∧
        (∀ n : Nat, s.tasks.Issued n → n + 1 < 2 ^ 63 →
          ∀ (id : String) (e : Task), s.tasks.get id = some e → s1.tasks.get id = some e)) ∧
    (p.Messages = [] →
      s.handleJSONRPC "POST"
          (some { Method := "message/send",
                  sendParams := RawParams.decoded p.forRPC })
          tNew tArt tDone tNow tPut =
        (s, some { Error := some { Code := -32602, Message := "invalid params" } })) := by
  refine ⟨?_, ?_⟩
  · intro hmsgs
    have hm : p.forRPC.Messages ≠ [] := hmsgs
    have hr := rpcSendMessage_create s p.forRPC tNew tArt tDone tPut hm
    have hnew := taskStore.newTask_get s.tasks p.ContextID tNew
    have hother : ∀ id : String, id ≠ formatID (wrap64 (s.tasks.seq + 1)) →
        ((s.tasks.newTask p.ContextID tNew).1.sync
          (completedTask (s.tasks.newTask p.ContextID tNew).2 tArt tDone)).get id =
          s.tasks.get id := by
      intro id hid
      have h1 : ¬ formatID (wrap64 (s.tasks.seq + 1)) = id := fun h => hid h.symm
      rw [taskStore.get_sync, taskStore.get_newTask]
      simp [completedTask, taskStore.newTask, h1]
    refine ⟨{ s with tasks := ((s.tasks.newTask p.ContextID tNew).1.sync
          (completedTask (s.tasks.newTask p.ContextID tNew).2 tArt tDone)) },
      completedTask (s.tasks.newTask p.ContextID tNew).2 tArt tDone, ?_, ?_, ?_, ?_, ?_⟩
    · simp only [Server.handleJSONRPC]
      simp only [hr]
      rfl
    · simp [completedTask, okArtifact, taskStore.newTask]
    · rw [taskStore.get_sync]
      simp only [completedTask, if_true]
      have h2 : (s.tasks.newTask p.ContextID tNew).1.get
          (s.tasks.newTask p.ContextID tNew).2.ID =
          some (s.tasks.newTask p.ContextID tNew).2 := hnew
      rw [h2]
      rfl
    · intro id hid
      exact hother id hid
    · intro n hI hn id e hget
      have hfresh := taskStore.Issued_fresh hI hn
      have hw : wrap64 (s.tasks.seq + 1) = s.tasks.seq + 1 :=
        wrap64_of_range (by have := hI.1; omega) (by have := hI.2.1; omega)
      have hid : id ≠ formatID (wrap64 (s.tasks.seq + 1)) := by
        intro h
        rw [hw] at h
        rw [h, hfresh] at hget
        cases hget
      have h3 := hother id hid
      rw [← hget]
      exact h3
  · intro hmsgs
    simp [Server.handleJSONRPC, Server.rpcSendMessage, MessageParams.forRPC, hmsgs]

/-- Witness of C29 (amended): the request of the counterexample, on the server holding
the completed task `t-1`. -/
theorem C29_rpc_send_creates_witness :
    [textMessage] ≠ [] ∧
    ∃ (s1 : Server) (t : Task),
      (srvCompleted streamingCard).handleJSONRPC "POST"
          (some { Method := "message/send",
                  sendParams := RawParams.decoded
                    (MessageParams.forRPC
                      { TaskID := some "t-1", Messages := [textMessage] }) })
          6 7 8 9 10 =
        (s1, some { Result := some (ResultValue.task t), Error := none }) ∧
      t = { ID := formatID (wrap64 ((srvCompleted streamingCard).tasks.seq + 1)),
            ContextID := none,
            Status := { State := TaskCompleted, UpdatedAt := 8 },
            Artifacts := [{ ID := "a-" ++
                              formatID (wrap64 ((srvCompleted streamingCard).tasks.seq + 1)),
                            CreatedAt := 7,
                            Parts := [{ Typ := "text", Text := "ok" }] }] } ∧
      s1.tasks.get t.ID = some t ∧
      (∀ id : String, id ≠ t.ID →
        s1.tasks.get id = (srvCompleted streamingCard).tasks.get id) ∧
      (∀ n : Nat, (srvCompleted streamingCard).tasks.Issued n → n + 1 < 2 ^ 63 →
        ∀ (id : String) (e : Task), (srvCompleted streamingCard).tasks.get id = some e →
          s1.tasks.get id = some e) :=
  ⟨by simp,
    (C29_rpc_send_creates (srvCompleted streamingCard)
      { TaskID := some "t-1", Messages := [textMessage] } 6 7 8 9 10).1 (by simp)⟩

/-- The store `streamDemo` leaves does not depend on its context. -/
theorem streamDemo_store_ctx (srv : Server) (ctx ctx' : Context) (task : Task)
    (tRun tArt tDone tPut : Time) :
    (opsImpl.streamDemo srv ctx task tRun tArt tDone tPut).1 =
      (opsImpl.streamDemo srv ctx' task tRun tArt tDone tPut).1 := by
  simp [opsImpl.streamDemo]

/-- With no session bound, `streamDemo` ends with no session bound. -/
theorem streamDemo_background (srv : Server) (task : Task) (tRun tArt tDone tPut : Time) :
    (opsImpl.streamDemo srv Context.Background task tRun tArt tDone tPut).2 =
      Context.Background := by
  simp [opsImpl.streamDemo, opsImpl.sendStatus, opsImpl.sendArtifact, sendSSEResponse,
    Context.Background]

/-- C30. Emission failures never affect task state. With no session bound to the
context every emission fails (`sendSSEResponse` returns an error and sends nothing).
For every server and task, the store the streaming progression leaves when every
emission fails equals the store it leaves when every emission succeeds (a session is
bound), namely, for a stored task, the store with the task completed and the artifact
appended; and an accepted, non-suspended stream call made without a session returns no
error, after which the progression it started stores the task completed with the
artifact appended. -/
theorem C30_emission_failures (srv : Server) (task : Task) (sent : List Event)
    (tRun tArt tDone tPut : Time) :
    (∀ ev : Event, sendSSEResponse Context.Background ev = (Context.Background, false)) ∧
    (∀ (t : Task) (final : Bool),
      (opsImpl.sendStatus Context.Background t final).2 = false) ∧
    (∀ (t : Task) (a : Artifact) (append last : Bool),
      (opsImpl.sendArtifact Context.Background t a append last).2 = false) ∧
    (opsImpl.streamDemo srv Context.Background task tRun tArt tDone tPut).2 =
      Context.Background ∧
    (opsImpl.streamDemo srv Context.Background task tRun tArt tDone tPut).1 =
      (opsImpl.streamDemo srv { session := some sent } task tRun tArt tDone tPut).1 ∧
    (opsImpl.streamDemo srv Context.Background task tRun tArt tDone tPut).1.tasks.get
        task.ID =
      some { ID := task.ID, ContextID := task.ContextID,
             Status := { State := TaskCompleted, UpdatedAt := tDone,
                         Message := task.Status.Message },
             Artifacts := task.Artifacts ++
               [{ ID := "a-" ++ task.ID, CreatedAt := tArt,
                  Parts := [{ Typ := "text", Text := "processing..." }] }] } ∧
    (srv.tasks.get task.ID = some task →
      (opsImpl.streamDemo srv Context.Background task tRun tArt tDone tPut).1 =
        { srv with tasks := srv.tasks.sync (streamedTask task tArt tDone) }) ∧
    (∀ (p : MessageParams) (tNew tTouch tPut0 : Time),
      AgentCard.StreamingSupported (some srv.card) = true → p.Messages ≠ [] →
      (∀ e, continued srv p = some e → ¬ Terminal e.Status.State) →
      ¬ Suspends p.Messages →
      ∃ (srv1 : Server) (t : Task),
        opsImpl.MessageStream srv Context.Background (RawParams.decoded p) tNew tTouch tPut0 =
          (srv1, { Result := some (ResultValue.task t), Error := none },
            Spawned.streamDemo Context.Background t) ∧
        (opsImpl.runSpawned srv1 (Spawned.streamDemo Context.Background t)
            tRun tArt tDone tPut).1 =
          { srv1 with tasks := srv1.tasks.sync (streamedTask t tArt tDone) } ∧
        (opsImpl.runSpawned srv1 (Spawned.streamDemo Context.Background t)
            tRun tArt tDone tPut).1 =
          (opsImpl.runSpawned srv1 (Spawned.streamDemo { session := some sent } t)
            tRun tArt tDone tPut).1) := by
  refine ⟨fun _ => rfl, fun _ _ => rfl, fun _ _ _ _ => rfl,
    streamDemo_background _ _ _ _ _ _, streamDemo_store_ctx _ _ _ _ _ _ _ _, ?_, ?_, ?_⟩
  · have hg := streamDemo_get srv Context.Background task tRun tArt tDone tPut
    rw [hg]
    simp [streamedTask, progressArtifact]
  · intro hget
    exact streamDemo_store srv Context.Background task tRun tArt tDone tPut hget
  · intro p tNew tTouch tPut0 hstream hmsgs hnt hns
    have key : ∀ (srv1 : Server) (t : Task), srv1.tasks.get t.ID = some t →
        (opsImpl.runSpawned srv1 (Spawned.streamDemo Context.Background t)
            tRun tArt tDone tPut).1 =
          { srv1 with tasks := srv1.tasks.sync (streamedTask t tArt tDone) } ∧
        (opsImpl.runSpawned srv1 (Spawned.streamDemo Context.Background t)
            tRun tArt tDone tPut).1 =
          (opsImpl.runSpawned srv1 (Spawned.streamDemo { session := some sent } t)
            tRun tArt tDone tPut).1 := by
      intro srv1 t hget
      have hd : srv1.tasks.deref t = t := by simp [taskStore.deref, hget]
      simp only [opsImpl.runSpawned, hd]
      exact ⟨streamDemo_store srv1 Context.Background t tRun tArt tDone tPut hget,
        streamDemo_store_ctx _ _ _ _ _ _ _ _⟩
    cases hc : continued srv p with
    | none =>
      rw [MessageStream_create srv Context.Background p tNew tTouch tPut0 hstream hmsgs hc,
        if_neg hns]
      have hnew := taskStore.newTask_get srv.tasks p.ContextID tNew
      exact ⟨_, _, rfl, key _ _ hnew⟩
    | some e =>
      obtain ⟨id, hid, hne, hget, heid⟩ := continued_some hc
      have hget2 : srv.tasks.get e.ID = some e := heid ▸ hget
      rw [MessageStream_continue srv Context.Background p e tNew tTouch tPut0 hstream hmsgs hc
        (hnt e hc), if_neg hns]
      exact ⟨_, _, rfl, key _ _ hget2⟩

/-- Witness of C30: the running task `t-1`, with and without a session. -/
theorem C30_emission_failures_witness :
    (srvRunning streamingCard).tasks.get firstTask.ID = some firstTask ∧
    (opsImpl.streamDemo (srvRunning streamingCard) Context.Background firstTask
        9 10 11 12).1 =
      (opsImpl.streamDemo (srvRunning streamingCard) { session := some [] } firstTask
        9 10 11 12).1 ∧
    (opsImpl.streamDemo (srvRunning streamingCard) Context.Background firstTask
        9 10 11 12).1 =
      { (srvRunning streamingCard) with
        tasks := ((srvRunning streamingCard).tasks.sync (streamedTask firstTask 10 11)) } :=
  ⟨rfl,
    (C30_emission_failures (srvRunning streamingCard) firstTask [] 9 10 11 12).2.2.2.2.1,
    (C30_emission_failures (srvRunning streamingCard) firstTask [] 9 10 11 12).2.2.2.2.2.2.1
      rfl⟩

/-! ## Lemmas on subscription maps -/

theorem cfgGet_eq_none (m : List PushNotificationConfig) (id : String) :
    cfgGet m id = none ↔ id ∉ m.map (fun c => c.ID) := by
  induction m with
  | nil => simp [cfgGet]
  | cons c rest ih =>
    unfold cfgGet
    by_cases h : c.ID = id
    · simp [h]
    · have h2 : ¬ id = c.ID := fun e => h e.symm
      simp [h, h2, ih]

theorem cfgGet_mem {m : List PushNotificationConfig} {id : String}
    {cfg : PushNotificationConfig} (h : cfgGet m id = some cfg) : cfg ∈ m ∧ cfg.ID = id := by
  induction m with
  | nil => simp [cfgGet] at h
  | cons c rest ih =>
    unfold cfgGet at h
    by_cases hc : c.ID = id
    · simp [hc] at h
      subst h
      exact ⟨List.mem_cons_self _ _, hc⟩
    · simp [hc] at h
      exact ⟨List.mem_cons_of_mem _ (ih h).1, (ih h).2⟩

theorem cfgGet_of_mem {m : List PushNotificationConfig}
    (hnd : (m.map (fun c => c.ID)).Nodup) {cfg : PushNotificationConfig} (h : cfg ∈ m) :
    cfgGet m cfg.ID = some cfg := by
  induction m with
  | nil => simp at h
  | cons c rest ih =>
    rw [List.map_cons, List.nodup_cons] at hnd
    unfold cfgGet
    rcases List.mem_cons.mp h with hc | hc
    · subst hc
      simp
    · have hne : ¬ c.ID = cfg.ID := by
        intro e
        apply hnd.1
        rw [e]
        exact List.mem_map_of_mem _ hc
      simp [hne, ih hnd.2 hc]

theorem cfgGet_some_iff {m : List PushNotificationConfig}
    (hnd : (m.map (fun c => c.ID)).Nodup) (id : String) (cfg : PushNotificationConfig) :
    cfgGet m id = some cfg ↔ cfg ∈ m ∧ cfg.ID = id := by
  constructor
  · exact cfgGet_mem
  · rintro ⟨hm, hid⟩
    rw [← hid]
    exact cfgGet_of_mem hnd hm

theorem cfgDelete_sublist (m : List PushNotificationConfig) (id : String) :
    List.Sublist (cfgDelete m id) m := by
  induction m with
  | nil => simp [cfgDelete]
  | cons c rest ih =>
    unfold cfgDelete
    by_cases h : c.ID = id
    · simp [h]
    · simp [h, ih]

theorem cfgDelete_nodup {m : List PushNotificationConfig}
    (hnd : (m.map (fun c => c.ID)).Nodup) (id : String) :
    ((cfgDelete m id).map (fun c => c.ID)).Nodup :=
  List.Nodup.sublist ((cfgDelete_sublist m id).map _) hnd

theorem cfgGet_cfgDelete_ne (m : List PushNotificationConfig) {id id' : String}
    (h : id ≠ id') : cfgGet (cfgDelete m id) id' = cfgGet m id' := by
  induction m with
  | nil => simp [cfgDelete]
  | cons c rest ih =>
    unfold cfgDelete
    by_cases hc : c.ID = id
    · simp [hc, cfgGet, h]
    · by_cases hc2 : c.ID = id'
      · have h2 : ¬ id' = id := fun e => h e.symm
        simp [hc2, cfgGet, h2]
      · simp [hc, hc2, cfgGet, ih]

theorem cfgGet_cfgDelete_self {m : List PushNotificationConfig}
    (hnd : (m.map (fun c => c.ID)).Nodup) (id : String) :
    cfgGet (cfgDelete m id) id = none := by
  induction m with
  | nil => simp [cfgDelete, cfgGet]
  | cons c rest ih =>
    rw [List.map_cons, List.nodup_cons] at hnd
    unfold cfgDelete
    by_cases hc : c.ID = id
    · simp only [hc, beq_self_eq_true, if_true]
      rw [cfgGet_eq_none, ← hc]
      exact hnd.1
    · simp [hc, cfgGet, ih hnd.2]

theorem cfgSet_ids (m : List PushNotificationConfig) (cfg : PushNotificationConfig) :
    (cfgSet m cfg).map (fun c => c.ID) =
      if cfg.ID ∈ m.map (fun c => c.ID) then m.map (fun c => c.ID)
      else m.map (fun c => c.ID) ++ [cfg.ID] := by
  induction m with
  | nil => simp [cfgSet]
  | cons c rest ih =>
    unfold cfgSet
    by_cases hc : c.ID = cfg.ID
    · simp [hc]
    · have hc2 : ¬ cfg.ID = c.ID := fun e => hc e.symm
      by_cases hin : cfg.ID ∈ rest.map (fun c => c.ID)
      · simp only [List.map_cons, List.mem_cons, hc2, false_or, hin, if_true] at ih ⊢
        simp [hc, ih]
      · simp only [List.map_cons, List.mem_cons, hc2, false_or, hin, if_false] at ih ⊢
        simp [hc, ih]

theorem cfgSet_nodup {m : List PushNotificationConfig}
    (hnd : (m.map (fun c => c.ID)).Nodup) (cfg : PushNotificationConfig) :
    ((cfgSet m cfg).map (fun c => c.ID)).Nodup := by
  rw [cfgSet_ids]
  by_cases hin : cfg.ID ∈ m.map (fun c => c.ID)
  · simp only [hin, if_true]
    exact hnd
  · simp only [hin, if_false]
    rw [List.nodup_append]
    refine ⟨hnd, List.nodup_singleton _, ?_⟩
    intro a ha hb
    rw [List.mem_singleton] at hb
    exact hin (hb ▸ ha)

/-! ## The subscription invariant -/

theorem taskStore.PushOK_of_push_eq {s s' : taskStore} (h : s.PushOK)
    (hp : s'.push = s.push) : s'.PushOK := by
  intro taskID m hm
  rw [hp] at hm
  exact h taskID m hm

theorem taskStore.PushOK_of_nil {s : taskStore} (hp : s.push = []) : s.PushOK := by
  intro taskID m hm
  rw [hp] at hm
  simp [mapGet] at hm

theorem taskStore.PushOK_getD {s : taskStore} (h : s.PushOK) (taskID : String) :
    (((mapGet s.push taskID).getD []).map (fun c => c.ID)).Nodup := by
  cases hm : mapGet s.push taskID with
  | none => simp
  | some m => exact h taskID m hm

theorem taskStore.PushOK_addPush {s : taskStore} (h : s.PushOK) (taskID : String)
    (cfg : PushNotificationConfig) : (s.addPush taskID cfg).1.PushOK := by
  unfold taskStore.addPush
  cases hg : itemsGet s.items taskID with
  | none => exact h
  | some t =>
    intro k m hm
    simp only [mapGet_mapSet] at hm
    by_cases hk : taskID = k
    · simp only [hk, if_true, Option.some.injEq] at hm
      rw [← hm]
      exact cfgSet_nodup (hk ▸ taskStore.PushOK_getD h taskID) _
    · simp only [hk, if_false] at hm
      exact h k m hm

theorem taskStore.PushOK_deletePush {s : taskStore} (h : s.PushOK) (taskID cfgID : String) :
    (s.deletePush taskID cfgID).1.PushOK := by
  cases hm : mapGet s.push taskID with
  | none =>
    simp only [taskStore.deletePush, hm]
    exact h
  | some m =>
    cases hc : cfgGet m cfgID with
    | none =>
      simp only [taskStore.deletePush, hm, hc]
      exact h
    | some c =>
      simp only [taskStore.deletePush, hm, hc]
      intro k m' hm'
      simp only [mapGet_mapSet] at hm'
      by_cases hk : taskID = k
      · simp only [hk, if_true, Option.some.injEq] at hm'
        rw [← hm']
        exact cfgDelete_nodup (h taskID m hm) _
      · simp only [hk, if_false] at hm'
        exact h k m' hm'

theorem taskStore.PushOK_step {s s' : taskStore} (h : s.PushOK) (hs : StoreStep s s') :
    s'.PushOK := by
  cases hs with
  | newTask cid now => exact taskStore.PushOK_of_push_eq h rfl
  | put task now => exact taskStore.PushOK_of_push_eq h rfl
  | sync task => exact taskStore.PushOK_of_push_eq h rfl
  | addPush taskID cfg => exact taskStore.PushOK_addPush h taskID cfg
  | deletePush taskID cfgID => exact taskStore.PushOK_deletePush h taskID cfgID

/-- Every store reached from the empty store by registry steps keeps one subscription
per config ID. -/
theorem taskStore.PushOK_reached {n : Nat} {s s' : taskStore} (hs : StoreSteps n s s')
    (h : s.PushOK) : s'.PushOK := by
  induction hs with
  | refl => exact h
  | step _ hstep ih => exact taskStore.PushOK_step (ih h) hstep

/-! ## Listing and deleting subscriptions -/

/-- What a successful `addPush` did: the task is stored, the config returned is the
caller's with the ID filled in when it was empty, and it is filed in the task's map. -/
theorem taskStore.addPush_some {s : taskStore} {taskID : String}
    {cfg out : PushNotificationConfig} (h : (s.addPush taskID cfg).2 = some out) :
    (∃ x : Task, s.get taskID = some x) ∧
    out = (if cfg.ID = "" then { cfg with ID := "pc-" ++ itoa (wrap64 (s.pseq + 1)) }
      else cfg) ∧
    (s.addPush taskID cfg).1 =
      { s with
        pseq := wrap64 (s.pseq + 1)
        push := mapSet s.push taskID (cfgSet ((mapGet s.push taskID).getD []) out) } := by
  unfold taskStore.addPush at h ⊢
  cases hg : itemsGet s.items taskID with
  | none => simp [hg] at h
  | some x =>
    simp only [hg] at h ⊢
    by_cases he : cfg.ID = ""
    · simp only [he, beq_self_eq_true, if_true, Option.some.injEq] at h ⊢
      subst h
      exact ⟨⟨x, hg⟩, rfl, rfl⟩
    · have he2 : (cfg.ID == "") = false := by simp [he]
      simp only [he2, he, if_false, Option.some.injEq] at h ⊢
      subst h
      exact ⟨⟨x, hg⟩, rfl, by simp⟩

/-- C22. For every store whose subscription maps have one entry per config ID:
`listPush(taskID)` reports task-missing if and only if no task with `taskID` is stored;
for a stored task it returns (with ok) a sequence holding exactly the task's current
subscriptions (the configs `getPush` finds), each once; the sequence is empty when the
task has none, both when none was ever added and when all were deleted. -/
theorem C22_listPush (s : taskStore) (taskID : String) (hok : s.PushOK) :
    (s.listPush taskID = none ↔ s.get taskID = none) ∧
    (∀ t : Task, s.get taskID = some t →
      ∃ l : List PushNotificationConfig,
        s.listPush taskID = some l ∧
        (∀ (cfgID : String) (cfg : PushNotificationConfig),
          s.getPush taskID cfgID = some cfg ↔ cfg ∈ l ∧ cfg.ID = cfgID) ∧
        (l.map (fun c => c.ID)).Nodup ∧ l.Nodup ∧
        ((∀ cfgID : String, s.getPush taskID cfgID = none) → l = []) ∧
        (mapGet s.push taskID = none → l = []) ∧
        (∀ cfg out : PushNotificationConfig, l = [] →
          (s.addPush taskID cfg).2 = some out →
          ((s.addPush taskID cfg).1.deletePush taskID out.ID).2 = true ∧
          ((s.addPush taskID cfg).1.deletePush taskID out.ID).1.listPush taskID =
            some [])) := by
  refine ⟨?_, ?_⟩
  · unfold taskStore.listPush taskStore.get
    cases hg : itemsGet s.items taskID with
    | none => simp
    | some t =>
      cases hm : mapGet s.push taskID <;> simp
  · intro t hget
    have hg : itemsGet s.items taskID = some t := hget
    have hnd := taskStore.PushOK_getD hok taskID
    refine ⟨(mapGet s.push taskID).getD [], ?_, ?_, hnd, List.Nodup.of_map _ hnd, ?_, ?_, ?_⟩
    · cases hm : mapGet s.push taskID <;> simp [taskStore.listPush, hg, hm]
    · intro cfgID cfg
      cases hm : mapGet s.push taskID with
      | none => simp [taskStore.getPush, hm]
      | some m =>
        simp only [taskStore.getPush, hm, Option.getD_some]
        exact cfgGet_some_iff (hok taskID m hm) cfgID cfg
    · intro hall
      cases hm : mapGet s.push taskID with
      | none => rfl
      | some m =>
        cases m with
        | nil => rfl
        | cons c rest =>
          have h1 := hall c.ID
          simp [taskStore.getPush, hm, cfgGet] at h1
    · intro hm
      simp [hm]
    · intro cfg out hl hadd
      obtain ⟨_, _, hs1⟩ := taskStore.addPush_some hadd
      rw [hs1, hl]
      simp [taskStore.deletePush, taskStore.listPush, mapGet_mapSet, cfgSet, cfgGet,
        cfgDelete, hg]

/-- Witness of C22: the store holding the completed task `t-1` with one subscription
added; the list holds the config "pc-1", and `t-9` is task-missing. -/
theorem C22_listPush_witness :
    ((srvCompleted streamingCard).tasks.addPush "t-1" { ID := "", URL := "https://x" }).1.PushOK ∧
    (((srvCompleted streamingCard).tasks.addPush "t-1"
        { ID := "", URL := "https://x" }).1.listPush "t-9" = none ↔
      ((srvCompleted streamingCard).tasks.addPush "t-1"
        { ID := "", URL := "https://x" }).1.get "t-9" = none) ∧
    ((srvCompleted streamingCard).tasks.addPush "t-1"
        { ID := "", URL := "https://x" }).1.listPush "t-1" =
      some [{ ID := "pc-1", URL := "https://x" }] :=
  ⟨taskStore.PushOK_addPush (taskStore.PushOK_of_nil rfl) _ _,
    (C22_listPush
      ((srvCompleted streamingCard).tasks.addPush "t-1" { ID := "", URL := "https://x" }).1
      "t-9" (taskStore.PushOK_addPush (taskStore.PushOK_of_nil rfl) _ _)).1,
    rfl⟩

/-- C23. For every store whose subscription maps have one entry per config ID:
`deletePush(taskID, cfgID)` returns true if and only if `getPush(taskID, cfgID)` found a
config immediately before the call; after a true result `getPush(taskID, cfgID)` is
not-found, every other (task, config) pair is retrievable exactly as before, and the
tasks, histories and counters are untouched; after a false result the store is
unchanged. -/
theorem C23_deletePush (s : taskStore) (taskID cfgID : String) (hok : s.PushOK) :
    ((s.deletePush taskID cfgID).2 = true ↔ s.getPush taskID cfgID ≠ none) ∧
    ((s.deletePush taskID cfgID).2 = true →
      (s.deletePush taskID cfgID).1.getPush taskID cfgID = none ∧
      (∀ t c : String, ¬ (t = taskID ∧ c = cfgID) →
        (s.deletePush taskID cfgID).1.getPush t c = s.getPush t c) ∧
      (s.deletePush taskID cfgID).1.items = s.items ∧
      (s.deletePush taskID cfgID).1.hist = s.hist ∧
      (s.deletePush taskID cfgID).1.seq = s.seq ∧
      (s.deletePush taskID cfgID).1.pseq = s.pseq) ∧
    ((s.deletePush taskID cfgID).2 = false → (s.deletePush taskID cfgID).1 = s) := by
  cases hm : mapGet s.push taskID with
  | none => simp [taskStore.deletePush, taskStore.getPush, hm]
  | some m =>
    cases hc : cfgGet m cfgID with
    | none => simp [taskStore.deletePush, taskStore.getPush, hm, hc]
    | some c =>
      have hnd := hok taskID m hm
      refine ⟨by simp [taskStore.deletePush, taskStore.getPush, hm, hc], ?_,
        by simp [taskStore.deletePush, hm, hc]⟩
      intro _
      refine ⟨?_, ?_, ?_⟩
      · simp [taskStore.deletePush, taskStore.getPush, hm, hc, mapGet_mapSet,
          cfgGet_cfgDelete_self hnd]
      · intro t c0 hne
        simp only [taskStore.deletePush, taskStore.getPush, hm, hc, mapGet_mapSet]
        by_cases ht : taskID = t
        · subst ht
          have hcc : cfgID ≠ c0 := fun e => hne ⟨rfl, e.symm⟩
          simp [hm, cfgGet_cfgDelete_ne m hcc]
        · simp [ht]
      · simp [taskStore.deletePush, hm, hc]

/-- Witness of C23: deleting the subscription "pc-1" of task `t-1` succeeds and leaves
it not-found; the store satisfies the invariant. -/
theorem C23_deletePush_witness :
    ((srvCompleted streamingCard).tasks.addPush "t-1" { ID := "", URL := "https://x" }).1.PushOK ∧
    ((((srvCompleted streamingCard).tasks.addPush "t-1"
        { ID := "", URL := "https://x" }).1.deletePush "t-1" "pc-1").2 = true ↔
      ((srvCompleted streamingCard).tasks.addPush "t-1"
        { ID := "", URL := "https://x" }).1.getPush "t-1" "pc-1" ≠ none) ∧
    (((srvCompleted streamingCard).tasks.addPush "t-1"
        { ID := "", URL := "https://x" }).1.deletePush "t-1" "pc-1").2 = true ∧
    (((srvCompleted streamingCard).tasks.addPush "t-1"
        { ID := "", URL := "https://x" }).1.deletePush "t-1" "pc-1").1.getPush "t-1" "pc-1" =
      none :=
  ⟨taskStore.PushOK_addPush (taskStore.PushOK_of_nil rfl) _ _,
    (C23_deletePush
      ((srvCompleted streamingCard).tasks.addPush "t-1" { ID := "", URL := "https://x" }).1
      "t-1" "pc-1" (taskStore.PushOK_addPush (taskStore.PushOK_of_nil rfl) _ _)).1,
    rfl,
    ((C23_deletePush
      ((srvCompleted streamingCard).tasks.addPush "t-1" { ID := "", URL := "https://x" }).1
      "t-1" "pc-1" (taskStore.PushOK_addPush (taskStore.PushOK_of_nil rfl) _ _)).2.1 rfl).1⟩

/-! ## Generated subscription IDs -/

/-- On counter values from 0 up to the largest `int64`, the generated config ID
determines the counter value. -/
theorem pushID_injective {a b : Nat} (ha : a < 2 ^ 63) (hb : b < 2 ^ 63)
    (h : "pc-" ++ itoa (a : Int) = "pc-" ++ itoa (b : Int)) : a = b := by
  rw [itoa_eq_decimal a ha, itoa_eq_decimal b hb] at h
  have h2 := congrArg String.data h
  simp only [String.data_append] at h2
  have h3 := List.append_cancel_left h2
  exact decimal_injective (String.ext h3)

theorem taskStore.addPush_pseq (s : taskStore) (taskID : String)
    (cfg : PushNotificationConfig) (h0 : 0 ≤ s.pseq) (hb : s.pseq + 1 < 2 ^ 63) :
    s.pseq ≤ (s.addPush taskID cfg).1.pseq ∧ (s.addPush taskID cfg).1.pseq ≤ s.pseq + 1 := by
  have hw : wrap64 (s.pseq + 1) = s.pseq + 1 := wrap64_of_range (by omega) (by omega)
  unfold taskStore.addPush
  cases hg : itemsGet s.items taskID with
  | none => simp
  | some x => simp [hw]

theorem taskStore.deletePush_pseq (s : taskStore) (taskID cfgID : String) :
    (s.deletePush taskID cfgID).1.pseq = s.pseq := by
  cases hm : mapGet s.push taskID with
  | none => simp [taskStore.deletePush, hm]
  | some m =>
    cases hc : cfgGet m cfgID <;> simp [taskStore.deletePush, hm, hc]

theorem StoreStep.pseq_step {s s' : taskStore} (hs : StoreStep s s') (h0 : 0 ≤ s.pseq)
    (hb : s.pseq + 1 < 2 ^ 63) : s.pseq ≤ s'.pseq ∧ s'.pseq ≤ s.pseq + 1 := by
  cases hs with
  | newTask cid now => simp [taskStore.newTask]
  | put task now => simp [taskStore.put]
  | sync task => simp [taskStore.sync]
  | addPush taskID cfg => exact taskStore.addPush_pseq s taskID cfg h0 hb
  | deletePush taskID cfgID => simp [taskStore.deletePush_pseq]

/-- Along `n` registry steps the subscription counter does not decrease and grows by at
most `n`, as long as it stays below the largest `int64`. -/
theorem StoreSteps.pseq_range {n : Nat} {s s' : taskStore} (hs : StoreSteps n s s')
    (h0 : 0 ≤ s.pseq) (hb : s.pseq + n < 2 ^ 63) :
    s.pseq ≤ s'.pseq ∧ s'.pseq ≤ s.pseq + n := by
  induction hs with
  | refl => simp
  | step _ hstep ih =>
    have h1 := ih h0 (by push_cast at hb; omega)
    have h2 := StoreStep.pseq_step hstep (by omega) (by push_cast at hb; omega)
    push_cast
    omega

/-- C21. In a store whose subscription counter is not about to overflow, any two
`addPush` calls made with an empty config ID, on the same or on different stored tasks,
with any `n` other registry operations between them, are given distinct generated IDs.
In particular, two such calls made one after the other on one task that has no
subscriptions yield two distinct IDs; `listPush` then returns both configs (in some
order), and deleting either one of them leaves exactly the other. -/
theorem C21_generated_ids_distinct (s s' : taskStore) (n : Nat) (t1 t2 : String)
    (cfg1 cfg2 out1 out2 : PushNotificationConfig)
    (h0 : 0 ≤ s.pseq) (hb : s.pseq + n + 2 < 2 ^ 63)
    (he1 : cfg1.ID = "") (he2 : cfg2.ID = "")
    (ha1 : (s.addPush t1 cfg1).2 = some out1)
    (hsteps : StoreSteps n (s.addPush t1 cfg1).1 s')
    (ha2 : (s'.addPush t2 cfg2).2 = some out2) :
    out1.ID ≠ out2.ID ∧
    (n = 0 → t1 = t2 → s.listPush t1 = some [] →
      ∃ l : List PushNotificationConfig,
        (s'.addPush t2 cfg2).1.listPush t1 = some l ∧ List.Perm l [out1, out2] ∧
        ((s'.addPush t2 cfg2).1.deletePush t1 out1.ID).2 = true ∧
        ((s'.addPush t2 cfg2).1.deletePush t1 out1.ID).1.listPush t1 = some [out2] ∧
        ((s'.addPush t2 cfg2).1.deletePush t1 out2.ID).2 = true ∧
        ((s'.addPush t2 cfg2).1.deletePush t1 out2.ID).1.listPush t1 = some [out1]) := by
  obtain ⟨⟨x1, hx1⟩, ho1, hs1⟩ := taskStore.addPush_some ha1
  obtain ⟨⟨x2, hx2⟩, ho2, hs2⟩ := taskStore.addPush_some ha2
  have hw1 : wrap64 (s.pseq + 1) = s.pseq + 1 := wrap64_of_range (by omega) (by omega)
  have hp1 : (s.addPush t1 cfg1).1.pseq = s.pseq + 1 := by rw [hs1]; exact hw1
  have hbd := StoreSteps.pseq_range hsteps (by omega) (by omega)
  rw [hp1] at hbd
  have hw2 : wrap64 (s'.pseq + 1) = s'.pseq + 1 := wrap64_of_range (by omega) (by omega)
  have hid1 : out1.ID = "pc-" ++ itoa (s.pseq + 1) := by
    rw [ho1, if_pos he1, hw1]
  have hid2 : out2.ID = "pc-" ++ itoa (s'.pseq + 1) := by
    rw [ho2, if_pos he2, hw2]
  have hne : out1.ID ≠ out2.ID := by
    intro h
    rw [hid1, hid2] at h
    have hn1 : ((s.pseq + 1).toNat : Int) = s.pseq + 1 := Int.toNat_of_nonneg (by omega)
    have hn2 : ((s'.pseq + 1).toNat : Int) = s'.pseq + 1 := Int.toNat_of_nonneg (by omega)
    rw [← hn1, ← hn2] at h
    have := pushID_injective (by omega) (by omega) h
    omega
  refine ⟨hne, ?_⟩
  intro hn ht hl
  subst hn
  subst ht
  cases hsteps
  have hg1 : itemsGet s.items t1 = some x1 := hx1
  have hm0 : (mapGet s.push t1).getD [] = [] := by
    unfold taskStore.listPush at hl
    rw [hg1] at hl
    cases hm : mapGet s.push t1 with
    | none => rfl
    | some m =>
      simp only [hm, Option.some.injEq] at hl
      simp [hl]
  have hne2 : ¬ out2.ID = out1.ID := fun e => hne e.symm
  rw [hs2, hs1, hm0]
  simp only [mapGet_mapSet, if_true, Option.getD_some]
  refine ⟨[out1, out2], ?_, List.Perm.refl _, ?_, ?_, ?_, ?_⟩
  · simp [taskStore.listPush, hg1, mapGet_mapSet, cfgSet, hne]
  · simp [taskStore.deletePush, mapGet_mapSet, cfgSet, cfgGet, hne]
  · simp [taskStore.deletePush, taskStore.listPush, hg1, mapGet_mapSet, cfgSet, cfgGet,
      cfgDelete, hne]
  · simp [taskStore.deletePush, mapGet_mapSet, cfgSet, cfgGet, hne]
  · simp [taskStore.deletePush, taskStore.listPush, hg1, mapGet_mapSet, cfgSet, cfgGet,
      cfgDelete, hne]

/-- Witness of C21: the scenario of the spec on the store holding the completed task
`t-1`: two subscriptions with URL "https://x" and no ID are given the IDs "pc-1" and
"pc-2". -/
theorem C21_generated_ids_distinct_witness :
    ((0 : Int) ≤ (srvCompleted streamingCard).tasks.pseq ∧
      (srvCompleted streamingCard).tasks.pseq + (0 : Nat) + 2 < 2 ^ 63 ∧
      ((srvCompleted streamingCard).tasks.addPush "t-1" { ID := "", URL := "https://x" }).2 =
        some { ID := "pc-1", URL := "https://x" } ∧
      (((srvCompleted streamingCard).tasks.addPush "t-1"
          { ID := "", URL := "https://x" }).1.addPush "t-1"
          { ID := "", URL := "https://x" }).2 =
        some { ID := "pc-2", URL := "https://x" }) ∧
    (({ ID := "pc-1", URL := "https://x" } : PushNotificationConfig).ID ≠
      ({ ID := "pc-2", URL := "https://x" } : PushNotificationConfig).ID) :=
  ⟨⟨by decide, by decide, rfl, rfl⟩,
    (C21_generated_ids_distinct (srvCompleted streamingCard).tasks
      ((srvCompleted streamingCard).tasks.addPush "t-1" { ID := "", URL := "https://x" }).1
      0 "t-1" "t-1" { ID := "", URL := "https://x" } { ID := "", URL := "https://x" }
      { ID := "pc-1", URL := "https://x" } { ID := "pc-2", URL := "https://x" }
      (by decide) (by decide) rfl rfl rfl (StoreSteps.refl _) rfl).1⟩

/-! ## The detector, part by part -/

theorem ToLower_empty : ToLower "" ≠ "data" := by decide

theorem detectPart_none (out : secAuth) (raw : JSON) (h : dataBag raw = none) :
    detectPart out raw = out := by
  unfold dataBag at h
  unfold detectPart
  split
  · rename_i probe
    simp only [] at h
    split at h
    · rename_i t ht
      simp only [ht]
      by_cases hl : ToLower t = "data"
      · simp only [hl, if_true] at h
        simp only [hl, bne_self_eq_false, Bool.false_eq_true, if_false]
        split at h
        · cases h
        · rfl
      · simp [hl]
    · rename_i hno
      have : (match JSON.member probe "type" with
          | some (JSON.str s) => s
          | _ => "") = "" := by
        split
        · rename_i s hs
          exact absurd hs (hno s)
        · rfl
      simp [this, ToLower_empty]
  · rfl

theorem detectPart_some (out : secAuth) (raw : JSON) (data : List (String × JSON))
    (h : dataBag raw = some data) :
    detectPart out raw =
      (let out := match JSON.member data "requireSecondaryAuth" with
          | some (JSON.bool true) => { out with Require := true }
          | _ => out
        let out := match JSON.member data "resource" with
          | some (JSON.str v) => { out with Resource := v }
          | _ => out
        let out := match JSON.member data "authorization_uri" with
          | some (JSON.str v) => { out with AuthorizationURI := v }
          | _ => out
        let out := match JSON.member data "secondaryAuthToken" with
          | some (JSON.str v) => { out with Token := v }
          | _ => out
        let out := match JSON.member data "scopes" with
          | some (JSON.arr v) => { out with Scopes := out.Scopes ++ stringsOf v }
          | _ => out
        out) := by
  unfold dataBag at h
  unfold detectPart
  split at h
  · rename_i probe
    split at h
    · rename_i t ht
      by_cases hl : ToLower t = "data"
      · simp only [hl, if_true] at h
        split at h
        · rename_i d hd
          cases h
          simp only [ht, hl, hd, bne_self_eq_false, Bool.false_eq_true, if_false]
        · cases h
      · simp [hl] at h
    · cases h
  · cases h

theorem detectPart_require (out : secAuth) (raw : JSON) :
    (detectPart out raw).Require = (out.Require || assertsRequired raw) := by
  cases h : dataBag raw with
  | none => simp [detectPart_none out raw h, assertsRequired, h]
  | some data =>
    rw [detectPart_some out raw data h]
    simp only [assertsRequired, h]
    repeat' split
    all_goals simp

theorem detectPart_resource (out : secAuth) (raw : JSON) :
    (detectPart out raw).Resource = (stringField "resource" raw).getD out.Resource := by
  cases h : dataBag raw with
  | none => simp [detectPart_none out raw h, stringField, h]
  | some data =>
    rw [detectPart_some out raw data h]
    simp only [stringField, h]
    repeat' split
    all_goals simp_all

theorem detectPart_uri (out : secAuth) (raw : JSON) :
    (detectPart out raw).AuthorizationURI =
      (stringField "authorization_uri" raw).getD out.AuthorizationURI := by
  cases h : dataBag raw with
  | none => simp [detectPart_none out raw h, stringField, h]
  | some data =>
    rw [detectPart_some out raw data h]
    simp only [stringField, h]
    repeat' split
    all_goals simp_all

theorem detectPart_token (out : secAuth) (raw : JSON) :
    (detectPart out raw).Token = (stringField "secondaryAuthToken" raw).getD out.Token := by
  cases h : dataBag raw with
  | none => simp [detectPart_none out raw h, stringField, h]
  | some data =>
    rw [detectPart_some out raw data h]
    simp only [stringField, h]
    repeat' split
    all_goals simp_all

theorem detect_eq_foldl (messages : List Message) (init : secAuth) :
    messages.foldl (fun out m => m.PartsRaw.foldl detectPart out) init =
      (partsOf messages).foldl detectPart init := by
  induction messages generalizing init with
  | nil => rfl
  | cons m rest ih => simp [partsOf, List.foldl_append, ih]

theorem mem_partsOf (messages : List Message) (raw : JSON) :
    raw ∈ partsOf messages ↔ ∃ m ∈ messages, raw ∈ m.PartsRaw := by
  induction messages with
  | nil => simp [partsOf]
  | cons m rest ih => simp [partsOf, ih]

theorem partsOf_perm {a b : List Message} (h : a.Perm b) : (partsOf a).Perm (partsOf b) := by
  induction h with
  | nil => exact List.Perm.refl _
  | cons x _ ih => exact List.Perm.append_left _ ih
  | swap x y l =>
    simp only [partsOf, ← List.append_assoc]
    exact List.Perm.append_right _ List.perm_append_comm
  | trans _ _ ih1 ih2 => exact ih1.trans ih2

theorem foldl_require (parts : List JSON) (out : secAuth) :
    (parts.foldl detectPart out).Require = (out.Require || parts.any assertsRequired) := by
  induction parts generalizing out with
  | nil => simp
  | cons raw rest ih =>
    simp only [List.foldl_cons, ih, detectPart_require, List.any_cons, Bool.or_assoc]

theorem getLast_getD_cons {α : Type} (v d : α) (l : List α) :
    ((v :: l).getLast?).getD d = (l.getLast?).getD v := by
  cases l with
  | nil => rfl
  | cons b l' =>
    rw [List.getLast?_cons_cons]
    rw [List.getLast?_eq_getLast _ (List.cons_ne_nil b l')]
    rfl

theorem foldl_field (f : secAuth → String) (k : String)
    (hf : ∀ out raw, f (detectPart out raw) = (stringField k raw).getD (f out))
    (parts : List JSON) (out : secAuth) :
    f (parts.foldl detectPart out) =
      ((parts.filterMap (stringField k)).getLast?).getD (f out) := by
  induction parts generalizing out with
  | nil => simp
  | cons raw rest ih =>
    rw [List.foldl_cons, ih, hf]
    cases hs : stringField k raw with
    | none => simp [List.filterMap_cons, hs]
    | some v => simp [List.filterMap_cons, hs, getLast_getD_cons]

theorem detect_require_iff (messages : List Message) :
    (detectSecondaryAuth messages).Require = true ↔
      ∃ raw ∈ partsOf messages, assertsRequired raw = true := by
  unfold detectSecondaryAuth
  rw [detect_eq_foldl, foldl_require]
  simp

theorem detect_fields (messages : List Message) :
    (detectSecondaryAuth messages).Resource = lastField "resource" messages ∧
    (detectSecondaryAuth messages).AuthorizationURI = lastField "authorization_uri" messages ∧
    (detectSecondaryAuth messages).Token = lastField "secondaryAuthToken" messages := by
  unfold detectSecondaryAuth lastField
  rw [detect_eq_foldl]
  exact ⟨foldl_field (fun o => o.Resource) _ detectPart_resource _ _,
    foldl_field (fun o => o.AuthorizationURI) _ detectPart_uri _ _,
    foldl_field (fun o => o.Token) _ detectPart_token _ _⟩

theorem partsOf_append_single (messages : List Message) (more : JSON) :
    partsOf (messages ++ [{ PartsRaw := [more] }]) = partsOf messages ++ [more] := by
  induction messages with
  | nil => simp [partsOf]
  | cons m rest ih => simp [partsOf, ih]

theorem lastField_append (k : String) (messages : List Message) (more : JSON) (v : String)
    (h : stringField k more = some v) :
    lastField k (messages ++ [{ PartsRaw := [more] }]) = v := by
  simp [lastField, partsOf_append_single, List.filterMap_append, h]

/-- An accepted send that the detector does not suspend returns a completed task. -/
theorem MessageSend_completes (srv : Server) (p : MessageParams)
    (tNew tTouch tArt tDone tPut : Time) (hmsgs : p.Messages ≠ [])
    (hnt : ∀ e, continued srv p = some e → ¬ Terminal e.Status.State)
    (hns : ¬ Suspends p.Messages) :
    ∃ task : Task,
      (opsImpl.MessageSend srv (RawParams.decoded p) tNew tTouch tArt tDone tPut).2 =
        { Result := some (ResultValue.task task) } ∧
      task.Status.State = TaskCompleted := by
  cases hc : continued srv p with
  | none =>
    rw [MessageSend_create srv p tNew tTouch tArt tDone tPut hmsgs hc, if_neg hns]
    exact ⟨_, rfl, rfl⟩
  | some e =>
    rw [MessageSend_continue srv p e tNew tTouch tArt tDone tPut hmsgs hc (hnt e hc),
      if_neg hns]
    exact ⟨_, rfl, rfl⟩

/-- C32, counterexample. One message with two data parts, the first carrying resource
"r1", authorization URI "u1" and token "k1", the second "r2", "u2" and "k2": the
descriptor holds the values of the second part, not of the first. -/
theorem C32_counterexample :
    (partsOf [twoBagsMessage]).filterMap (stringField "resource") = ["r1", "r2"] ∧
    (partsOf [twoBagsMessage]).filterMap (stringField "authorization_uri") = ["u1", "u2"] ∧
    (partsOf [twoBagsMessage]).filterMap (stringField "secondaryAuthToken") = ["k1", "k2"] ∧
    (detectSecondaryAuth [twoBagsMessage]).Resource = "r2" ∧
    (detectSecondaryAuth [twoBagsMessage]).AuthorizationURI = "u2" ∧
    (detectSecondaryAuth [twoBagsMessage]).Token = "k2" := by
  decide

/-- C32, amended. `detectSecondaryAuth` is last-match-wins per field: for every list of
messages, the descriptor's resource, authorization URI and token are each taken from
the last data part (in message order, then part order) that carries that field as a
string, and are empty when no part carries it; a later data part carrying the field
replaces the value. A data part is a JSON object whose type lower-cases to "data" and
whose data member is an object. -/
theorem C32_last_match_wins (messages : List Message) :
    (detectSecondaryAuth messages).Resource = lastField "resource" messages ∧
    (detectSecondaryAuth messages).AuthorizationURI =
      lastField "authorization_uri" messages ∧
    (detectSecondaryAuth messages).Token = lastField "secondaryAuthToken" messages ∧
    (∀ (more : JSON) (v : String), stringField "resource" more = some v →
      (detectSecondaryAuth (messages ++ [{ PartsRaw := [more] }])).Resource = v) ∧
    (∀ (more : JSON) (v : String), stringField "authorization_uri" more = some v →
      (detectSecondaryAuth (messages ++ [{ PartsRaw := [more] }])).AuthorizationURI = v) ∧
    (∀ (more : JSON) (v : String), stringField "secondaryAuthToken" more = some v →
      (detectSecondaryAuth (messages ++ [{ PartsRaw := [more] }])).Token = v) ∧
    (∀ (more : JSON), stringField "resource" more = none →
      (detectSecondaryAuth (messages ++ [{ PartsRaw := [more] }])).Resource =
        (detectSecondaryAuth messages).Resource) := by
  obtain ⟨h1, h2, h3⟩ := detect_fields messages
  refine ⟨h1, h2, h3, ?_, ?_, ?_, ?_⟩
  · intro more v h
    rw [(detect_fields _).1]
    exact lastField_append _ _ _ _ h
  · intro more v h
    rw [(detect_fields _).2.1]
    exact lastField_append _ _ _ _ h
  · intro more v h
    rw [(detect_fields _).2.2]
    exact lastField_append _ _ _ _ h
  · intro more h
    rw [(detect_fields _).1, h1]
    simp [lastField, partsOf_append_single, List.filterMap_append, h]

/-- Witness of C32 (amended): after the challenge message, a part naming resource "r9"
makes "r9" the descriptor's resource. -/
theorem C32_last_match_wins_witness :
    stringField "resource" (JSON.obj [("type", JSON.str "data"),
      ("data", JSON.obj [("resource", JSON.str "r9")])]) = some "r9" ∧
    (detectSecondaryAuth [challengeMessage]).Resource = "r1" ∧
    (detectSecondaryAuth ([challengeMessage] ++ [{ PartsRaw := [JSON.obj [("type", JSON.str "data"),
      ("data", JSON.obj [("resource", JSON.str "r9")])]] }])).Resource = "r9" :=
  ⟨by decide, by decide,
    (C32_last_match_wins [challengeMessage]).2.2.2.1 _ "r9" (by decide)⟩

/-- C33, counterexample. A message whose only part is a JSON object of type "DATA" (not
"data") with a data object whose requireSecondaryAuth is true: no part is of type "data",
yet the detector reports Require = true; the type is compared after lower-casing. -/
theorem C33_counterexample :
    partsOf [upperDataMessage] = [JSON.obj [("type", JSON.str "DATA"),
      ("data", JSON.obj [("requireSecondaryAuth", JSON.bool true)])]] ∧
    JSON.member [("type", JSON.str "DATA"),
      ("data", JSON.obj [("requireSecondaryAuth", JSON.bool true)])] "type" =
        some (JSON.str "DATA") ∧
    "DATA" ≠ "data" ∧
    (detectSecondaryAuth [upperDataMessage]).Require = true :=
  ⟨rfl, rfl, by decide, by decide⟩

/-- C33, amended. For every list of messages, `detectSecondaryAuth` reports Require =
true if and only if some part is a JSON object whose type, compared after lower-casing
(so "data", "Data", "DATA", ...), is "data" and whose data member is an object with
requireSecondaryAuth equal to the boolean true. So messages with no data part, or with
no such directive, are not required, are not suspended, and an accepted Send completes
them; and the Require result is the same for every reordering of the messages and of
their parts. -/
theorem C33_require_iff (messages : List Message) :
    ((detectSecondaryAuth messages).Require = true ↔
      ∃ m ∈ messages, ∃ raw ∈ m.PartsRaw, assertsRequired raw = true) ∧
    ((∀ m ∈ messages, ∀ raw ∈ m.PartsRaw, dataBag raw = none) →
      (detectSecondaryAuth messages).Require = false) ∧
    ((∀ m ∈ messages, ∀ raw ∈ m.PartsRaw, assertsRequired raw = false) →
      (detectSecondaryAuth messages).Require = false ∧ ¬ Suspends messages ∧
      ∀ (srv : Server) (p : MessageParams) (tNew tTouch tArt tDone tPut : Time),
        p.Messages = messages → messages ≠ [] →
        (∀ e, continued srv p = some e → ¬ Terminal e.Status.State) →
        ∃ task : Task,
          (opsImpl.MessageSend srv (RawParams.decoded p) tNew tTouch tArt tDone tPut).2 =
            { Result := some (ResultValue.task task) } ∧
          task.Status.State = TaskCompleted) ∧
    (∀ messages' : List Message, (partsOf messages).Perm (partsOf messages') →
      (detectSecondaryAuth messages').Require = (detectSecondaryAuth messages).Require) ∧
    (∀ messages' : List Message, messages.Perm messages' →
      (detectSecondaryAuth messages').Require = (detectSecondaryAuth messages).Require) := by
  have hiff : ∀ ms : List Message, (detectSecondaryAuth ms).Require = true ↔
      ∃ m ∈ ms, ∃ raw ∈ m.PartsRaw, assertsRequired raw = true := by
    intro ms
    rw [detect_require_iff]
    constructor
    · rintro ⟨raw, hraw, hr⟩
      obtain ⟨m, hm, hin⟩ := (mem_partsOf ms raw).1 hraw
      exact ⟨m, hm, raw, hin, hr⟩
    · rintro ⟨m, hm, raw, hin, hr⟩
      exact ⟨raw, (mem_partsOf ms raw).2 ⟨m, hm, hin⟩, hr⟩
  have hfalse : (∀ m ∈ messages, ∀ raw ∈ m.PartsRaw, assertsRequired raw = false) →
      (detectSecondaryAuth messages).Require = false := by
    intro h
    cases hr : (detectSecondaryAuth messages).Require with
    | false => rfl
    | true =>
      obtain ⟨m, hm, raw, hin, hreq⟩ := (hiff messages).1 hr
      rw [h m hm raw hin] at hreq
      cases hreq
  have hperm : ∀ messages' : List Message, (partsOf messages).Perm (partsOf messages') →
      (detectSecondaryAuth messages').Require = (detectSecondaryAuth messages).Require := by
    intro messages' hp
    rw [Bool.eq_iff_iff, detect_require_iff, detect_require_iff]
    constructor
    · rintro ⟨raw, hraw, hr⟩
      exact ⟨raw, hp.mem_iff.2 hraw, hr⟩
    · rintro ⟨raw, hraw, hr⟩
      exact ⟨raw, hp.mem_iff.1 hraw, hr⟩
  refine ⟨hiff messages, ?_, ?_, hperm, fun messages' h => hperm messages' (partsOf_perm h)⟩
  · intro h
    apply hfalse
    intro m hm raw hin
    simp [assertsRequired, h m hm raw hin]
  · intro h
    have hr := hfalse h
    have hns : ¬ Suspends messages := by
      intro hs
      rw [hs.1] at hr
      cases hr
    refine ⟨hr, hns, ?_⟩
    intro srv p tNew tTouch tArt tDone tPut hp hne hnt
    subst hp
    exact MessageSend_completes srv p tNew tTouch tArt tDone tPut hne hnt hns

/-- Witness of C33 (amended): the text message has no data part and is not required; the
challenge message is required. -/
theorem C33_require_iff_witness :
    (∀ m ∈ [textMessage], ∀ raw ∈ m.PartsRaw, dataBag raw = none) ∧
    (detectSecondaryAuth [textMessage]).Require = false ∧
    ((detectSecondaryAuth [challengeMessage]).Require = true ↔
      ∃ m ∈ [challengeMessage], ∃ raw ∈ m.PartsRaw, assertsRequired raw = true) :=
  ⟨by simp [textMessage, dataBag, JSON.member, mapGet, ToLower, lowerChar],
    (C33_require_iff [textMessage]).2.1
      (by simp [textMessage, dataBag, JSON.member, mapGet, ToLower, lowerChar]),
    (C33_require_iff [challengeMessage]).1⟩

/-- C34. `isTerminal(s)` is true exactly for the states completed, failed and canceled;
it is false for running, for auth-required and for every other state value. -/
theorem C34_isTerminal (s : TaskState) :
    (isTerminal s = true ↔ s = TaskCompleted ∨ s = TaskFailed ∨ s = TaskCanceled) ∧
    (isTerminal s = false ↔
      s = TaskRunning ∨ s = TaskAuthRequired ∨ ∃ raw : String, s = other raw) ∧
    isTerminal TaskCompleted = true ∧ isTerminal TaskFailed = true ∧
    isTerminal TaskCanceled = true ∧
    isTerminal TaskRunning = false ∧ isTerminal TaskAuthRequired = false ∧
    (∀ raw : String, isTerminal (other raw) = false) := by
  refine ⟨?_, ?_, rfl, rfl, rfl, rfl, rfl, fun _ => rfl⟩
  · cases s <;> simp [isTerminal]
  · cases s <;> simp [isTerminal]

/-! ## Dispatch and `Implements` -/

/-- C36. `opsImpl.Implements` does not agree with the dispatch of `a2aHandler.Serve`. It
answers false for the four `tasks/pushNotificationConfig` methods, which `Serve` hands to
the push operations of `opsImpl` (on a server with push enabled that holds task `t-1`,
`tasks/pushNotificationConfig/set` is served and returns the stored config "pc-1"). For
every other method name the two agree: `Implements` is true exactly on the six methods
message/send, message/stream, tasks/get, tasks/cancel, tasks/resubscribe and
agent/getAuthenticatedExtendedCard; `Serve` hands the ten listed methods to their
operations and answers method-not-found, leaving the server unchanged, for every other
name. -/
theorem C36_implements_misses_push :
    (opsImpl.Implements "tasks/pushNotificationConfig/set" = false ∧
      opsImpl.Implements "tasks/pushNotificationConfig/get" = false ∧
      opsImpl.Implements "tasks/pushNotificationConfig/list" = false ∧
      opsImpl.Implements "tasks/pushNotificationConfig/delete" = false) ∧
    (a2aHandler.routed "tasks/pushNotificationConfig/set" = true ∧
      a2aHandler.routed "tasks/pushNotificationConfig/get" = true ∧
      a2aHandler.routed "tasks/pushNotificationConfig/list" = true ∧
      a2aHandler.routed "tasks/pushNotificationConfig/delete" = true) ∧
    (a2aHandler.Serve (srvCompleted pushCard) Context.Background
        { Method := "tasks/pushNotificationConfig/set",
          pushSetParams := RawParams.decoded
            { TaskID := "t-1", Config := { ID := "", URL := "https://x" } } }
        6 7 8 9 10 11).2.1 =
      { Result := some (ResultValue.config { ID := "pc-1", URL := "https://x" }) } ∧
    (∀ m : String, m ≠ "tasks/pushNotificationConfig/set" →
      m ≠ "tasks/pushNotificationConfig/get" → m ≠ "tasks/pushNotificationConfig/list" →
      m ≠ "tasks/pushNotificationConfig/delete" →
      (opsImpl.Implements m = true ↔ a2aHandler.routed m = true)) ∧
    (∀ m : String, opsImpl.Implements m = true → a2aHandler.routed m = true) ∧
    (∀ m : String, a2aHandler.routed m = true ↔
      m = "message/send" ∨ m = "message/stream" ∨ m = "tasks/get" ∨ m = "tasks/cancel" ∨
      m = "tasks/resubscribe" ∨ m = "tasks/pushNotificationConfig/set" ∨
      m = "tasks/pushNotificationConfig/get" ∨ m = "tasks/pushNotificationConfig/list" ∨
      m = "tasks/pushNotificationConfig/delete" ∨
      m = "agent/getAuthenticatedExtendedCard") ∧
    (∀ (srv : Server) (ctx : Context) (request : Request)
        (tNew tTouch tArt tDone tNow tPut : Time),
      a2aHandler.routed request.Method = false →
      a2aHandler.Serve srv ctx request tNew tTouch tArt tDone tNow tPut =
        (srv, { Error := some { Code := -32601, Message := "method not found" } },
          Spawned.nothing)) ∧
    (∀ (srv : Server) (ctx : Context) (request : Request)
        (tNew tTouch tArt tDone tNow tPut : Time),
      (request.Method = "message/send" →
        a2aHandler.Serve srv ctx request tNew tTouch tArt tDone tNow tPut =
          ((opsImpl.MessageSend srv request.messageParams tNew tTouch tArt tDone tPut).1,
           (opsImpl.MessageSend srv request.messageParams tNew tTouch tArt tDone tPut).2,
           Spawned.nothing)) ∧
      (request.Method = "message/stream" →
        a2aHandler.Serve srv ctx request tNew tTouch tArt tDone tNow tPut =
          opsImpl.MessageStream srv ctx request.messageParams tNew tTouch tPut) ∧
      (request.Method = "tasks/get" →
        a2aHandler.Serve srv ctx request tNew tTouch tArt tDone tNow tPut =
          ((opsImpl.TasksGet srv request.idParams).1,
           (opsImpl.TasksGet srv request.idParams).2, Spawned.nothing)) ∧
      (request.Method = "tasks/cancel" →
        a2aHandler.Serve srv ctx request tNew tTouch tArt tDone tNow tPut =
          ((opsImpl.TasksCancel srv request.idParams tNow tPut).1,
           (opsImpl.TasksCancel srv request.idParams tNow tPut).2, Spawned.nothing)) ∧
      (request.Method = "tasks/resubscribe" →
        a2aHandler.Serve srv ctx request tNew tTouch tArt tDone tNow tPut =
          ((opsImpl.TasksResubscribe srv request.idParams).1,
           (opsImpl.TasksResubscribe srv request.idParams).2, Spawned.nothing)) ∧
      (request.Method = "tasks/pushNotificationConfig/set" →
        a2aHandler.Serve srv ctx request tNew tTouch tArt tDone tNow tPut =
          ((opsImpl.TasksPushNotificationConfigSet srv request.pushSetParams).1,
           (opsImpl.TasksPushNotificationConfigSet srv request.pushSetParams).2,
           Spawned.nothing)) ∧
      (request.Method = "tasks/pushNotificationConfig/get" →
        a2aHandler.Serve srv ctx request tNew tTouch tArt tDone tNow tPut =
          ((opsImpl.TasksPushNotificationConfigGet srv request.pushRefParams).1,
           (opsImpl.TasksPushNotificationConfigGet srv request.pushRefParams).2,
           Spawned.nothing)) ∧
      (request.Method = "tasks/pushNotificationConfig/list" →
        a2aHandler.Serve srv ctx request tNew tTouch tArt tDone tNow tPut =
          ((opsImpl.TasksPushNotificationConfigList srv request.pushListParams).1,
           (opsImpl.TasksPushNotificationConfigList srv request.pushListParams).2,
           Spawned.nothing)) ∧
      (request.Method = "tasks/pushNotificationConfig/delete" →
        a2aHandler.Serve srv ctx request tNew tTouch tArt tDone tNow tPut =
          ((opsImpl.TasksPushNotificationConfigDelete srv request.pushRefParams).1,
           (opsImpl.TasksPushNotificationConfigDelete srv request.pushRefParams).2,
           Spawned.nothing)) ∧
      (request.Method = "agent/getAuthenticatedExtendedCard" →
        a2aHandler.Serve srv ctx request tNew tTouch tArt tDone tNow tPut =
          (srv, { Result := some (ResultValue.card srv.card) }, Spawned.nothing))) := by
  refine ⟨⟨by decide, by decide, by decide, by decide⟩,
    ⟨by decide, by decide, by decide, by decide⟩, rfl, ?_, ?_, ?_, ?_, ?_⟩
  · intro m h1 h2 h3 h4
    simp [opsImpl.Implements, a2aHandler.routed, h1, h2, h3, h4]
  · intro m h
    simp only [opsImpl.Implements] at h
    simp only [a2aHandler.routed]
    by_cases hc : (m == "message/send" || m == "message/stream" ||
      m == "tasks/get" || m == "tasks/cancel" || m == "tasks/resubscribe" ||
      m == "agent/getAuthenticatedExtendedCard") = true
    · simp only [Bool.or_eq_true] at hc ⊢
      rcases hc with ((((hc | hc) | hc) | hc) | hc) | hc <;> simp [hc]
    · simp [hc] at h
  · intro m
    simp [a2aHandler.routed, or_assoc]
  · intro srv ctx request tNew tTouch tArt tDone tNow tPut h
    simp only [a2aHandler.routed, Bool.or_eq_false_iff, beq_eq_false_iff_ne, ne_eq] at h
    obtain ⟨⟨⟨⟨⟨⟨⟨⟨⟨h1, h2⟩, h3⟩, h4⟩, h5⟩, h6⟩, h7⟩, h8⟩, h9⟩, h10⟩ := h
    simp [a2aHandler.Serve, h1, h2, h3, h4, h5, h6, h7, h8, h9, h10, NewMethodNotFound,
      MethodNotFound]
  · intro srv ctx request tNew tTouch tArt tDone tNow tPut
    refine ⟨?_, ?_, ?_, ?_, ?_, ?_, ?_, ?_, ?_, ?_⟩ <;> intro h <;>
      simp [a2aHandler.Serve, h, opsImpl.AgentGetCard]

/-! ## `itoa` on the whole `int64` range -/

theorem digitChar_ne_minus (d : Nat) : digitChar d ≠ '-' := by
  unfold digitChar
  split <;> decide

theorem decimal_data (n : Nat) :
    ∃ (c : Char) (rest : List Char), (decimal n).data = c :: rest ∧ c ≠ '-' := by
  by_cases hn : n = 0
  · subst hn
    exact ⟨'0', [], by simp [decimal], by decide⟩
  · have hne : Nat.digits 10 n ≠ [] := Nat.digits_ne_nil_iff_ne_zero.mpr hn
    cases hr : (Nat.digits 10 n).reverse with
    | nil =>
      rw [List.reverse_eq_nil_iff] at hr
      exact absurd hr hne
    | cons d ds =>
      exact ⟨digitChar d, ds.map digitChar, by simp [decimal, hn, hr], digitChar_ne_minus d⟩

theorem itoaBuf_nonneg (n : Nat) (h : n < 2 ^ 63) : itoaBuf (n : Int) = some (decimal n) := by
  by_cases hn : n = 0
  · subst hn
    simp [itoaBuf, decimal]
  · have hlen := digits_length_le n (by omega)
    have hne : ¬ ((n : Int) = 0) := by exact_mod_cast hn
    have hnn : ¬ ((n : Int) < 0) := by omega
    have hl := itoaLoop_digits 21 n 20 [] (by omega) (by omega)
    simp [itoaBuf, decimal, hn, hne, hnn, hl]

theorem itoaBuf_neg (n : Nat) (h0 : 0 < n) (h : n < 2 ^ 63) :
    itoaBuf (-(n : Int)) = some ("-" ++ decimal n) := by
  have hlen := digits_length_le n (by omega)
  have hn : n ≠ 0 := by omega
  have hne : ¬ (-(n : Int) = 0) := by omega
  have hn0 : ¬ ((n : Int) = 0) := by omega
  have hneg : (0 : Int) < (n : Int) := by omega
  have hw : wrap64 (n : Int) = n := wrap64_of_range (by omega) (by omega)
  have hl := itoaLoop_digits 21 n 20 [] (by omega) (by omega)
  have hi : 20 - (Nat.digits 10 n).length = (19 - (Nat.digits 10 n).length) + 1 := by omega
  simp only [itoaBuf, beq_iff_eq, hne, if_false, Left.neg_neg_iff, hneg, decide_True, if_true,
    neg_neg, hw, hl, hi, decimal, hn, hn0]
  rw [Option.some.injEq]
  apply String.ext
  simp [String.data_append]

theorem itoaBuf_min : itoaBuf minInt64 = some "-" := by
  have hw : wrap64 (-minInt64) = minInt64 := by
    unfold wrap64 minInt64
    norm_num
  have hne : ¬ (minInt64 = 0) := by unfold minInt64; norm_num
  have hneg : minInt64 < 0 := by unfold minInt64; norm_num
  have hnp : ¬ (minInt64 > 0) := by omega
  simp [itoaBuf, hne, hneg, hw, itoaLoop, hnp]

/-- The three shapes of `itoa` on the `int64` range. -/
theorem itoa_cases (v : Int) (hlo : minInt64 ≤ v) (hhi : v < 2 ^ 63) :
    (v = minInt64 ∧ itoaBuf v = some "-") ∨
    (minInt64 < v ∧ v < 0 ∧ itoaBuf v = some ("-" ++ decimal v.natAbs)) ∨
    (0 ≤ v ∧ itoaBuf v = some (decimal v.toNat)) := by
  by_cases hmin : v = minInt64
  · left
    exact ⟨hmin, hmin ▸ itoaBuf_min⟩
  · right
    have hlt : minInt64 < v := lt_of_le_of_ne hlo (fun e => hmin e.symm)
    unfold minInt64 at hlt
    by_cases hneg : v < 0
    · left
      have hv : v = -((v.natAbs : Nat) : Int) := by
        rw [Int.ofNat_natAbs_of_nonpos (le_of_lt hneg)]
        simp
      have hpos : 0 < v.natAbs := Int.natAbs_pos.mpr (by omega)
      have hb : v.natAbs < 2 ^ 63 := by
        have : ((v.natAbs : Nat) : Int) = -v := Int.ofNat_natAbs_of_nonpos (le_of_lt hneg)
        omega
      refine ⟨by unfold minInt64; exact hlt, hneg, ?_⟩
      have := itoaBuf_neg v.natAbs hpos hb
      rw [← hv] at this
      exact this
    · right
      have hv : ((v.toNat : Nat) : Int) = v := Int.toNat_of_nonneg (by omega)
      have hb : v.toNat < 2 ^ 63 := by omega
      refine ⟨by omega, ?_⟩
      have := itoaBuf_nonneg v.toNat hb
      rw [hv] at this
      exact this

theorem itoa_injective_int64 {a b : Int} (ha : minInt64 ≤ a) (ha2 : a < 2 ^ 63)
    (hb : minInt64 ≤ b) (hb2 : b < 2 ^ 63) (h : itoa a = itoa b) : a = b := by
  unfold itoa at h
  have hminus : ∀ n : Nat, ("-" ++ decimal n).data = '-' :: (decimal n).data := by
    intro n
    simp [String.data_append]
  rcases itoa_cases a ha ha2 with ⟨ea, ra⟩ | ⟨la, na, ra⟩ | ⟨pa, ra⟩ <;>
    rcases itoa_cases b hb hb2 with ⟨eb, rb⟩ | ⟨lb, nb, rb⟩ | ⟨pb, rb⟩ <;>
    rw [ra, rb] at h <;> simp only [Option.getD_some] at h
  · rw [ea, eb]
  · exfalso
    have h2 := congrArg String.data h
    rw [hminus] at h2
    obtain ⟨c, rest, hc, _⟩ := decimal_data b.natAbs
    rw [hc] at h2
    simp at h2
  · exfalso
    have h2 := congrArg String.data h
    obtain ⟨c, rest, hc, hne⟩ := decimal_data b.toNat
    rw [hc] at h2
    simp at h2
    exact hne h2.1.symm
  · exfalso
    have h2 := congrArg String.data h
    rw [hminus] at h2
    obtain ⟨c, rest, hc, _⟩ := decimal_data a.natAbs
    rw [hc] at h2
    simp at h2
  · have h2 := congrArg String.data h
    rw [hminus, hminus] at h2
    have h3 : decimal a.natAbs = decimal b.natAbs := String.ext (List.cons.inj h2).2
    have h4 := decimal_injective h3
    have e1 : ((a.natAbs : Nat) : Int) = -a := Int.ofNat_natAbs_of_nonpos (le_of_lt na)
    have e2 : ((b.natAbs : Nat) : Int) = -b := Int.ofNat_natAbs_of_nonpos (le_of_lt nb)
    rw [h4] at e1
    omega
  · exfalso
    have h2 := congrArg String.data h
    rw [hminus] at h2
    obtain ⟨c, rest, hc, hne⟩ := decimal_data b.toNat
    rw [hc] at h2
    exact hne (List.cons.inj h2).1.symm
  · exfalso
    have h2 := congrArg String.data h
    obtain ⟨c, rest, hc, hne⟩ := decimal_data a.toNat
    rw [hc] at h2
    simp at h2
    exact hne h2.1
  · exfalso
    have h2 := congrArg String.data h
    rw [hminus] at h2
    obtain ⟨c, rest, hc, hne⟩ := decimal_data a.toNat
    rw [hc] at h2
    exact hne (List.cons.inj h2).1
  · have h4 := decimal_injective h
    have e1 : ((a.toNat : Nat) : Int) = a := Int.toNat_of_nonneg pa
    have e2 : ((b.toNat : Nat) : Int) = b := Int.toNat_of_nonneg pb
    rw [h4] at e1
    omega

/-- On the smallest `int64` the negation `v = -v` overflows back to v, the digit loop
does not run, and `itoa` returns the sign alone. The counters start at 0 and only
increment, so they take this value only after 2^63 increments. -/
theorem itoa_minInt64 : itoa minInt64 = "-" := by simp [itoa, itoaBuf_min]

/-- C40. For every 64-bit signed integer v other than the smallest (the value the
zero-initialised, incremented counters reach only after overflow), `itoa(v)` is the
base-10 representation of v: its digits without leading zeros, "0" for zero, a leading
"-" for negative values. On the whole `int64` range the buffer index never goes out of
range, and `formatID` is injective: equal IDs come from equal sequence numbers. -/
theorem C40_itoa_decimal (v : Int) (hlo : minInt64 < v) (hhi : v < 2 ^ 63) :
    itoa v = signedDecimal v ∧
    (v = 0 → itoa v = "0") ∧
    (0 ≤ v → itoa v = decimal v.toNat) ∧
    (v < 0 → itoa v = "-" ++ decimal v.natAbs) ∧
    (∀ b : Int, minInt64 ≤ b → b < 2 ^ 63 → ∃ str : String, itoaBuf b = some str) ∧
    (∀ a b : Int, minInt64 ≤ a → a < 2 ^ 63 → minInt64 ≤ b → b < 2 ^ 63 →
      formatID a = formatID b → a = b) := by
  have hv : itoa v = signedDecimal v := by
    rcases itoa_cases v (le_of_lt hlo) hhi with ⟨e, _⟩ | ⟨_, n, r⟩ | ⟨p, r⟩
    · exact absurd e (ne_of_gt hlo)
    · simp [itoa, r, signedDecimal, n]
    · have hnn : ¬ v < 0 := by omega
      simp [itoa, r, signedDecimal, hnn]
  refine ⟨hv, ?_, ?_, ?_, ?_, ?_⟩
  · intro h0
    rw [hv, h0]
    simp [signedDecimal, decimal]
  · intro h0
    have hnn : ¬ v < 0 := by omega
    rw [hv]
    simp [signedDecimal, hnn]
  · intro hneg
    rw [hv]
    simp [signedDecimal, hneg]
  · intro b hb hb2
    rcases itoa_cases b hb hb2 with ⟨_, r⟩ | ⟨_, _, r⟩ | ⟨_, r⟩ <;> exact ⟨_, r⟩
  · intro a b ha ha2 hb hb2 h
    unfold formatID at h
    have h2 := congrArg String.data h
    simp only [String.data_append] at h2
    exact itoa_injective_int64 ha ha2 hb hb2 (String.ext (List.append_cancel_left h2))

/-- Witness of C40: the negative value -42. -/
theorem C40_itoa_decimal_witness :
    (minInt64 < (-42 : Int) ∧ (-42 : Int) < 2 ^ 63) ∧
    itoa (-42) = signedDecimal (-42) ∧
    itoa (-42) = "-42" :=
  ⟨⟨by decide, by decide⟩,
    (C40_itoa_decimal (-42) (by decide) (by decide)).1, by decide⟩

/-! ## Artifacts across operations -/

theorem prefix_singleton {α : Type} (l : List α) (a : α) : l <+: [a] ↔ l = [] ∨ l = [a] := by
  cases l with
  | nil => simp
  | cons b rest =>
    rw [List.cons_prefix_cons, List.prefix_nil]
    simp

/-- The helper `StreamDemo` is the progression `streamDemo` run without a session. -/
theorem StreamDemo_eq (srv : Server) (task : Task) (tRun tArt tDone tPut : Time) :
    DefaultHandler.StreamDemo srv task tRun tArt tDone tPut =
      opsImpl.streamDemo srv Context.Background task tRun tArt tDone tPut := rfl

/-- The task `CompleteText` leaves stored under the task's ID. -/
theorem CompleteText_get (srv : Server) (task : Task) (text : String)
    (tArt tDone tPut : Time) :
    (DefaultHandler.CompleteText srv task text tArt tDone tPut).tasks.get task.ID =
      some { task with
        Status := { State := TaskCompleted, UpdatedAt := tDone }
        Artifacts := [{ ID := "a-" ++ task.ID, CreatedAt := tArt,
                        Parts := [{ Typ := "text", Text := text }] }] } := by
  simp [DefaultHandler.CompleteText, taskStore.get_put]

/-- C31, counterexample. (a) The server holds the completed task `t-1` with the artifact
"ok"; `CompleteText(task, "done")` on it leaves the single artifact "done", and the prior
sequence is not a prefix of the new one. (b) A store holds the running task `t-1` with one
artifact "processing..."; a Send continuing it succeeds and leaves the single artifact
"ok", and the prior sequence is not a prefix of the new one. -/
theorem C31_counterexample :
    ((srvCompleted streamingCard).tasks.get "t-1" = some (completedTask firstTask 3 4) ∧
      (completedTask firstTask 3 4).Artifacts =
        [{ ID := "a-t-1", CreatedAt := 3, Parts := [{ Typ := "text", Text := "ok" }] }] ∧
      ∃ t1 : Task,
        (DefaultHandler.CompleteText (srvCompleted streamingCard)
          (completedTask firstTask 3 4) "done" 6 7 8).tasks.get "t-1" = some t1 ∧
        t1.Artifacts =
          [{ ID := "a-t-1", CreatedAt := 6, Parts := [{ Typ := "text", Text := "done" }] }] ∧
        ¬ (completedTask firstTask 3 4).Artifacts <+: t1.Artifacts) ∧
    ((srvArtifact streamingCard).tasks.get "t-1" = some artifactTask ∧
      artifactTask.Status.State = TaskRunning ∧
      artifactTask.Artifacts =
        [{ ID := "a-t-1", CreatedAt := 2,
           Parts := [{ Typ := "text", Text := "processing..." }] }] ∧
      ∃ t1 : Task,
        (opsImpl.MessageSend (srvArtifact streamingCard)
          (RawParams.decoded { TaskID := some "t-1", Messages := [textMessage] })
          6 7 8 9 10).2 = { Result := some (ResultValue.task t1) } ∧
        (opsImpl.MessageSend (srvArtifact streamingCard)
          (RawParams.decoded { TaskID := some "t-1", Messages := [textMessage] })
          6 7 8 9 10).1.tasks.get "t-1" = some t1 ∧
        t1.Artifacts =
          [{ ID := "a-t-1", CreatedAt := 8, Parts := [{ Typ := "text", Text := "ok" }] }] ∧
        ¬ artifactTask.Artifacts <+: t1.Artifacts) :=
  ⟨⟨rfl, rfl, _, rfl, rfl, by decide⟩, ⟨rfl, rfl, rfl, _, rfl, rfl, rfl, by decide⟩⟩

/-- C31, amended. Artifacts are append-only under the streaming progression and under
Cancel, and are replaced by Send and `CompleteText`. For every server and every stored
task: the streaming progression (`streamDemo`, and the helper `StreamDemo`) leaves the
task's artifact sequence followed by exactly one new artifact, and Cancel leaves the
sequence as it is, so the prior sequence is a prefix of the new one; a Send that
continues the task leaves the sequence as it is when it suspends the task and otherwise
replaces it by the single artifact "ok", and `CompleteText` replaces it by its single
text artifact, so after these two the prior sequence is a prefix of the new one exactly
when it was empty or was that single artifact. -/
theorem C31_artifacts (srv : Server) (task : Task)
    (hget : srv.tasks.get task.ID = some task) (hne : task.ID ≠ "") :
    (∀ (ctx : Context) (tRun tArt tDone tPut : Time), ∃ t1 : Task,
      (opsImpl.streamDemo srv ctx task tRun tArt tDone tPut).1.tasks.get task.ID = some t1 ∧
      t1.Artifacts = task.Artifacts ++
        [{ ID := "a-" ++ task.ID, CreatedAt := tArt,
           Parts := [{ Typ := "text", Text := "processing..." }] }] ∧
      task.Artifacts <+: t1.Artifacts) ∧
    (∀ (tRun tArt tDone tPut : Time), ∃ t1 : Task,
      (DefaultHandler.StreamDemo srv task tRun tArt tDone tPut).1.tasks.get task.ID =
        some t1 ∧
      t1.Artifacts = task.Artifacts ++
        [{ ID := "a-" ++ task.ID, CreatedAt := tArt,
           Parts := [{ Typ := "text", Text := "processing..." }] }] ∧
      task.Artifacts <+: t1.Artifacts) ∧
    (∀ (tNow tPut : Time), ∃ t1 : Task,
      (opsImpl.TasksCancel srv (RawParams.decoded { ID := task.ID }) tNow tPut).1.tasks.get
        task.ID = some t1 ∧
      t1.Artifacts = task.Artifacts ∧ task.Artifacts <+: t1.Artifacts) ∧
    (∀ (p : MessageParams) (tNew tTouch tArt tDone tPut : Time),
      p.TaskID = some task.ID → p.Messages ≠ [] → ¬ Terminal task.Status.State →
      ∃ t1 : Task,
        (opsImpl.MessageSend srv (RawParams.decoded p) tNew tTouch tArt tDone tPut).2 =
          { Result := some (ResultValue.task t1) } ∧
        (opsImpl.MessageSend srv (RawParams.decoded p) tNew tTouch tArt tDone tPut).1.tasks.get
          task.ID = some t1 ∧
        (Suspends p.Messages → t1.Artifacts = task.Artifacts) ∧
        (¬ Suspends p.Messages →
          t1.Artifacts = [{ ID := "a-" ++ task.ID, CreatedAt := tArt,
                            Parts := [{ Typ := "text", Text := "ok" }] }] ∧
          (task.Artifacts <+: t1.Artifacts ↔
            task.Artifacts = [] ∨
            task.Artifacts = [{ ID := "a-" ++ task.ID, CreatedAt := tArt,
                                Parts := [{ Typ := "text", Text := "ok" }] }]))) ∧
    (∀ (text : String) (tArt tDone tPut : Time), ∃ t1 : Task,
      (DefaultHandler.CompleteText srv task text tArt tDone tPut).tasks.get task.ID =
        some t1 ∧
      t1.Artifacts = [{ ID := "a-" ++ task.ID, CreatedAt := tArt,
                        Parts := [{ Typ := "text", Text := text }] }] ∧
      (task.Artifacts <+: t1.Artifacts ↔
        task.Artifacts = [] ∨
        task.Artifacts = [{ ID := "a-" ++ task.ID, CreatedAt := tArt,
                            Parts := [{ Typ := "text", Text := text }] }])) := by
  refine ⟨?_, ?_, ?_, ?_, ?_⟩
  · intro ctx tRun tArt tDone tPut
    exact ⟨_, streamDemo_get srv ctx task tRun tArt tDone tPut, rfl,
      List.prefix_append _ _⟩
  · intro tRun tArt tDone tPut
    rw [StreamDemo_eq]
    exact ⟨_, streamDemo_get srv Context.Background task tRun tArt tDone tPut, rfl,
      List.prefix_append _ _⟩
  · intro tNow tPut
    rw [TasksCancel_stored srv task.ID task tNow tPut hne hget]
    refine ⟨canceledTask task tNow, ?_, rfl, List.prefix_refl _⟩
    simp [taskStore.get_sync, canceledTask, hget]
  · intro p tNew tTouch tArt tDone tPut hid hmsgs hnt
    have hc : continued srv p = some task := continued_of hid hne hget
    rw [MessageSend_continue srv p task tNew tTouch tArt tDone tPut hmsgs hc hnt]
    by_cases hs : Suspends p.Messages
    · rw [if_pos hs]
      refine ⟨suspendedTask task p.Messages tTouch, rfl, ?_, fun _ => rfl,
        fun h => absurd hs h⟩
      simp [taskStore.get_sync, suspendedTask, hget]
    · rw [if_neg hs]
      refine ⟨completedTask task tArt tDone, rfl, ?_, fun h => absurd h hs,
        fun _ => ⟨rfl, ?_⟩⟩
      · simp [taskStore.get_sync, completedTask, hget]
      · exact prefix_singleton _ _
  · intro text tArt tDone tPut
    exact ⟨_, CompleteText_get srv task text tArt tDone tPut, rfl, prefix_singleton _ _⟩

/-- Witness of C31 (amended): the streaming progression on the running task `t-1` that
holds one artifact appends a second one. -/
theorem C31_artifacts_witness :
    ((srvArtifact streamingCard).tasks.get artifactTask.ID = some artifactTask ∧
      artifactTask.ID ≠ "") ∧
    ∃ t1 : Task,
      (opsImpl.streamDemo (srvArtifact streamingCard) Context.Background artifactTask
        9 10 11 12).1.tasks.get artifactTask.ID = some t1 ∧
      t1.Artifacts = artifactTask.Artifacts ++
        [{ ID := "a-" ++ artifactTask.ID, CreatedAt := 10,
           Parts := [{ Typ := "text", Text := "processing..." }] }] ∧
      artifactTask.Artifacts <+: t1.Artifacts :=
  ⟨⟨rfl, by decide⟩,
    (C31_artifacts (srvArtifact streamingCard) artifactTask rfl (by decide)).1
      Context.Background 9 10 11 12⟩

/-! ## Subscriptions belong to stored tasks -/

theorem taskStore.PushOwned_of {s s' : taskStore} (h : s.PushOwned)
    (hp : s'.push = s.push) (hk : ∀ id : String, s.get id ≠ none → s'.get id ≠ none) :
    s'.PushOwned := by
  intro id hid
  rw [hp] at hid
  exact hk id (h id hid)

theorem taskStore.PushOwned_addPush {s : taskStore} (h : s.PushOwned) (taskID : String)
    (cfg : PushNotificationConfig) : (s.addPush taskID cfg).1.PushOwned := by
  cases hg : itemsGet s.items taskID with
  | none =>
    simp only [taskStore.addPush, hg]
    exact h
  | some t =>
    simp only [taskStore.addPush, hg]
    intro id hid
    simp only [mapGet_mapSet] at hid
    by_cases hk : taskID = id
    · subst hk
      simp [taskStore.get, hg]
    · simp only [hk, if_false] at hid
      exact h id hid

theorem taskStore.PushOwned_deletePush {s : taskStore} (h : s.PushOwned)
    (taskID cfgID : String) : (s.deletePush taskID cfgID).1.PushOwned := by
  cases hm : mapGet s.push taskID with
  | none =>
    simp only [taskStore.deletePush, hm]
    exact h
  | some m =>
    cases hc : cfgGet m cfgID with
    | none =>
      simp only [taskStore.deletePush, hm, hc]
      exact h
    | some c =>
      simp only [taskStore.deletePush, hm, hc]
      intro id hid
      simp only [mapGet_mapSet] at hid
      by_cases hk : taskID = id
      · subst hk
        exact h taskID (by simp [hm])
      · simp only [hk, if_false] at hid
        exact h id hid

theorem taskStore.PushOwned_storeStep {s s' : taskStore} (h : s.PushOwned)
    (hs : StoreStep s s') : s'.PushOwned := by
  cases hs with
  | newTask cid now =>
    have hk : ∀ id : String, s.get id ≠ none → (s.newTask cid now).1.get id ≠ none := by
      intro id hid
      rw [taskStore.get_newTask]
      by_cases hi : formatID (wrap64 (s.seq + 1)) = id
      · simp [hi]
      · simpa [hi] using hid
    exact taskStore.PushOwned_of h rfl hk
  | put task now => exact taskStore.PushOwned_of h rfl (Keeps.put s task now).1
  | sync task => exact taskStore.PushOwned_of h rfl (Keeps.sync s task).1
  | addPush taskID cfg => exact taskStore.PushOwned_addPush h taskID cfg
  | deletePush taskID cfgID => exact taskStore.PushOwned_deletePush h taskID cfgID

theorem taskStore.PushOwned_engineStep {s s' : taskStore} (h : s.PushOwned)
    (hs : EngineStep s s') : s'.PushOwned := by
  rcases hs with rfl | ⟨x, rfl⟩ | ⟨cid, now, x, rfl⟩
  · exact h
  · exact taskStore.PushOwned_storeStep h (StoreStep.sync _ _)
  · exact taskStore.PushOwned_storeStep
      (taskStore.PushOwned_storeStep h (StoreStep.newTask _ cid now)) (StoreStep.sync _ _)

theorem taskStore.PushOwned_reached {srv : Server} (h : Reached srv) :
    srv.tasks.PushOwned := by
  induction h with
  | init card =>
    intro id hid
    simp [New, newTaskStore, mapGet] at hid
  | engine c _ ih => exact taskStore.PushOwned_engineStep ih (EngineCall.apply_step _ c)
  | registry _ hs ih => exact taskStore.PushOwned_storeStep ih hs

/-- C35. Subscriptions exist only for stored tasks: in every server reached from a fresh
one by registry and engine operations, every task ID that has a subscription map is the
ID of a stored task, so `getPush(taskID, cfgID)` is not-found whenever `taskID` is not
stored, and every config found is filed under the ID it carries, for a stored task. -/
theorem C35_subscriptions_owned (srv : Server) (h : Reached srv) :
    (∀ taskID : String, mapGet srv.tasks.push taskID ≠ none →
      ∃ t : Task, srv.tasks.get taskID = some t) ∧
    (∀ taskID cfgID : String, srv.tasks.get taskID = none →
      srv.tasks.getPush taskID cfgID = none) ∧
    (∀ (taskID cfgID : String) (cfg : PushNotificationConfig),
      srv.tasks.getPush taskID cfgID = some cfg →
      cfg.ID = cfgID ∧ ∃ t : Task, srv.tasks.get taskID = some t) := by
  have hown := taskStore.PushOwned_reached h
  have hstored : ∀ taskID : String, mapGet srv.tasks.push taskID ≠ none →
      ∃ t : Task, srv.tasks.get taskID = some t := by
    intro taskID hm
    exact Option.ne_none_iff_exists'.mp (hown taskID hm)
  refine ⟨hstored, ?_, ?_⟩
  · intro taskID cfgID hget
    cases hm : mapGet srv.tasks.push taskID with
    | none => simp [taskStore.getPush, hm]
    | some m =>
      exact absurd hget (hown taskID (by simp [hm]))
  · intro taskID cfgID cfg hg
    cases hm : mapGet srv.tasks.push taskID with
    | none => simp [taskStore.getPush, hm] at hg
    | some m =>
      simp only [taskStore.getPush, hm] at hg
      exact ⟨(cfgGet_mem hg).2, hstored taskID (by simp [hm])⟩

/-- Witness of C35: the server after one send (task `t-1`) and one `addPush` on it. -/
theorem C35_subscriptions_owned_witness :
    Reached { (srvCompleted pushCard) with
      tasks := ((srvCompleted pushCard).tasks.addPush "t-1"
        { ID := "", URL := "https://x" }).1 } ∧
    (∀ taskID cfgID : String,
      ({ (srvCompleted pushCard) with
        tasks := ((srvCompleted pushCard).tasks.addPush "t-1"
          { ID := "", URL := "https://x" }).1 } : Server).tasks.get taskID = none →
      ({ (srvCompleted pushCard) with
        tasks := ((srvCompleted pushCard).tasks.addPush "t-1"
          { ID := "", URL := "https://x" }).1 } : Server).tasks.getPush taskID cfgID = none) :=
  ⟨Reached.registry
      (Reached.engine
        (EngineCall.send (RawParams.decoded { Messages := [textMessage] }) 1 2 3 4 5)
        (Reached.init pushCard))
      (StoreStep.addPush _ "t-1" { ID := "", URL := "https://x" }),
    (C35_subscriptions_owned _
      (Reached.registry
        (Reached.engine
          (EngineCall.send (RawParams.decoded { Messages := [textMessage] }) 1 2 3 4 5)
          (Reached.init pushCard))
        (StoreStep.addPush _ "t-1" { ID := "", URL := "https://x" }))).2.1⟩

/-! ## Generated IDs against caller-chosen IDs -/

theorem cfgSet_length (m : List PushNotificationConfig) (cfg : PushNotificationConfig) :
    (cfgSet m cfg).length =
      if cfg.ID ∈ m.map (fun c => c.ID) then m.length else m.length + 1 := by
  have h := congrArg List.length (cfgSet_ids m cfg)
  rw [List.length_map] at h
  rw [h]
  by_cases hin : cfg.ID ∈ m.map (fun c => c.ID)
  · simp [hin]
  · simp [hin]

/-- C37. Adding a subscription with an empty config ID can overwrite an existing one.
The store is reached by `newTask` (task `t-1`) and `addPush` of a config carrying the
caller-chosen ID "pc-2", which moves the counter to 1. `addPush` with an empty ID then
generates "pc-2" from the counter value 2 and files the new config over the existing
one: the task still lists one subscription, and the pair retrievable under "pc-2" has
changed. In general, for a stored task in a store with one entry per config ID, an
`addPush` with empty ID adds one subscription and keeps every retrievable pair exactly
when the generated ID is not already an ID of that task; otherwise the count stays and
the entry under the generated ID is replaced. -/
theorem C37_generated_id_overwrites :
    StoreSteps 2 newTaskStore collisionDemo ∧
    collisionDemo.get "t-1" = some firstTask ∧
    collisionDemo.pseq = 1 ∧
    collisionDemo.listPush "t-1" = some [{ ID := "pc-2", URL := "https://a" }] ∧
    collisionDemo.getPush "t-1" "pc-2" = some { ID := "pc-2", URL := "https://a" } ∧
    (collisionDemo.addPush "t-1" { ID := "", URL := "https://b" }).2 =
      some { ID := "pc-2", URL := "https://b" } ∧
    (collisionDemo.addPush "t-1" { ID := "", URL := "https://b" }).1.listPush "t-1" =
      some [{ ID := "pc-2", URL := "https://b" }] ∧
    (collisionDemo.addPush "t-1" { ID := "", URL := "https://b" }).1.getPush "t-1" "pc-2" =
      some { ID := "pc-2", URL := "https://b" } ∧
    (∀ (s : taskStore) (taskID : String) (cfg : PushNotificationConfig) (t : Task),
      s.PushOK → s.get taskID = some t → cfg.ID = "" →
      ∃ l l1 : List PushNotificationConfig,
        s.listPush taskID = some l ∧
        (s.addPush taskID cfg).1.listPush taskID = some l1 ∧
        (s.nextPushID ∉ l.map (fun c => c.ID) →
          l1.length = l.length + 1 ∧
          ∀ (cfgID : String) (c : PushNotificationConfig),
            s.getPush taskID cfgID = some c →
            (s.addPush taskID cfg).1.getPush taskID cfgID = some c) ∧
        (s.nextPushID ∈ l.map (fun c => c.ID) →
          l1.length = l.length ∧
          (s.addPush taskID cfg).1.getPush taskID s.nextPushID =
            some { cfg with ID := s.nextPushID })) := by
  refine ⟨StoreSteps.step (StoreSteps.step (StoreSteps.refl _)
      (StoreStep.newTask _ none 1)) (StoreStep.addPush _ "t-1" _),
    rfl, rfl, by decide, by decide, by decide, by decide, by decide, ?_⟩
  intro s taskID cfg t hok hget he
  have hg : itemsGet s.items taskID = some t := hget
  have hout : (if (cfg.ID == "") = true then
      ({ cfg with ID := "pc-" ++ itoa (wrap64 (s.pseq + 1)) } : PushNotificationConfig)
      else cfg) = { cfg with ID := s.nextPushID } := by
    simp [he, taskStore.nextPushID]
  have hl : s.listPush taskID = some ((mapGet s.push taskID).getD []) := by
    cases hm : mapGet s.push taskID <;> simp [taskStore.listPush, hg, hm]
  have hgp : ∀ cfgID : String,
      s.getPush taskID cfgID = cfgGet ((mapGet s.push taskID).getD []) cfgID := by
    intro cfgID
    cases hm : mapGet s.push taskID <;> simp [taskStore.getPush, hm, cfgGet]
  refine ⟨(mapGet s.push taskID).getD [],
    cfgSet ((mapGet s.push taskID).getD []) { cfg with ID := s.nextPushID }, hl, ?_, ?_, ?_⟩
  · simp only [taskStore.addPush, hg, hout, taskStore.listPush, mapGet_mapSet, if_true]
  · intro hnin
    refine ⟨?_, ?_⟩
    · rw [cfgSet_length]
      simp [hnin]
    · intro cfgID c hc
      rw [hgp] at hc
      have hne : ¬ s.nextPushID = cfgID := by
        intro e
        apply hnin
        rw [e, ← (cfgGet_mem hc).2]
        exact List.mem_map_of_mem _ (cfgGet_mem hc).1
      simp only [taskStore.addPush, hg, hout, taskStore.getPush, mapGet_mapSet, if_true,
        cfgGet_cfgSet, hne, if_false]
      exact hc
  · intro hin
    refine ⟨?_, ?_⟩
    · rw [cfgSet_length]
      simp [hin]
    · simp only [taskStore.addPush, hg, hout, taskStore.getPush, mapGet_mapSet, if_true,
        cfgGet_cfgSet]

/-! ## A `taskId` that names no stored task -/

theorem CreatedFresh.of_get {srv srv1 : Server} {t : Task}
    (hid : t.ID = formatID (wrap64 (srv.tasks.seq + 1)))
    (hg : ∀ other : String,
      srv1.tasks.get other = if t.ID = other then some t else srv.tasks.get other) :
    CreatedFresh srv srv1 t := by
  refine ⟨hid, by simp [hg], ?_, ?_⟩
  · intro other hne
    have h1 : ¬ t.ID = other := fun e => hne e.symm
    simp [hg, h1]
  · intro n hI hn other e hget
    have hfresh := taskStore.Issued_fresh hI hn
    have hw : wrap64 (srv.tasks.seq + 1) = srv.tasks.seq + 1 :=
      wrap64_of_range (by have := hI.1; omega) (by have := hI.2.1; omega)
    have h1 : ¬ t.ID = other := by
      intro e1
      rw [hid, hw] at e1
      rw [← e1, hfresh] at hget
      cases hget
    simp [hg, h1, hget]

theorem CreatedFresh.of_sync (srv : Server) (cid : Option String) (now : Time) (x : Task)
    (hx : x.ID = formatID (wrap64 (srv.tasks.seq + 1))) :
    CreatedFresh srv { srv with tasks := ((srv.tasks.newTask cid now).1.sync x) } x := by
  apply CreatedFresh.of_get hx
  intro other
  simp only [taskStore.get_sync, taskStore.get_newTask, hx]
  by_cases h : formatID (wrap64 (srv.tasks.seq + 1)) = other
  · simp [h]
  · simp [h]

theorem CreatedFresh.of_newTask (srv : Server) (cid : Option String) (now : Time) :
    CreatedFresh srv { srv with tasks := (srv.tasks.newTask cid now).1 }
      (srv.tasks.newTask cid now).2 := by
  apply CreatedFresh.of_get rfl
  intro other
  rw [taskStore.get_newTask]
  rfl

/-- C38, counterexample. The server holds task `t-1` and its counter is 1. A send with
`taskId: "t-2"`, which names no stored task, creates a task under the next counter
value: its ID is "t-2", the supplied ID. -/
theorem C38_counterexample :
    "t-2" ≠ "" ∧
    (srvCompleted streamingCard).tasks.get "t-2" = none ∧
    (srvCompleted streamingCard).tasks.seq = 1 ∧
    ∃ (srv1 : Server) (t : Task),
      opsImpl.MessageSend (srvCompleted streamingCard)
          (RawParams.decoded { TaskID := some "t-2", Messages := [textMessage] })
          6 7 8 9 10 =
        (srv1, { Result := some (ResultValue.task t), Error := none }) ∧
      t.ID = "t-2" ∧ srv1.tasks.get "t-2" = some t :=
  ⟨by decide, rfl, rfl, _, _, rfl, rfl, rfl⟩

/-- C38, amended. For every server and every `opsImpl.MessageSend` or `MessageStream`
request (non-empty messages; streaming enabled for the stream) whose `taskId` is
non-empty but names no stored task, the call does not fail: it returns, with no error, a
new task filed under the server-allocated ID "t-" followed by the next counter value,
whatever the supplied ID, so the new ID is the supplied one exactly when the supplied ID
is that next ID; the record of every other ID is as before, and in a store whose IDs
were issued by the counter every previously stored task is unchanged. -/
theorem C38_unknown_task_id (srv : Server) (ctx : Context) (p : MessageParams) (id : String)
    (tNew tTouch tArt tDone tPut : Time)
    (hid : p.TaskID = some id) (hne : id ≠ "") (hget : srv.tasks.get id = none)
    (hmsgs : p.Messages ≠ []) :
    (∃ (srv1 : Server) (t : Task),
      opsImpl.MessageSend srv (RawParams.decoded p) tNew tTouch tArt tDone tPut =
        (srv1, { Result := some (ResultValue.task t), Error := none }) ∧
      CreatedFresh srv srv1 t ∧
      (t.ID = id ↔ id = formatID (wrap64 (srv.tasks.seq + 1)))) ∧
    (AgentCard.StreamingSupported (some srv.card) = true →
      ∃ (srv1 : Server) (t : Task) (work : Spawned),
        opsImpl.MessageStream srv ctx (RawParams.decoded p) tNew tTouch tPut =
          (srv1, { Result := some (ResultValue.task t), Error := none }, work) ∧
        CreatedFresh srv srv1 t ∧
        (t.ID = id ↔ id = formatID (wrap64 (srv.tasks.seq + 1)))) := by
  have hc : continued srv p = none := by simp [continued, hid, hne, hget]
  have hiff : ∀ t : Task, t.ID = formatID (wrap64 (srv.tasks.seq + 1)) →
      (t.ID = id ↔ id = formatID (wrap64 (srv.tasks.seq + 1))) := by
    intro t hf
    rw [hf]
    exact eq_comm
  refine ⟨?_, ?_⟩
  · rw [MessageSend_create srv p tNew tTouch tArt tDone tPut hmsgs hc]
    by_cases hs : Suspends p.Messages
    · rw [if_pos hs]
      exact ⟨_, _, rfl, CreatedFresh.of_sync srv _ _ _ rfl,
        hiff _ rfl⟩
    · rw [if_neg hs]
      exact ⟨_, _, rfl, CreatedFresh.of_sync srv _ _ _ rfl,
        hiff _ rfl⟩
  · intro hstream
    rw [MessageStream_create srv ctx p tNew tTouch tPut hstream hmsgs hc]
    by_cases hs : Suspends p.Messages
    · rw [if_pos hs]
      exact ⟨_, _, _, rfl, CreatedFresh.of_sync srv _ _ _ rfl,
        hiff _ rfl⟩
    · rw [if_neg hs]
      exact ⟨_, _, _, rfl, CreatedFresh.of_newTask srv _ _,
        hiff _ rfl⟩

/-- Witness of C38 (amended): the server holds `t-1`; a send with `taskId: "t-7"`
creates `t-2`. -/
theorem C38_unknown_task_id_witness :
    ("t-7" ≠ "" ∧ (srvCompleted streamingCard).tasks.get "t-7" = none ∧
      [textMessage] ≠ []) ∧
    ∃ (srv1 : Server) (t : Task),
      opsImpl.MessageSend (srvCompleted streamingCard)
          (RawParams.decoded { TaskID := some "t-7", Messages := [textMessage] })
          6 7 8 9 10 =
        (srv1, { Result := some (ResultValue.task t), Error := none }) ∧
      CreatedFresh (srvCompleted streamingCard) srv1 t ∧
      (t.ID = "t-7" ↔
        "t-7" = formatID (wrap64 ((srvCompleted streamingCard).tasks.seq + 1))) :=
  ⟨⟨by decide, rfl, by simp⟩,
    (C38_unknown_task_id (srvCompleted streamingCard) Context.Background
      { TaskID := some "t-7", Messages := [textMessage] } "t-7" 6 7 8 9 10
      rfl (by decide) rfl (by simp)).1⟩

/-! ## The default behaviour of `DefaultOperations.MessageSend` -/

/-- An accepted `DefaultOperations.MessageSend`: a task is created and completed, whatever
the `taskId` and the directive. -/
theorem DefaultSend_create (srv : Server) (p : MessageParams) (tNew tArt tDone tPut : Time)
    (hmsgs : p.Messages ≠ [])
    (hnt : ∀ e, continued srv p = some e → ¬ Terminal e.Status.State) :
    DefaultOperations.MessageSend srv (RawParams.decoded p) tNew tArt tDone tPut =
      ({ srv with tasks := ((srv.tasks.newTask p.ContextID tNew).1.sync
            (completedTask (srv.tasks.newTask p.ContextID tNew).2 tArt tDone)) },
        { Result := some (ResultValue.task
            (completedTask (srv.tasks.newTask p.ContextID tNew).2 tArt tDone)) }) := by
  have hlen : ¬ p.Messages = [] := hmsgs
  have hnew := taskStore.newTask_get srv.tasks p.ContextID tNew
  have hterm : (match p.TaskID with
      | some id =>
        if (id != "") = true then
          match srv.tasks.get id with
          | some existing => isTerminal existing.Status.State
          | none => false
        else false
      | none => false) = false := by
    cases hid : p.TaskID with
    | none => rfl
    | some id =>
      by_cases hne : id = ""
      · simp [hne]
      · cases hg : srv.tasks.get id with
        | none => simp [hne, hg]
        | some e =>
          have hc : continued srv p = some e := continued_of hid hne hg
          simp [hne, hg, isTerminal_false (hnt e hc)]
  simp only [DefaultOperations.MessageSend, hterm]
  simp [hlen, completedTask, okArtifact]
  exact taskStore.sync_sync_put _ _ _ _ _ rfl hnew

/-- The terminal guard of `DefaultOperations.MessageSend`. -/
theorem DefaultSend_terminal (srv : Server) (p : MessageParams) (e : Task)
    (tNew tArt tDone tPut : Time) (hmsgs : p.Messages ≠ [])
    (hc : continued srv p = some e) (ht : Terminal e.Status.State) :
    DefaultOperations.MessageSend srv (RawParams.decoded p) tNew tArt tDone tPut =
      (srv, { Error := some { Code := -32006, Message := "task is in terminal state" } }) := by
  obtain ⟨id, hid, hne, hget, _⟩ := continued_some hc
  have hT := isTerminal_of_Terminal ht
  have hlen : ¬ p.Messages = [] := hmsgs
  simp [DefaultOperations.MessageSend, hid, hne, hget, hT, hlen]

/-- The terminal guard of `opsImpl.MessageSend`, with its response. -/
theorem MessageSend_guard (srv : Server) (p : MessageParams) (e : Task)
    (tNew tTouch tArt tDone tPut : Time) (hmsgs : p.Messages ≠ [])
    (hc : continued srv p = some e) (ht : Terminal e.Status.State) :
    opsImpl.MessageSend srv (RawParams.decoded p) tNew tTouch tArt tDone tPut =
      (srv, { Error := some { Code := -32006, Message := "task is in terminal state" } }) := by
  obtain ⟨id, hid, hne, hget, _⟩ := continued_some hc
  have hT := isTerminal_of_Terminal ht
  have hlen : ¬ p.Messages = [] := hmsgs
  simp [opsImpl.MessageSend, hid, hne, hget, hT, hlen]

/-- C39, counterexample. (a) On a fresh server, a send carrying the challenge (directive
required, no token): `opsImpl.MessageSend` returns task `t-1` in auth-required with no
artifact, `DefaultOperations.MessageSend` returns `t-1` completed with the artifact "ok".
(b) On the server holding the running task `t-1`, a send with `taskId: "t-1"`:
`opsImpl.MessageSend` continues `t-1` and creates nothing, `DefaultOperations.MessageSend`
creates and returns `t-2`. -/
theorem C39_counterexample :
    (∃ t1 t2 : Task,
      (opsImpl.MessageSend (New streamingCard)
        (RawParams.decoded { Messages := [challengeMessage] }) 1 2 3 4 5).2 =
          { Result := some (ResultValue.task t1) } ∧
      (DefaultOperations.MessageSend (New streamingCard)
        (RawParams.decoded { Messages := [challengeMessage] }) 1 3 4 5).2 =
          { Result := some (ResultValue.task t2) } ∧
      t1.ID = "t-1" ∧ t2.ID = "t-1" ∧
      t1.Status.State = TaskAuthRequired ∧ t2.Status.State = TaskCompleted ∧
      t1.Artifacts = [] ∧
      t2.Artifacts =
        [{ ID := "a-t-1", CreatedAt := 3, Parts := [{ Typ := "text", Text := "ok" }] }]) ∧
    (∃ t1 t2 : Task,
      (opsImpl.MessageSend (srvRunning streamingCard)
        (RawParams.decoded { TaskID := some "t-1", Messages := [textMessage] })
        6 7 8 9 10).2 = { Result := some (ResultValue.task t1) } ∧
      (DefaultOperations.MessageSend (srvRunning streamingCard)
        (RawParams.decoded { TaskID := some "t-1", Messages := [textMessage] })
        6 8 9 10).2 = { Result := some (ResultValue.task t2) } ∧
      t1.ID = "t-1" ∧ t2.ID = "t-2" ∧
      (opsImpl.MessageSend (srvRunning streamingCard)
        (RawParams.decoded { TaskID := some "t-1", Messages := [textMessage] })
        6 7 8 9 10).1.tasks.seq = 1 ∧
      (DefaultOperations.MessageSend (srvRunning streamingCard)
        (RawParams.decoded { TaskID := some "t-1", Messages := [textMessage] })
        6 8 9 10).1.tasks.seq = 2) :=
  ⟨⟨_, _, rfl, rfl, rfl, rfl, rfl, rfl, rfl, rfl⟩, ⟨_, _, rfl, rfl, rfl, rfl, rfl, rfl⟩⟩

/-- C39, amended. The default behaviour of `DefaultOperations.MessageSend` (no
`OnMessageSend` callback) agrees with `opsImpl.MessageSend` on rejected requests and on
requests that name no stored task and are not suspended by the detector, and differs
otherwise. For every server and request: absent, malformed or message-less parameters
give the same invalid-params answer and leave the server unchanged; a `taskId` naming a
stored terminal task gives the same -32006 answer with the server unchanged; when the
request continues no stored task and the detector does not suspend it, both produce the
same response and the same store. Every other accepted request is answered differently:
`DefaultOperations.MessageSend` never continues a task and never consults the detector,
it always creates a task under the next ID and returns it completed with the artifact
"ok", while `opsImpl.MessageSend` returns the continued task under its own ID, or a
task in auth-required when the detector suspends it. -/
theorem C39_default_send (srv : Server) (p : MessageParams)
    (tNew tTouch tArt tDone tPut : Time) :
    (opsImpl.MessageSend srv RawParams.absent tNew tTouch tArt tDone tPut =
        DefaultOperations.MessageSend srv RawParams.absent tNew tArt tDone tPut ∧
      opsImpl.MessageSend srv RawParams.malformed tNew tTouch tArt tDone tPut =
        DefaultOperations.MessageSend srv RawParams.malformed tNew tArt tDone tPut ∧
      (p.Messages = [] →
        opsImpl.MessageSend srv (RawParams.decoded p) tNew tTouch tArt tDone tPut =
          DefaultOperations.MessageSend srv (RawParams.decoded p) tNew tArt tDone tPut ∧
        (DefaultOperations.MessageSend srv (RawParams.decoded p) tNew tArt tDone tPut).1 =
          srv)) ∧
    (p.Messages ≠ [] → ∀ e, continued srv p = some e → Terminal e.Status.State →
      opsImpl.MessageSend srv (RawParams.decoded p) tNew tTouch tArt tDone tPut =
        DefaultOperations.MessageSend srv (RawParams.decoded p) tNew tArt tDone tPut ∧
      DefaultOperations.MessageSend srv (RawParams.decoded p) tNew tArt tDone tPut =
        (srv, { Error := some { Code := -32006, Message := "task is in terminal state" } })) ∧
    (p.Messages ≠ [] → continued srv p = none → ¬ Suspends p.Messages →
      opsImpl.MessageSend srv (RawParams.decoded p) tNew tTouch tArt tDone tPut =
        DefaultOperations.MessageSend srv (RawParams.decoded p) tNew tArt tDone tPut) ∧
    (p.Messages ≠ [] → (∀ e, continued srv p = some e → ¬ Terminal e.Status.State) →
      ∃ (srv2 : Server) (t2 : Task),
        DefaultOperations.MessageSend srv (RawParams.decoded p) tNew tArt tDone tPut =
          (srv2, { Result := some (ResultValue.task t2) }) ∧
        t2 = { ID := formatID (wrap64 (srv.tasks.seq + 1)), ContextID := p.ContextID,
               Status := { State := TaskCompleted, UpdatedAt := tDone },
               Artifacts := [{ ID := "a-" ++ formatID (wrap64 (srv.tasks.seq + 1)),
                               CreatedAt := tArt,
                               Parts := [{ Typ := "text", Text := "ok" }] }] } ∧
        srv2.tasks.seq = wrap64 (srv.tasks.seq + 1) ∧
        (Suspends p.Messages →
          ∃ t1 : Task,
            (opsImpl.MessageSend srv (RawParams.decoded p) tNew tTouch tArt tDone tPut).2 =
              { Result := some (ResultValue.task t1) } ∧
            t1.Status.State = TaskAuthRequired) ∧
        (∀ e, continued srv p = some e →
          ∃ t1 : Task,
            (opsImpl.MessageSend srv (RawParams.decoded p) tNew tTouch tArt tDone tPut).2 =
              { Result := some (ResultValue.task t1) } ∧
            t1.ID = e.ID ∧
            (opsImpl.MessageSend srv (RawParams.decoded p) tNew tTouch tArt tDone tPut).1.tasks.seq =
              srv.tasks.seq)) := by
  refine ⟨⟨rfl, rfl, ?_⟩, ?_, ?_, ?_⟩
  · intro hm
    simp [opsImpl.MessageSend, DefaultOperations.MessageSend, hm]
  · intro hmsgs e hc ht
    rw [MessageSend_guard srv p e tNew tTouch tArt tDone tPut hmsgs hc ht,
      DefaultSend_terminal srv p e tNew tArt tDone tPut hmsgs hc ht]
    exact ⟨rfl, rfl⟩
  · intro hmsgs hc hns
    rw [MessageSend_create srv p tNew tTouch tArt tDone tPut hmsgs hc, if_neg hns,
      DefaultSend_create srv p tNew tArt tDone tPut hmsgs
        (fun e he => by rw [hc] at he; cases he)]
  · intro hmsgs hnt
    rw [DefaultSend_create srv p tNew tArt tDone tPut hmsgs hnt]
    refine ⟨_, _, rfl, ?_, ?_, ?_, ?_⟩
    · simp [completedTask, okArtifact, taskStore.newTask]
    · simp [taskStore.sync, taskStore.newTask]
    · intro hs
      cases hc : continued srv p with
      | none =>
        rw [MessageSend_create srv p tNew tTouch tArt tDone tPut hmsgs hc, if_pos hs]
        exact ⟨_, rfl, rfl⟩
      | some e =>
        rw [MessageSend_continue srv p e tNew tTouch tArt tDone tPut hmsgs hc (hnt e hc),
          if_pos hs]
        exact ⟨_, rfl, rfl⟩
    · intro e hc
      rw [MessageSend_continue srv p e tNew tTouch tArt tDone tPut hmsgs hc (hnt e hc)]
      by_cases hs : Suspends p.Messages
      · rw [if_pos hs]
        exact ⟨_, rfl, rfl, rfl⟩
      · rw [if_neg hs]
        exact ⟨_, rfl, rfl, rfl⟩

/-- Witness of C39 (amended): a plain send to a fresh server is answered alike by both. -/
theorem C39_default_send_witness :
    ([textMessage] ≠ [] ∧
      continued (New streamingCard) { Messages := [textMessage] } = none ∧
      ¬ Suspends [textMessage]) ∧
    opsImpl.MessageSend (New streamingCard)
        (RawParams.decoded { Messages := [textMessage] }) 1 2 3 4 5 =
      DefaultOperations.MessageSend (New streamingCard)
        (RawParams.decoded { Messages := [textMessage] }) 1 3 4 5 :=
  ⟨⟨by simp, rfl, by decide⟩,
    (C39_default_send (New streamingCard) { Messages := [textMessage] } 1 2 3 4 5).2.2.1
      (by simp) rfl (by decide)⟩

end A2A
